import Mathlib

/-!
# EmberServer.js: the matrix routing engine and the tree server

A shallow embedding of `src/EmberServer.js`: the routing engine
(`TreeServer.prototype.handleMatrixConnections`,
`TreeServer.prototype.getDisconnectSource`, `doMatrixOperation`) and, around
it, the state of the server (`TreeServer`): the element tree, the subscription
registry, the commands, value mutation, the handling of relative and
qualified requests from `handleRoot` on, and `replaceElement`.

Conventions of the embedding
* target ids and source ids are `Int`;
* a JavaScript property that may be `undefined` or `null` is an `Option`;
* `matrix.connections` (an object keyed by target id) is a list of
  `MatrixConnection` holding one entry per key, see `Matrix.WF`;
* a `TypeError` raised by the JavaScript code is recorded in a `thrown` flag
  together with the state reached when it was raised;
* the side effects `emit`, `sendBERNode` and `updateSubscribers` are recorded
  in the result of the handler, in the order in which they happen;
* parameter values read by `getDisconnectSource` are integers;
* a path is the list of its numbers, and the registry `subscribers` maps a path
  to its set of clients, a list without order of meaning that holds a client
  once;
* `client.sendBERNode` and `client.queueMessage` append to the lists `sent` and
  `queued` of the server, each entry naming the client.
-/

namespace EmberServer

/-! ## Data model (types of EmberLib, as the handler uses them) -/

/-- The three matrix topologies, `ember.MatrixType`. -/
inductive MatrixType where
  | oneToN
  | oneToOne
  | nToN
deriving DecidableEq, Repr

/-- The operation of a requested connection, `ember.MatrixOperation`. -/
inductive MatrixOperation where
  | absolute
  | connect
  | disconnect
deriving DecidableEq, Repr

/-- The outcome of one requested connection, `ember.MatrixDisposition`. -/
inductive MatrixDisposition where
  | tally
  | modified
  | pending
  | locked
deriving DecidableEq, Repr

/-- Modelled from the spec: the class `MatrixConnection` of EmberLib, which is
not under src/. The spec gives a connection a `target`, its `sources`, a
`disposition` and an optional `locked` flag; a request also carries an
`operation`. `new ember.MatrixConnection(target)` is the record with the given
target and no other property set. -/
structure MatrixConnection where
  target : Int
  sources : Option (List Int) := none
  operation : Option MatrixOperation := none
  disposition : Option MatrixDisposition := none
  locked : Bool := false
deriving DecidableEq, Repr

/-- Modelled from the spec: `MatrixConnection.isLocked` of EmberLib, the
optional `locked` flag of a connection. -/
def MatrixConnection.isLocked (c : MatrixConnection) : Bool := c.locked

/-- The test `c.sources != null && c.sources.length > 0` of the handler. -/
def MatrixConnection.hasSources (c : MatrixConnection) : Bool :=
  match c.sources with
  | some (_ :: _) => true
  | _ => false

/-- The contents of a tree element, of which the handler reads `value`. -/
structure Contents where
  value : Option Int := none
deriving DecidableEq, Repr

/-- An element of the tree, as far as `getDisconnectSource` looks at it: its
number, its contents and its children. -/
inductive Element where
  | mk (number : Int) (contents : Option Contents) (children : List Element)

/-- The result of `element.getNumber()`. -/
def Element.number : Element → Int
  | .mk n _ _ => n

/-- The property `element.contents`. -/
def Element.contents : Element → Option Contents
  | .mk _ c _ => c

/-- The result of `element.getChildren()`. -/
def Element.children : Element → List Element
  | .mk _ _ cs => cs

/-- Modelled from the spec: `getElementByPath` of EmberLib, which is not under
src/. The spec: it "descends from the tree root matching `number` at each
level"; the dot-separated path is given here as the list of its integer
components. -/
def Element.getElementByPath (e : Element) : List Int → Option Element
  | [] => some e
  | n :: rest =>
    match e.children.find? (fun c => decide (c.number = n)) with
    | none => none
    | some c => c.getElementByPath rest

/-- A label of a matrix, `ember.Label`, of which the server reads `basePath`. -/
structure Label where
  basePath : List Int
deriving DecidableEq, Repr

/-- A matrix element: the fields of `matrix.contents` the engine reads, the
connections keyed by target, and the cache `matrix.defaultSources`. -/
structure Matrix where
  number : Int := 0
  path : List Int := []
  type : Option MatrixType := none
  maximumTotalConnects : Option Nat := none
  maximumConnectsPerTarget : Option Nat := none
  labels : Option (List Label) := none
  connections : List MatrixConnection := []
  defaultSources : Option (List Element) := none

/-- The lookup `matrix.connections[target]`. -/
def Matrix.getConnection (m : Matrix) (target : Int) : Option MatrixConnection :=
  m.connections.find? (fun c => decide (c.target = target))

/-- The source list of a target, empty when the target has no connection or the
connection has no source list. -/
def Matrix.sourcesOf (m : Matrix) (target : Int) : List Int :=
  match m.getConnection target with
  | some c => c.sources.getD []
  | none => []

/-- Well-formedness of the embedding of `matrix.connections`: a JavaScript
object has one value per key. -/
def Matrix.WF (m : Matrix) : Prop := (m.connections.map (fun c => c.target)).Nodup

/-- Replaces the source list of the connection of `target` by `f` of the old
one; every other connection is left as it is. The handler calls the functions
built on this one only for targets whose connection it has just read, so a
target without a connection is left without one. -/
def Matrix.updateSources (m : Matrix) (target : Int)
    (f : Option (List Int) → Option (List Int)) : Matrix :=
  { m with connections :=
      m.connections.map (fun c => if c.target = target then { c with sources := f c.sources } else c) }

/-- Modelled from the spec: `matrix.setSources` of EmberLib, which is not under
src/. The spec: "`absolute` replaces sources outright", the sources being a
"set of source ids, ordered". -/
def Matrix.setSources (m : Matrix) (target : Int) (sources : List Int) : Matrix :=
  m.updateSources target (fun _ => some sources.dedup)

/-- Modelled from the spec: `matrix.connectSources` of EmberLib, which is not
under src/. The spec: "`connect` adds to existing sources", the sources being a
"set of source ids, ordered". -/
def Matrix.connectSources (m : Matrix) (target : Int) (sources : List Int) : Matrix :=
  m.updateSources target (fun old => some (old.getD [] ++ sources).dedup)

/-- Modelled from the spec: `matrix.getSourceConnections` of EmberLib, which is
not under src/: the targets whose source set holds `source`, the ones a source
"is already routed to". -/
def Matrix.getSourceConnections (m : Matrix) (source : Int) : List Int :=
  (m.connections.filter (fun c => decide (source ∈ c.sources.getD []))).map (fun c => c.target)

/-- The two functions of EmberLib (not under src/) of which the spec does not
fix the result, taken as parameters of the handler:
`canConnect matrix target sources operation` ("within capacity/topology
rules"), and `disconnectSources old requested`, the source list that
`matrix.disconnectSources(target, requested)` leaves on a target that had the
source list `old`. -/
structure EmberLib where
  canConnect : Matrix → Int → List Int → Option MatrixOperation → Bool
  disconnectSources : Option (List Int) → Option (List Int) → Option (List Int)

/-- A connected client: its `remoteAddress()` and `client.request.isQualified()`. -/
structure Client where
  remoteAddress : String
  requestQualified : Bool := false
deriving DecidableEq, Repr

/-- The names of the domain events the handler emits. -/
inductive EmitType where
  | matrixConnect
  | matrixDisconnect
  | matrixChange
deriving DecidableEq, Repr

/-- One call `this.emit(type, {target, sources, client})`. The handler's local
`emitType` may be `undefined` when it reaches the final `emit`; such a call has
`type = none` and names no event. -/
structure MatrixEvent where
  type : Option EmitType
  target : Int
  sources : Option (List Int)
  client : Option String
deriving DecidableEq, Repr

/-- The expression `client == null ? null : client.remoteAddress()`. -/
def clientAddress (client : Option Client) : Option String :=
  client.map (fun c => c.remoteAddress)

/-- The assignment `res.connections[c.target] = c` on the response. -/
def setResult (res : List MatrixConnection) (c : MatrixConnection) : List MatrixConnection :=
  if res.any (fun r => decide (r.target = c.target)) then
    res.map (fun r => if r.target = c.target then c else r)
  else res ++ [c]

/-- The lookup `res.connections[target]` on the response. -/
def getResult (res : List MatrixConnection) (target : Int) : Option MatrixConnection :=
  res.find? (fun r => decide (r.target = target))

/-! ## getDisconnectSource (src/EmberServer.js, lines 627-646) -/

/-- The expression `matrix.defaultSources[targetID].contents.value`: `none`
when it raises a TypeError (no such index, or an element without contents),
otherwise the value, which may itself be undefined. -/
def defaultSourceValue (defaults : List Element) (targetID : Int) : Option (Option Int) :=
  if targetID < 0 then none
  else
    match defaults.get? targetID.toNat with
    | none => none
    | some e =>
      match e.contents with
      | none => none
      | some c => some c.value

/-- `TreeServer.prototype.getDisconnectSource`. The first component is `none`
when the call raises, otherwise the returned value (`some none` for
`null`/`undefined`); the second is the matrix with its `defaultSources` cache
as the call leaves it. -/
def getDisconnectSource (tree : Element) (matrix : Matrix) (targetID : Int) :
    Option (Option Int) × Matrix :=
  match matrix.defaultSources with
  | some defaults => (defaultSourceValue defaults targetID, matrix)
  | none =>
    match matrix.labels with
    | none => (some none, matrix)
    | some [] => (some none, matrix)
    | some (label :: _) =>
      match tree.getElementByPath label.basePath with
      | none => (none, matrix)
      | some labels =>
        let number := labels.number + 1
        match label.basePath with
        | [] => (none, matrix)
        | _ :: _ =>
          match tree.getElementByPath label.basePath.dropLast with
          | none => (none, matrix)
          | some parent =>
            match parent.children.find? (fun child => decide (child.number = number)) with
            | none => (some none, matrix)
            | some child =>
              let cached := { matrix with defaultSources := some child.children }
              (defaultSourceValue child.children targetID, cached)

/-! ## handleMatrixConnections (src/EmberServer.js, lines 226-399) -/

/-- The variables one pass of the loop body works on: the matrix, the requested
connection (which the body rewrites in places), `conResult`, the connections of
the response, the calls of `emit` so far, the local `emitType`, and whether a
TypeError was raised. -/
structure Step where
  matrix : Matrix
  connection : MatrixConnection
  conResult : MatrixConnection
  res : List MatrixConnection
  emitted : List MatrixEvent
  emitType : Option EmitType := none
  thrown : Bool := false

/-- Appends the call `this.emit(type, {target, sources, client})`, which the
handler makes only `if (response)`. -/
def Step.emit (s : Step) (response : Bool) (client : Option Client) (type : Option EmitType)
    (target : Int) (sources : Option (List Int)) : Step :=
  if response then
    { s with emitted := s.emitted ++ [{ type := type, target := target, sources := sources,
                                        client := clientAddress client }] }
  else s

/-- Lines 258-275: on a oneToOne matrix, a source that is used by exactly one
other target is disconnected from it. -/
def releaseSource (client : Option Client) (response : Bool) (source : Int) (s : Step) : Step :=
  if s.matrix.type = some MatrixType.oneToOne then
    match s.matrix.getSourceConnections source with
    | [other] =>
      if other ≠ s.connection.target then
        let disconnect : MatrixConnection :=
          { target := other, sources := some [], disposition := some MatrixDisposition.modified }
        let s1 := { s with res := setResult s.res disconnect,
                           matrix := s.matrix.setSources other [] }
        s1.emit response client (some EmitType.matrixDisconnect) other s.connection.sources
      else s
    | _ => s
  else s

/-- The test `d != null && d != -1 && d != source` on the result of
`getDisconnectSource`. -/
def usableDefault (d : Option Int) (source : Int) : Bool :=
  match d with
  | none => false
  | some v => decide (v ≠ -1) && decide (v ≠ source)

/-- Lines 279-291: on a oneToN matrix whose target carries the requested
source, the request is rewritten to the default source when there is a usable
one; otherwise only the misspelt property `connection.operarion` is assigned,
which nothing reads. -/
def substituteDefault (tree : Element) (current source : Int) (s : Step) : Step :=
  if s.matrix.type = some MatrixType.oneToN then
    match getDisconnectSource tree s.matrix s.connection.target with
    | (none, m) => { s with matrix := m, thrown := true }
    | (some d, m) =>
      let s1 := { s with matrix := m }
      if current = source then
        match d with
        | some v =>
          if usableDefault d source then
            { s1 with connection := { s1.connection with sources := some [v] } }
          else s1
        | none => s1
      else s1
  else s

/-- Lines 292-306: a target connected to another source than the requested one
is disconnected; on a oneToOne matrix a request for the source the target
already carries is turned into a disconnect. -/
def releaseTarget (client : Option Client) (response : Bool) (current : Int) (s : Step) : Step :=
  if s.thrown then s
  else
    match s.connection.sources with
    | some (requested :: _) =>
      if current ≠ requested then
        let s1 := { s with matrix := s.matrix.setSources s.connection.target [] }
        s1.emit response client (some EmitType.matrixDisconnect) s.connection.target (some [current])
      else if s.matrix.type = some MatrixType.oneToOne then
        { s with connection := { s.connection with operation := some MatrixOperation.disconnect } }
      else s
    | _ => s

/-- Lines 255-308, the branch taken for an unlocked target when the matrix is
not nToN, the operation is not disconnect and exactly one source is
requested. -/
def prepareSingle (tree : Element) (client : Option Client) (response : Bool) (source : Int)
    (s : Step) : Step :=
  let s1 := releaseSource client response source s
  match s1.matrix.getConnection s1.connection.target with
  | none => { s1 with thrown := true }
  | some cur =>
    match cur.sources with
    | some [current] =>
      releaseTarget client response current (substituteDefault tree current source s1)
    | _ => s1

/-- Lines 252-308: the first chain of the loop body. -/
def prepare (tree : Element) (client : Option Client) (response : Bool) (cur : MatrixConnection)
    (s : Step) : Step :=
  if cur.isLocked then
    { s with conResult := { s.conResult with disposition := some MatrixDisposition.locked } }
  else if s.matrix.type ≠ some MatrixType.nToN ∧
      s.connection.operation ≠ some MatrixOperation.disconnect then
    match s.connection.sources with
    | some [source] => prepareSingle tree client response source s
    | _ => s
  else s

/-- The assignment `conResult.disposition = d`. -/
def Step.setDisposition (s : Step) (d : MatrixDisposition) : Step :=
  { s with conResult := { s.conResult with disposition := some d } }

/-- Lines 313-323: the requested sources are applied. An operation that is
absent or `absolute` sets the sources, `connect` adds them. -/
def applySources (sources : List Int) (s : Step) : Step :=
  let s1 : Step :=
    match s.connection.operation with
    | none => { s with matrix := s.matrix.setSources s.connection.target sources,
                       emitType := some EmitType.matrixChange }
    | some MatrixOperation.absolute =>
      { s with matrix := s.matrix.setSources s.connection.target sources,
               emitType := some EmitType.matrixChange }
    | some MatrixOperation.connect =>
      { s with matrix := s.matrix.connectSources s.connection.target sources,
               emitType := some EmitType.matrixConnect }
    | some MatrixOperation.disconnect => s
  s1.setDisposition MatrixDisposition.modified

/-- Lines 329-338: a request without operation disconnect and with an empty
source list disconnects a target that has sources. -/
def implicitDisconnect (client : Option Client) (response : Bool) (cur : MatrixConnection)
    (s : Step) : Step :=
  let s1 := s.emit response client (some EmitType.matrixDisconnect) s.connection.target cur.sources
  let s2 := { s1 with matrix := s1.matrix.setSources s1.connection.target [] }
  s2.setDisposition MatrixDisposition.modified

/-- Lines 344-364: a disconnect on a oneToN matrix. The target is switched to
the default source when it carries the requested source and there is a usable
default; `conResult.disposition` is assigned on no path of this branch (the
code assigns the misspelt `connection.operarion` instead). -/
def disconnectOneToN (tree : Element) (client : Option Client) (response : Bool)
    (cur : MatrixConnection) (s : Step) : Step :=
  match getDisconnectSource tree s.matrix s.connection.target with
  | (none, m) => { s with matrix := m, thrown := true }
  | (some d, m) =>
    let s1 := { s with matrix := m }
    match s1.connection.sources with
    | none => { s1 with thrown := true }
    | some [] => s1
    | some (requested :: _) =>
      if (cur.sources.getD []).head? = some requested then
        match d with
        | some v =>
          if usableDefault d requested then
            let s2 := s1.emit response client (some EmitType.matrixDisconnect)
              s1.connection.target cur.sources
            { s2 with matrix := s2.matrix.setSources s2.connection.target [v] }
          else s1
        | none => s1
      else s1

/-- Lines 366-368: a disconnect on a matrix that is not oneToN. -/
def disconnectOther (lib : EmberLib) (s : Step) : Step :=
  let s1 := { s with
    matrix := s.matrix.updateSources s.connection.target
      (fun old => lib.disconnectSources old s.connection.sources),
    emitType := some EmitType.matrixDisconnect }
  s1.setDisposition MatrixDisposition.modified

/-- The test of line 310-312: the operation is not disconnect, at least one
source is requested and `canConnect` accepts. -/
def acceptsConnect (lib : EmberLib) (s : Step) : Bool :=
  match s.connection.sources with
  | some (a :: l) =>
    decide (s.connection.operation ≠ some MatrixOperation.disconnect) &&
      lib.canConnect s.matrix s.connection.target (a :: l) s.connection.operation
  | _ => false

/-- Lines 310-376: the second chain of the loop body; `cur` is
`matrix.connections[connection.target]` as the chain finds it. -/
def applyConnection (lib : EmberLib) (tree : Element) (client : Option Client) (response : Bool)
    (cur : MatrixConnection) (s : Step) : Step :=
  if acceptsConnect lib s then
    applySources (s.connection.sources.getD []) s
  else if s.connection.operation ≠ some MatrixOperation.disconnect ∧
      s.connection.sources = some [] ∧ cur.hasSources then
    implicitDisconnect client response cur s
  else if s.connection.operation = some MatrixOperation.disconnect ∧ cur.hasSources then
    if s.matrix.type = some MatrixType.oneToN then
      disconnectOneToN tree client response cur s
    else disconnectOther lib s
  else if s.conResult.disposition ≠ some MatrixDisposition.locked then
    s.setDisposition MatrixDisposition.tally
  else s

/-- Lines 378-387: `conResult.sources` is read from the matrix and, on a
request that asks for a response, `emit(emitType, ...)` is called. -/
def finish (client : Option Client) (response : Bool) (s : Step) : Step :=
  let s1 := { s with conResult :=
    { s.conResult with sources := (s.matrix.getConnection s.connection.target).bind (fun c => c.sources) } }
  s1.emit response client s1.emitType s1.connection.target s1.connection.sources

/-- The state carried through the loop over the requested connections:
the matrix, `res.connections`, the variable `conResult` (declared outside the
loop), the calls of `emit`, and whether a TypeError ended the loop. -/
structure LoopState where
  matrix : Matrix
  res : List MatrixConnection := []
  conResult : Option MatrixConnection := none
  emitted : List MatrixEvent := []
  thrown : Bool := false

/-- The second chain of the loop body, which a TypeError raised before it
skips; it reads `matrix.connections[connection.target]` anew. -/
def secondChain (lib : EmberLib) (tree : Element) (client : Option Client) (response : Bool)
    (s : Step) : Step :=
  if s.thrown then s
  else
    match s.matrix.getConnection s.connection.target with
    | none => { s with thrown := true }
    | some cur => applyConnection lib tree client response cur s

/-- The end of the loop body, which a TypeError raised before it skips. -/
def conclude (client : Option Client) (response : Bool) (s : Step) : Step :=
  if s.thrown then s else finish client response s

/-- The body of the loop `for (let id in connections)`, lines 247-387. -/
def processConnection (lib : EmberLib) (tree : Element) (client : Option Client) (response : Bool)
    (st : LoopState) (connection : MatrixConnection) : LoopState :=
  let conResult : MatrixConnection := { target := connection.target }
  let s0 : Step :=
    { matrix := st.matrix, connection := connection, conResult := conResult,
      res := setResult st.res conResult, emitted := st.emitted }
  match st.matrix.getConnection connection.target with
  | none =>
    { st with res := s0.res, conResult := some conResult, thrown := true }
  | some cur =>
    let s3 := conclude client response
      (secondChain lib tree client response (prepare tree client response cur s0))
    { matrix := s3.matrix, res := setResult s3.res s3.conResult,
      conResult := some s3.conResult, emitted := s3.emitted, thrown := s3.thrown }

/-- The loop over the requested connections, in request order; a TypeError
ends it. -/
def processConnections (lib : EmberLib) (tree : Element) (client : Option Client) (response : Bool)
    (st : LoopState) : List MatrixConnection → LoopState
  | [] => st
  | connection :: rest =>
    let st1 := processConnection lib tree client response st connection
    if st1.thrown then st1 else processConnections lib tree client response st1 rest

/-- The message `root` built at lines 232-242: a qualified matrix at the
matrix path, or the branch of the tree down to the matrix number, with the
per-target results. -/
structure MatrixResponse where
  qualified : Bool
  path : List Int
  number : Int
  connections : List MatrixConnection
deriving DecidableEq, Repr

/-- One call `this.updateSubscribers(path, response, origin)`. -/
structure SubscriberUpdate where
  path : List Int
  response : MatrixResponse
  origin : Option Client
deriving DecidableEq, Repr

/-- What one call of `handleMatrixConnections` leaves behind: the matrix, the
response built, the calls of `emit` in order, the call of `client.sendBERNode`
if one was made, the call of `updateSubscribers` if one was made, the last
`conResult`, and whether the call raised a TypeError. -/
structure HandlerResult where
  matrix : Matrix
  response : MatrixResponse
  emitted : List MatrixEvent
  sent : Option (Client × MatrixResponse)
  updated : Option SubscriberUpdate
  conResult : Option MatrixConnection
  thrown : Bool

/-- The test of line 393: `conResult != null && conResult.disposition !== tally`. -/
def notTally (conResult : Option MatrixConnection) : Bool :=
  match conResult with
  | none => false
  | some c => decide (c.disposition ≠ some MatrixDisposition.tally)

/-- `TreeServer.prototype.handleMatrixConnections(client, matrix, connections, response)`. -/
def handleMatrixConnections (lib : EmberLib) (tree : Element) (client : Option Client)
    (matrix : Matrix) (connections : List MatrixConnection) (response : Bool) : HandlerResult :=
  let qualified := match client with
    | some c => c.requestQualified
    | none => false
  let st := processConnections lib tree client response { matrix := matrix } connections
  let root : MatrixResponse :=
    { qualified := qualified, path := matrix.path, number := matrix.number, connections := st.res }
  if st.thrown then
    { matrix := st.matrix, response := root, emitted := st.emitted, sent := none, updated := none,
      conResult := st.conResult, thrown := true }
  else
    { matrix := st.matrix, response := root, emitted := st.emitted,
      sent := client.map (fun c => (c, root)),
      updated := if notTally st.conResult then
          some { path := matrix.path, response := root, origin := client }
        else none,
      conResult := st.conResult, thrown := false }

/-! ## The administrative API (src/EmberServer.js, lines 419-440) -/

/-- `doMatrixOperation` after `validateMatrixOperation` has accepted its
arguments: one connection is built and handed to `handleMatrixConnections`
with `client = undefined` and `response = false`. -/
def doMatrixOperation (lib : EmberLib) (tree : Element) (matrix : Matrix) (target : Int)
    (sources : List Int) (operation : MatrixOperation) : HandlerResult :=
  let connection : MatrixConnection :=
    { target := target, sources := some sources, operation := some operation }
  handleMatrixConnections lib tree none matrix [connection] false

/-- `TreeServer.prototype.matrixConnect` on a validated matrix. -/
def matrixConnect (lib : EmberLib) (tree : Element) (matrix : Matrix) (target : Int)
    (sources : List Int) : HandlerResult :=
  doMatrixOperation lib tree matrix target sources MatrixOperation.connect

/-- `TreeServer.prototype.matrixDisconnect` on a validated matrix. -/
def matrixDisconnect (lib : EmberLib) (tree : Element) (matrix : Matrix) (target : Int)
    (sources : List Int) : HandlerResult :=
  doMatrixOperation lib tree matrix target sources MatrixOperation.disconnect

/-- `TreeServer.prototype.matrixSet` on a validated matrix. -/
def matrixSet (lib : EmberLib) (tree : Element) (matrix : Matrix) (target : Int)
    (sources : List Int) : HandlerResult :=
  doMatrixOperation lib tree matrix target sources MatrixOperation.absolute

/-! ## An instance of the library parameters -/

/-- The number of connected sources over all targets but `target`. -/
def Matrix.connectsElsewhere (m : Matrix) (target : Int) : Nat :=
  ((m.connections.filter (fun c => decide (c.target ≠ target))).map
    (fun c => (c.sources.getD []).length)).sum

/-- Modelled from the spec: `matrix.canConnect` of EmberLib, which is not under
src/. The spec: a connection succeeds "within capacity/topology rules"; on a
oneToOne matrix "each source appears in at most one target's `sources`", on an
nToN matrix "total connects ≤ `maximumTotalConnects` and per-target connects ≤
`maximumConnectsPerTarget`"; a target of a oneToOne or oneToN matrix carries
one source. -/
def canConnect (m : Matrix) (target : Int) (sources : List Int)
    (operation : Option MatrixOperation) : Bool :=
  let wanted : List Int :=
    match operation with
    | some MatrixOperation.connect => (m.sourcesOf target ++ sources).dedup
    | _ => sources.dedup
  match m.type with
  | some MatrixType.nToN =>
    (match m.maximumConnectsPerTarget with
      | some k => decide (wanted.length ≤ k)
      | none => true) &&
    (match m.maximumTotalConnects with
      | some k => decide (m.connectsElsewhere target + wanted.length ≤ k)
      | none => true)
  | some MatrixType.oneToOne =>
    decide (wanted.length ≤ 1) &&
      sources.all (fun s => (m.getSourceConnections s).all (fun t => decide (t = target)))
  | _ => decide (wanted.length ≤ 1)

/-- Modelled from the spec: `matrix.disconnectSources` of EmberLib, which is
not under src/. The spec: on a disconnect the target's "sources [are]
cleared". -/
def disconnectSources (_old _requested : Option (List Int)) : Option (List Int) := some []

/-- The library parameters as the spec words them. -/
def specLib : EmberLib :=
  { canConnect := canConnect, disconnectSources := disconnectSources }

/-- A tree without elements, for matrices that have no labels. -/
def emptyTree : Element := Element.mk 0 none []

/-- The disposition of the result of the connection processed last. -/
def resultDisposition (st : LoopState) : Option MatrixDisposition :=
  st.conResult.bind (fun c => c.disposition)

/-- The disposition the response carries for a target. -/
def responseDisposition (res : List MatrixConnection) (target : Int) : Option MatrixDisposition :=
  (getResult res target).bind (fun c => c.disposition)

/-- The spec's disposition table, read for an unlocked target: the three rows
whose disposition is `modified`. "At least one source requested" is a source
list with an element, "zero sources requested" is the empty source list. -/
def tableSaysModified (lib : EmberLib) (m : Matrix) (cur connection : MatrixConnection) : Prop :=
  (connection.operation ≠ some MatrixOperation.disconnect ∧
    ∃ a l, connection.sources = some (a :: l) ∧
      lib.canConnect m connection.target (a :: l) connection.operation = true) ∨
  (connection.operation ≠ some MatrixOperation.disconnect ∧
    connection.sources = some [] ∧ cur.hasSources = true) ∨
  (connection.operation = some MatrixOperation.disconnect ∧ cur.hasSources = true)

/-- The oneToOne invariant of the spec: no source id appears in the source set
of more than one target. -/
def Matrix.Exclusive (m : Matrix) : Prop :=
  ∀ s t₁ t₂, s ∈ m.sourcesOf t₁ → s ∈ m.sourcesOf t₂ → t₁ = t₂

/-- The state a oneToOne matrix is kept in: its type, one connection per target,
and no source on two targets. -/
def Matrix.OneToOneInv (m : Matrix) : Prop :=
  m.type = some MatrixType.oneToOne ∧ m.WF ∧ m.Exclusive

/-- What `canConnect` is taken to guarantee on a oneToOne matrix: a request on a
locked target, or one that does not name exactly one source, is accepted only
if none of its sources is carried by another target. (For a request with one
source on an unlocked target the handler releases the source itself, and
nothing is asked of `canConnect`.) -/
def EmberLib.RespectsOneToOne (lib : EmberLib) : Prop :=
  ∀ (m : Matrix) (t : Int) (cur : MatrixConnection) (sources : List Int)
    (op : Option MatrixOperation),
    m.type = some MatrixType.oneToOne → m.getConnection t = some cur →
    (cur.isLocked = true ∨ sources.length ≠ 1) →
    lib.canConnect m t sources op = true →
    ∀ s ∈ sources, ∀ u, s ∈ m.sourcesOf u → u = t

/-- What `disconnectSources` is taken to guarantee: it leaves on the target only
sources the target had. -/
def EmberLib.DisconnectRemoves (lib : EmberLib) : Prop :=
  ∀ (old requested : Option (List Int)) (x : Int),
    x ∈ (lib.disconnectSources old requested).getD [] → x ∈ old.getD []

/-- A sequence of calls of `handleMatrixConnections` on one matrix, each with its
client (absent for `matrixConnect`, `matrixDisconnect` and `matrixSet`), its
requested connections and its `response` flag; the result is the matrix the
last call leaves. -/
def handleSequence (lib : EmberLib) (tree : Element) (m : Matrix) :
    List (Option Client × List MatrixConnection × Bool) → Matrix
  | [] => m
  | (client, connections, response) :: rest =>
    handleSequence lib tree
      (handleMatrixConnections lib tree client m connections response).matrix rest

/-- Every target whose sources differ between `m` and `m'` has, among `extra`,
a named event for that target carrying the client identity `addr`. -/
def Covered (addr : Option String) (m m' : Matrix) (extra : List MatrixEvent) : Prop :=
  ∀ u, m'.sourcesOf u ≠ m.sourcesOf u →
    ∃ e ∈ extra, e.type ≠ none ∧ e.target = u ∧ e.client = addr

/-- A stage of the loop body keeps the requested target, only appends events,
and the appended events cover the sources it changed. -/
def StepCovers (addr : Option String) (s s' : Step) : Prop :=
  s'.connection.target = s.connection.target ∧
  ∃ extra, s'.emitted = s.emitted ++ extra ∧ Covered addr s.matrix s'.matrix extra

/-! ## Inputs used by the closed theorems -/

/-- A client of the server. -/
def someClient : Client := { remoteAddress := "192.168.1.2:9000" }

/-- An nToN matrix whose target 0 is locked and carries source 5. -/
def lockedMatrix : Matrix :=
  { type := some MatrixType.nToN,
    connections := [{ target := 0, sources := some [5], locked := true }, { target := 1 }] }

/-- The request `absolute(target = 0, sources = [])`. -/
def clearRequest : MatrixConnection :=
  { target := 0, sources := some [], operation := some MatrixOperation.absolute }

/-- An nToN matrix that allows one source per target; target 0 carries source 1. -/
def capacityMatrix : Matrix :=
  { type := some MatrixType.nToN, maximumConnectsPerTarget := some 1,
    connections := [{ target := 0, sources := some [1] }, { target := 1 }] }

/-- A oneToN matrix without labels; target 0 carries source 5, target 1 nothing. -/
def oneToNMatrix : Matrix :=
  { type := some MatrixType.oneToN,
    connections := [{ target := 0, sources := some [5] }, { target := 1 }] }

/-- A oneToOne matrix of two targets; target 0 carries source 5 (Scenario A). -/
def oneToOneMatrix : Matrix :=
  { type := some MatrixType.oneToOne,
    connections := [{ target := 0, sources := some [5] }, { target := 1 }] }

/-- The request `disconnect(target = 0, sources = [5])`. -/
def disconnectFive : MatrixConnection :=
  { target := 0, sources := some [5], operation := some MatrixOperation.disconnect }

/-- The request `absolute(target = 0, sources = [5])`. -/
def setFive : MatrixConnection :=
  { target := 0, sources := some [5], operation := some MatrixOperation.absolute }

/-- The request `connect(target = 1, sources = [5])`. -/
def connectFiveToOne : MatrixConnection :=
  { target := 1, sources := some [5], operation := some MatrixOperation.connect }

/-- The request `disconnect(target = 1, sources = [])`. -/
def disconnectOne : MatrixConnection :=
  { target := 1, sources := some [], operation := some MatrixOperation.disconnect }

/-! ## The element tree, the messages and the state of the server -/

/-- The classes of EmberLib an element of the tree or an item of a request is an
instance of; `isNode()`, `isParameter()`, `isMatrix()`, `isFunction()`,
`isCommand()` and `isRoot()` test for them. -/
inductive ElementType where
  | root
  | node
  | parameter
  | matrix
  | function
  | command
deriving DecidableEq, Repr

/-- Modelled from the spec: `ember.ParameterAccess` of EmberLib, which is not
under src/. The spec: `access` is one of "none|read|write|readWrite", and a
write needs a "numeric access level > read-only". -/
inductive ParameterAccess where
  | none
  | read
  | write
  | readWrite
deriving DecidableEq, Repr

/-- The property `access.value`, in the order the spec lists the levels. -/
def ParameterAccess.value : ParameterAccess → Nat
  | ParameterAccess.none => 0
  | ParameterAccess.read => 1
  | ParameterAccess.write => 2
  | ParameterAccess.readWrite => 3

/-- The fields of `element.contents` the server reads or writes. -/
structure ElementContents where
  value : Option Int := Option.none
  access : Option ParameterAccess := Option.none
  streamIdentifier : Option Int := Option.none
  targetCount : Option Int := Option.none
deriving DecidableEq, Repr

/-- What a function element's `func` gives for an argument list: the returned
values, or the failure it raises. -/
abbrev Handler := List Int → Except Int (List Int)

/-- An element of the tree as the server sees it: its class, its number, the
result of `getPath()`, its contents, the result of `getChildren()` (absent when
the element has none), for a matrix the state the routing engine works on, and
for a function its `func`. -/
inductive EmberElement where
  | mk (type : ElementType) (number : Int) (path : List Int) (contents : Option ElementContents)
      (children : Option (List EmberElement)) (matrix : Option Matrix) (func : Option Handler)

/-- The class of an element. -/
def EmberElement.type : EmberElement → ElementType
  | .mk t _ _ _ _ _ _ => t

/-- The result of `element.getNumber()`. -/
def EmberElement.number : EmberElement → Int
  | .mk _ n _ _ _ _ _ => n

/-- The result of `element.getPath()`. -/
def EmberElement.path : EmberElement → List Int
  | .mk _ _ p _ _ _ _ => p

/-- The property `element.contents`. -/
def EmberElement.contents : EmberElement → Option ElementContents
  | .mk _ _ _ c _ _ _ => c

/-- The result of `element.getChildren()`. -/
def EmberElement.children : EmberElement → Option (List EmberElement)
  | .mk _ _ _ _ cs _ _ => cs

/-- The routing state of a matrix element. -/
def EmberElement.matrix : EmberElement → Option Matrix
  | .mk _ _ _ _ _ m _ => m

/-- The property `element.func`. -/
def EmberElement.func : EmberElement → Option Handler
  | .mk _ _ _ _ _ _ f => f

/-- The element with other contents. -/
def EmberElement.withContents (e : EmberElement) (c : Option ElementContents) : EmberElement :=
  .mk e.type e.number e.path c e.children e.matrix e.func

/-- The element with another routing state. -/
def EmberElement.withMatrix (e : EmberElement) (m : Matrix) : EmberElement :=
  .mk e.type e.number e.path e.contents e.children (some m) e.func

/-- The test `element.isRoot()`. -/
def EmberElement.isRoot (e : EmberElement) : Bool := decide (e.type = ElementType.root)

/-- The test `element.isNode()`. -/
def EmberElement.isNode (e : EmberElement) : Bool := decide (e.type = ElementType.node)

/-- The test `element.isParameter()`. -/
def EmberElement.isParameter (e : EmberElement) : Bool := decide (e.type = ElementType.parameter)

/-- The test `element.isMatrix()`. -/
def EmberElement.isMatrix (e : EmberElement) : Bool := decide (e.type = ElementType.matrix)

/-- The test `element.isFunction()`. -/
def EmberElement.isFunction (e : EmberElement) : Bool := decide (e.type = ElementType.function)

/-- Modelled from the spec: `element.isStream()` of EmberLib, which is not under
src/. The spec: an "optional `streamIdentifier` (presence suppresses automatic
subscription)". -/
def EmberElement.isStream (e : EmberElement) : Bool :=
  match e.contents with
  | some c => c.streamIdentifier.isSome
  | Option.none => false

/-- Modelled from the spec: `getElementByPath` of EmberLib on the server's tree:
it "descends from the tree root matching `number` at each level". -/
def EmberElement.getElementByPath (e : EmberElement) : List Int → Option EmberElement
  | [] => some e
  | n :: rest =>
    match (e.children.getD []).find? (fun c => decide (c.number = n)) with
    | Option.none => Option.none
    | some c => c.getElementByPath rest

/-- Replaces the first element of a list that satisfies `p` by `f` of it. -/
def replaceFirst (p : EmberElement → Bool) (f : EmberElement → EmberElement) :
    List EmberElement → List EmberElement
  | [] => []
  | c :: cs => if p c then f c :: cs else c :: replaceFirst p f cs

/-- The tree after the element that `getElementByPath` finds at a path has been
changed to `new`: the handlers change elements in place, and the embedding
writes the changed element back where it was found. -/
def EmberElement.replaceAt : EmberElement → List Int → EmberElement → EmberElement
  | _, [], new => new
  | e, n :: rest, new =>
    .mk e.type e.number e.path e.contents
      (e.children.map (replaceFirst (fun c => decide (c.number = n))
        (fun c => c.replaceAt rest new)))
      e.matrix e.func

mutual
/-- What `getDisconnectSource` reads of an element of the server's tree. -/
def EmberElement.toElement : EmberElement → Element
  | .mk _ n _ c cs _ _ =>
    Element.mk n (c.map (fun x => { value := x.value })) (EmberElement.childrenToElements cs)
/-- What `getDisconnectSource` reads of the children of an element. -/
def EmberElement.childrenToElements : Option (List EmberElement) → List Element
  | Option.none => []
  | some cs => EmberElement.listToElements cs
/-- What `getDisconnectSource` reads of a list of elements. -/
def EmberElement.listToElements : List EmberElement → List Element
  | [] => []
  | c :: cs => EmberElement.toElement c :: EmberElement.listToElements cs
end

/-- An invocation of a function: its id and its argument list. -/
structure Invocation where
  id : Option Int
  arguments : List Int
deriving DecidableEq, Repr

/-- Modelled from the spec: `ember.InvocationResult` of EmberLib, which is not
under src/: the echoed invocation id, whether `setFailure()` marked the result
failed, and the values given to `setResult`. -/
structure InvocationResult where
  invocationId : Option Int
  failed : Bool := false
  result : Option (List Int) := Option.none
deriving DecidableEq, Repr

/-- An item of a response: an element in the form `toQualified()`,
`toQualified().getMinimalContent()` or `getDuplicate()` gives it (functions of
EmberLib, not under src/): its path, its contents, and whether it is the
minimal form. None of these forms carries children. -/
structure ResponseItem where
  path : List Int
  contents : Option ElementContents
  minimal : Bool
deriving DecidableEq, Repr

/-- A message for a client: the root that `getResponse` builds for an element
(the element as updated, with duplicates of its children), the root that
`getQualifiedResponse` builds, a matrix response, an invocation result, the
minimal root `tree.getMinimal()`, or the branch `element.getTreeBranch()`. -/
inductive Message where
  | response (element : ResponseItem) (children : List ResponseItem)
  | qualified (items : List ResponseItem)
  | matrix (r : MatrixResponse)
  | invocationResult (r : InvocationResult)
  | minimalRoot
  | branch (path : List Int)
deriving DecidableEq, Repr

/-- The errors the server emits or raises. -/
inductive ServerError where
  | invalidRequest
  | unknownElement (path : List Int)
  | invalidRequestFormat
  | invalidCommand (number : Option Int)
  | raised (failure : Int)
  | typeError
deriving DecidableEq, Repr

/-- One call `this.emit(...)` of the server. -/
inductive ServerEvent where
  | error (e : ServerError)
  | valueChange (path : List Int)
  | matrix (e : MatrixEvent)
deriving DecidableEq, Repr

/-- The state of a `TreeServer`: the tree, the live clients (`this.clients`),
the registry `this.subscribers` from paths to sets of clients, and what the
server has done so far: the events emitted, the messages given to
`client.sendBERNode` and to `client.queueMessage`, in order, and whether the
handler that is running has raised a TypeError. -/
structure TreeServer where
  tree : EmberElement
  clients : List Client := []
  subscribers : List Int → Option (List Client) := fun _ => Option.none
  emitted : List ServerEvent := []
  sent : List (Client × Message) := []
  queued : List (Client × Message) := []
  thrown : Bool := false

/-! ## The subscription registry (src/EmberServer.js, lines 564-578 and 648-665) -/

/-- The registry with the set of one path replaced. -/
def TreeServer.setSubscribers (srv : TreeServer) (path : List Int) (set : List Client) :
    TreeServer :=
  { srv with subscribers := fun p => if p = path then some set else srv.subscribers p }

/-- The call `set.add(client)` on a JavaScript `Set`, kept as a list in
insertion order. -/
def setAdd (set : List Client) (client : Client) : List Client :=
  if client ∈ set then set else set ++ [client]

/-- The call `set.delete(client)` on a JavaScript `Set`. -/
def setDelete (set : List Client) (client : Client) : List Client :=
  set.filter (fun c => decide (c ≠ client))

/-- `TreeServer.prototype.subscribe`. -/
def TreeServer.subscribe (srv : TreeServer) (client : Client) (element : EmberElement) :
    TreeServer :=
  let path := element.path
  match srv.subscribers path with
  | Option.none => srv.setSubscribers path (setAdd [] client)
  | some set => srv.setSubscribers path (setAdd set client)

/-- `TreeServer.prototype.unsubscribe`. -/
def TreeServer.unsubscribe (srv : TreeServer) (client : Client) (element : EmberElement) :
    TreeServer :=
  let path := element.path
  match srv.subscribers path with
  | Option.none => srv
  | some set => srv.setSubscribers path (setDelete set client)

/-- The body of the loop of `updateSubscribers` for one subscriber: the origin
is passed over, a live client is queued the response, any other client is
deleted from the set of the path. -/
def notifySubscriber (path : List Int) (response : Message) (origin : Option Client)
    (srv : TreeServer) (client : Client) : TreeServer :=
  if some client = origin then srv
  else if client ∈ srv.clients then
    { srv with queued := srv.queued ++ [(client, response)] }
  else
    match srv.subscribers path with
    | Option.none => srv
    | some set => srv.setSubscribers path (setDelete set client)

/-- `TreeServer.prototype.updateSubscribers`: the loop runs over the members of
the set of the path in insertion order. -/
def TreeServer.updateSubscribers (srv : TreeServer) (path : List Int) (response : Message)
    (origin : Option Client) : TreeServer :=
  match srv.subscribers path with
  | Option.none => srv
  | some set => set.foldl (notifySubscriber path response origin) srv

/-! ## Responses (src/EmberServer.js, lines 116-121 and 467-498) -/

/-- The form `element.toQualified()` or `element.getDuplicate()` of an element. -/
def EmberElement.toQualified (e : EmberElement) : ResponseItem :=
  { path := e.path, contents := e.contents, minimal := false }

/-- The form `getMinimalContent()` of a response item. -/
def ResponseItem.getMinimalContent (r : ResponseItem) : ResponseItem :=
  { r with minimal := true }

/-- `TreeServer.prototype.getResponse`. -/
def getResponse (element : EmberElement) : Message :=
  Message.response element.toQualified
    ((element.children.getD []).map (fun c => c.toQualified))

/-- `TreeServer.prototype.getQualifiedResponse`: `none` when `res.addChild(dup)`
is reached with `dup` undefined (a root without children). -/
def getQualifiedResponse (element : EmberElement) : Option Message :=
  let dup : Option ResponseItem :=
    if element.isRoot = false then some element.toQualified else Option.none
  match element.children with
  | some children =>
    some (Message.qualified (children.map (fun c => c.toQualified.getMinimalContent)))
  | Option.none =>
    match dup with
    | some d => some (Message.qualified [d])
    | Option.none => Option.none

/-- The call `client.sendBERNode(message)`. -/
def TreeServer.send (srv : TreeServer) (client : Client) (message : Message) : TreeServer :=
  { srv with sent := srv.sent ++ [(client, message)] }

/-- The call `this.emit(...)`. -/
def TreeServer.emit (srv : TreeServer) (event : ServerEvent) : TreeServer :=
  { srv with emitted := srv.emitted ++ [event] }

/-- `TreeServer.prototype.handleError`. -/
def TreeServer.handleError (srv : TreeServer) (client : Option Client) (node : Option Message) :
    TreeServer :=
  match client with
  | Option.none => srv
  | some c => srv.send c (node.getD Message.minimalRoot)

/-! ## Commands (src/EmberServer.js, lines 447-465 and 500-561) -/

/-- The test that makes `handleGetDirectory` subscribe the client to an
element: a matrix or a parameter that is not a stream. -/
def EmberElement.reportsChanges (e : EmberElement) : Bool :=
  (e.isMatrix || e.isParameter) && !e.isStream

/-- `TreeServer.prototype.handleGetDirectory`. -/
def TreeServer.handleGetDirectory (srv : TreeServer) (client : Option Client)
    (element : EmberElement) : TreeServer :=
  match client with
  | Option.none => srv
  | some c =>
    let srv1 :=
      if element.reportsChanges then srv.subscribe c element
      else if element.isNode then
        match element.children with
        | some children =>
          children.foldl (fun s child => if child.reportsChanges then s.subscribe c child else s) srv
        | Option.none => srv
      else srv
    match getQualifiedResponse element with
    | some res => srv1.send c res
    | Option.none => { srv1 with thrown := true }

/-- `TreeServer.prototype.handleSubscribe`. -/
def TreeServer.handleSubscribe (srv : TreeServer) (client : Client) (element : EmberElement) :
    TreeServer :=
  srv.subscribe client element

/-- `TreeServer.prototype.handleUnSubscribe`. -/
def TreeServer.handleUnSubscribe (srv : TreeServer) (client : Client) (element : EmberElement) :
    TreeServer :=
  srv.unsubscribe client element

/-- The result that `handleInvoke` builds: failed when there is no element, the
element is no function or its handler raises (calling an absent `func` raises
a TypeError); otherwise the values the handler returns. The second component
is the failure caught, which is emitted as an `error` event. -/
def invoke (invocation : Invocation) (element : Option EmberElement) :
    InvocationResult × Option ServerError :=
  let result : InvocationResult := { invocationId := invocation.id }
  match element with
  | Option.none => ({ result with failed := true }, Option.none)
  | some e =>
    if e.isFunction = false then ({ result with failed := true }, Option.none)
    else
      match e.func with
      | Option.none => ({ result with failed := true }, some ServerError.typeError)
      | some f =>
        match f invocation.arguments with
        | Except.ok values => ({ result with result := some values }, Option.none)
        | Except.error failure =>
          ({ result with failed := true }, some (ServerError.raised failure))

/-- `TreeServer.prototype.handleInvoke`. -/
def TreeServer.handleInvoke (srv : TreeServer) (client : Client) (invocation : Invocation)
    (element : Option EmberElement) : TreeServer :=
  let (result, caught) := invoke invocation element
  let srv1 :=
    match caught with
    | some e => srv.emit (ServerEvent.error e)
    | Option.none => srv
  srv1.send client (Message.invocationResult result)

/-- An item of a decoded request: its class, its number, its path when it is
qualified, its contents, for a matrix the requested connections, for a command
the invocation, and its children (`getChildren()` absent or empty is the empty
list). -/
inductive RequestNode where
  | mk (type : ElementType) (number : Option Int) (path : Option (List Int))
      (contents : Option ElementContents) (connections : Option (List MatrixConnection))
      (invocation : Option Invocation) (children : List RequestNode)

/-- The class of a request item. -/
def RequestNode.type : RequestNode → ElementType
  | .mk t _ _ _ _ _ _ => t

/-- The property `number` of a request item. -/
def RequestNode.number : RequestNode → Option Int
  | .mk _ n _ _ _ _ _ => n

/-- The property `path` of a request item. -/
def RequestNode.path : RequestNode → Option (List Int)
  | .mk _ _ p _ _ _ _ => p

/-- The property `contents` of a request item. -/
def RequestNode.contents : RequestNode → Option ElementContents
  | .mk _ _ _ c _ _ _ => c

/-- The property `connections` of a request item. -/
def RequestNode.connections : RequestNode → Option (List MatrixConnection)
  | .mk _ _ _ _ c _ _ => c

/-- The property `invocation` of a request item. -/
def RequestNode.invocation : RequestNode → Option Invocation
  | .mk _ _ _ _ _ i _ => i

/-- The result of `getChildren()` on a request item. -/
def RequestNode.children : RequestNode → List RequestNode
  | .mk _ _ _ _ _ _ cs => cs

/-- The test `isCommand()` on a request item. -/
def RequestNode.isCommand (r : RequestNode) : Bool := decide (r.type = ElementType.command)

/-- The test `isParameter()` on a request item. -/
def RequestNode.isParameter (r : RequestNode) : Bool := decide (r.type = ElementType.parameter)

/-- The test `isMatrix()` on a request item. -/
def RequestNode.isMatrix (r : RequestNode) : Bool := decide (r.type = ElementType.matrix)

/-- The command numbers `ember.COMMAND_SUBSCRIBE`, constants of EmberLib (not
under src/), with the values of the Ember+ protocol; the server only compares
them with `cmd.number`. -/
def COMMAND_SUBSCRIBE : Int := 30

/-- The command number `ember.COMMAND_UNSUBSCRIBE`. -/
def COMMAND_UNSUBSCRIBE : Int := 31

/-- The command number `ember.COMMAND_GETDIRECTORY`. -/
def COMMAND_GETDIRECTORY : Int := 32

/-- The command number `ember.COMMAND_INVOKE`. -/
def COMMAND_INVOKE : Int := 33

/-- `TreeServer.prototype.handleCommand`; reading `invocation.id` of an absent
invocation raises a TypeError. -/
def TreeServer.handleCommand (srv : TreeServer) (client : Client) (element : EmberElement)
    (cmd : RequestNode) : TreeServer :=
  if cmd.number = some COMMAND_GETDIRECTORY then srv.handleGetDirectory (some client) element
  else if cmd.number = some COMMAND_SUBSCRIBE then srv.handleSubscribe client element
  else if cmd.number = some COMMAND_UNSUBSCRIBE then srv.handleUnSubscribe client element
  else if cmd.number = some COMMAND_INVOKE then
    match cmd.invocation with
    | some invocation => srv.handleInvoke client invocation (some element)
    | Option.none => { srv with thrown := true }
  else srv.emit (ServerEvent.error (ServerError.invalidCommand cmd.number))

/-! ## Value mutation (src/EmberServer.js, lines 580-605) -/

/-- The fields of the contents that `setValue` can be given as `key`. -/
inductive ContentsKey where
  | value
  | streamIdentifier
  | targetCount
deriving DecidableEq, Repr

/-- The expression `contents[key]`; absent when `contents.hasOwnProperty(key)`
is false. -/
def ElementContents.get (c : ElementContents) : ContentsKey → Option Int
  | ContentsKey.value => c.value
  | ContentsKey.streamIdentifier => c.streamIdentifier
  | ContentsKey.targetCount => c.targetCount

/-- The assignment `contents[key] = value`. -/
def ElementContents.set (c : ElementContents) (key : ContentsKey) (value : Int) :
    ElementContents :=
  match key with
  | ContentsKey.value => { c with value := some value }
  | ContentsKey.streamIdentifier => { c with streamIdentifier := some value }
  | ContentsKey.targetCount => { c with targetCount := some value }

/-- The test `access !== undefined && access.value > 1` of `setValue`. -/
def ElementContents.writable (c : ElementContents) : Bool :=
  match c.access with
  | some a => decide (a.value > 1)
  | Option.none => false

/-- Lines 589-592 and 597-600: the contents are assigned, the response is built
and pushed to the subscribers of the path, and `value-change` is emitted. -/
def TreeServer.assign (srv : TreeServer) (element : EmberElement) (contents : ElementContents)
    (origin : Option Client) : TreeServer × EmberElement :=
  let element1 := element.withContents (some contents)
  let res := getResponse element1
  ((srv.updateSubscribers element1.path res origin).emit (ServerEvent.valueChange element1.path),
    element1)

/-- `TreeServer.prototype.setValue`; the second component is the element as the
call leaves it. -/
def TreeServer.setValue (srv : TreeServer) (element : EmberElement) (value : Int)
    (origin : Option Client) (key : Option ContentsKey) : TreeServer × EmberElement :=
  match element.contents with
  | Option.none => (srv, element)
  | some c =>
    if element.isParameter then
      if c.writable then srv.assign element { c with value := some value } origin
      else (srv, element)
    else if element.isMatrix then
      match key with
      | some k =>
        if (c.get k).isSome then srv.assign element (c.set k value) origin
        else (srv, element)
      | Option.none => (srv, element)
    else (srv, element)

/-! ## Requests (src/EmberServer.js, lines 154-223) -/

/-- `TreeServer.prototype.handleQualifiedParameter`; reading `value` of absent
contents raises a TypeError. The second component is the element as the call
leaves it. -/
def TreeServer.handleQualifiedParameter (srv : TreeServer) (client : Client)
    (element : EmberElement) (parameter : RequestNode) : TreeServer × EmberElement :=
  match parameter.contents with
  | Option.none => ({ srv with thrown := true }, element)
  | some pc =>
    match pc.value with
    | Option.none => (srv, element)
    | some v =>
      let (srv1, element1) := srv.setValue element v (some client) Option.none
      match getQualifiedResponse element1 with
      | Option.none => ({ srv1 with thrown := true }, element1)
      | some res =>
        ((srv1.send client res).updateSubscribers element1.path res (some client), element1)

/-- What the loop at lines 158-173 ends with: a request item without number, or
the item the traversal stops at together with the numbers passed. -/
inductive Descent where
  | invalid
  | found (cmd : RequestNode) (path : List Int)

/-- The loop of `handleNode`, lines 158-173. -/
def descend : RequestNode → List Int → Descent
  | .mk type number p c cn inv children, path =>
    match number with
    | Option.none => Descent.invalid
    | some n =>
      if type = ElementType.command then Descent.found (.mk type number p c cn inv children) path
      else
        match children with
        | [] => Descent.found (.mk type number p c cn inv children) (path ++ [n])
        | child :: _ => descend child (path ++ [n])

/-- `handleMatrixConnections` in the state of the server: the routing engine
runs on the routing state of the element, what it emits, sends and asks
`updateSubscribers` for is done, and the element, changed in place, is written
back at the path `place` where it was found. An element without routing state
has no connection to look up. -/
def TreeServer.runMatrixConnections (lib : EmberLib) (srv : TreeServer) (client : Option Client)
    (element : EmberElement) (place : List Int) (connections : List MatrixConnection)
    (response : Bool) : TreeServer :=
  let m : Matrix := { element.matrix.getD {} with path := element.path, number := element.number }
  let r := handleMatrixConnections lib srv.tree.toElement client m connections response
  let tree1 :=
    match element.matrix with
    | some _ => srv.tree.replaceAt place (element.withMatrix r.matrix)
    | Option.none => srv.tree
  let srv1 : TreeServer :=
    { srv with tree := tree1,
               emitted := srv.emitted ++ r.emitted.map ServerEvent.matrix,
               thrown := r.thrown }
  let srv2 :=
    match r.sent with
    | some (c, root) => srv1.send c (Message.matrix root)
    | Option.none => srv1
  match r.updated with
  | some u => srv2.updateSubscribers u.path (Message.matrix u.response) u.origin
  | Option.none => srv2

/-- `TreeServer.prototype.handleNode`; the second component is the returned
path. The test of the second branch is the one of the first with
`cmd.connections !== undefined` added, as in the source. -/
def TreeServer.handleNode (lib : EmberLib) (srv : TreeServer) (client : Client)
    (node : RequestNode) : TreeServer × Option (List Int) :=
  match descend node [] with
  | Descent.invalid => (srv.emit (ServerEvent.error ServerError.invalidRequest), Option.none)
  | Descent.found cmd path =>
    match srv.tree.getElementByPath path with
    | Option.none =>
      ((srv.emit (ServerEvent.error (ServerError.unknownElement path))).handleError
        (some client) Option.none, Option.none)
    | some element =>
      if cmd.isCommand then (srv.handleCommand client element cmd, some path)
      else if cmd.isCommand ∧ cmd.connections.isSome then
        (srv.runMatrixConnections lib (some client) element path (cmd.connections.getD []) true,
          some path)
      else if cmd.isParameter ∧ (cmd.contents.bind (fun c => c.value)).isSome then
        match cmd.contents.bind (fun c => c.value) with
        | some v =>
          let (srv1, element1) := srv.setValue element v (some client) Option.none
          let srv2 := { srv1 with tree := srv1.tree.replaceAt path element1 }
          let res := getResponse element1
          ((srv2.send client res).updateSubscribers element1.path res (some client), some path)
        | Option.none => (srv, some path)
      else
        ((srv.emit (ServerEvent.error ServerError.invalidRequestFormat)).handleError
          (some client) (some (Message.branch element.path)), Option.none)

/-! ## The administrative API in the state of the server (lines 401-440) -/

/-- The errors `validateMatrixOperation` raises. For the first three the
message is built from a variable `path` that is not declared in that function,
so the error that reaches the caller is the ReferenceError of that access; an
error is raised all the same. -/
inductive MatrixOperationError where
  | matrixNotFound
  | noContents
  | noTargetCount
  | targetOutOfRange
  | invalidSources
deriving DecidableEq, Repr

/-- `validateMatrixOperation`: the error raised, or the element and the source
list that passed. `sources` is absent when the value given has no `length`. -/
def validateMatrixOperation (matrix : Option EmberElement) (target : Int)
    (sources : Option (List Int)) : Except MatrixOperationError (EmberElement × List Int) :=
  match matrix with
  | Option.none => Except.error MatrixOperationError.matrixNotFound
  | some element =>
    match element.contents with
    | Option.none => Except.error MatrixOperationError.noContents
    | some contents =>
      match contents.targetCount with
      | Option.none => Except.error MatrixOperationError.noTargetCount
      | some targetCount =>
        if target < 0 ∨ target ≥ targetCount then
          Except.error MatrixOperationError.targetOutOfRange
        else
          match sources with
          | Option.none => Except.error MatrixOperationError.invalidSources
          | some l => Except.ok (element, l)

/-- `doMatrixOperation(server, path, target, sources, operation)`: the state the
call leaves and the error it raises to its caller, if any. -/
def TreeServer.doMatrixOperation (lib : EmberLib) (srv : TreeServer) (path : List Int)
    (target : Int) (sources : Option (List Int)) (operation : MatrixOperation) :
    TreeServer × Option MatrixOperationError :=
  match validateMatrixOperation (srv.tree.getElementByPath path) target sources with
  | Except.error e => (srv, some e)
  | Except.ok (element, l) =>
    let connection : MatrixConnection :=
      { target := target, sources := some l, operation := some operation }
    (srv.runMatrixConnections lib Option.none element path [connection] false, Option.none)

/-- `TreeServer.prototype.matrixConnect`. -/
def TreeServer.matrixConnect (lib : EmberLib) (srv : TreeServer) (path : List Int)
    (target : Int) (sources : Option (List Int)) : TreeServer × Option MatrixOperationError :=
  srv.doMatrixOperation lib path target sources MatrixOperation.connect

/-- `TreeServer.prototype.matrixDisconnect`. -/
def TreeServer.matrixDisconnect (lib : EmberLib) (srv : TreeServer) (path : List Int)
    (target : Int) (sources : Option (List Int)) : TreeServer × Option MatrixOperationError :=
  srv.doMatrixOperation lib path target sources MatrixOperation.disconnect

/-- `TreeServer.prototype.matrixSet`. -/
def TreeServer.matrixSet (lib : EmberLib) (srv : TreeServer) (path : List Int)
    (target : Int) (sources : Option (List Int)) : TreeServer × Option MatrixOperationError :=
  srv.doMatrixOperation lib path target sources MatrixOperation.absolute

/-! ## The registry as the claims read it, and inputs of the closed theorems on the server -/

/-- A subscriber the loop of `updateSubscribers` queues the response to. -/
def pushed (origin : Option Client) (clients : List Client) (c : Client) : Bool :=
  !decide (some c = origin) && decide (c ∈ clients)

/-- A subscriber the loop of `updateSubscribers` leaves in the set. -/
def kept (origin : Option Client) (clients : List Client) (c : Client) : Bool :=
  decide (some c = origin) || decide (c ∈ clients)

/-- The client is a member of the subscriber set of the path. -/
def TreeServer.subscribed (srv : TreeServer) (path : List Int) (client : Client) : Prop :=
  client ∈ (srv.subscribers path).getD []

/-- A tree that is a root without children. -/
def emptyRoot : EmberElement :=
  EmberElement.mk ElementType.root 0 [] Option.none Option.none Option.none Option.none

/-- A second client. -/
def otherClient : Client := { remoteAddress := "192.168.1.3:9000" }

/-- A server with no live client, where `someClient` is still subscribed to the
path 1.2. -/
def staleOriginServer : TreeServer :=
  { tree := emptyRoot, clients := [],
    subscribers := fun p => if p = [1, 2] then some [someClient] else Option.none }

/-- A parameter at path 1.2 with the value 7 and read-write access. -/
def parameterChild : EmberElement :=
  EmberElement.mk ElementType.parameter 2 [1, 2]
    (some { value := some 7, access := some ParameterAccess.readWrite })
    Option.none Option.none Option.none

/-- A parameter at path 1.3 that is a stream and has no `access`. -/
def streamChild : EmberElement :=
  EmberElement.mk ElementType.parameter 3 [1, 3]
    (some { value := some 0, streamIdentifier := some 5 }) Option.none Option.none Option.none

/-- A node at path 1 with the children `parameterChild` and `streamChild`. -/
def directoryNode : EmberElement :=
  EmberElement.mk ElementType.node 1 [1] (some {}) (some [parameterChild, streamChild])
    Option.none Option.none

/-- A root that holds `directoryNode`. -/
def exampleRoot : EmberElement :=
  EmberElement.mk ElementType.root 0 [] Option.none (some [directoryNode]) Option.none
    Option.none

/-- A server over `exampleRoot` with two live clients and an empty registry. -/
def exampleServer : TreeServer :=
  { tree := exampleRoot, clients := [someClient, otherClient] }

/-- The server of Scenario B: `someClient` is subscribed to the parameter at
path 1.2. -/
def scenarioServer : TreeServer :=
  { tree := exampleRoot, clients := [someClient, otherClient],
    subscribers := fun p => if p = [1, 2] then some [someClient] else Option.none }

/-- A qualified request that sets the value of a parameter to 42. -/
def setRequest : RequestNode :=
  RequestNode.mk ElementType.parameter (some 2) (some [1, 2]) (some { value := some 42 })
    Option.none Option.none []

/-- A writable parameter at path 1.2 that has a child, the parameter 1.2.1 with
the value 0. -/
def nestedParameter : EmberElement :=
  EmberElement.mk ElementType.parameter 2 [1, 2]
    (some { value := some 7, access := some ParameterAccess.readWrite })
    (some [EmberElement.mk ElementType.parameter 1 [1, 2, 1] (some { value := some 0 })
      Option.none Option.none Option.none])
    Option.none Option.none

/-- The relative request that sets the value of the parameter 1.2 to 42. -/
def relativeSetRequest : RequestNode :=
  RequestNode.mk ElementType.node (some 1) Option.none Option.none Option.none Option.none
    [RequestNode.mk ElementType.parameter (some 2) Option.none (some { value := some 42 })
      Option.none Option.none []]

/-- A matrix element at path 5 with two targets. -/
def matrixElement : EmberElement :=
  EmberElement.mk ElementType.matrix 5 [5] (some { targetCount := some 2 }) Option.none
    (some oneToNMatrix) Option.none

/-- A server whose tree holds `matrixElement`. -/
def matrixServer : TreeServer :=
  { tree := EmberElement.mk ElementType.root 0 [] Option.none (some [matrixElement])
      Option.none Option.none,
    clients := [someClient] }

/-- The relative request that connects the source 7 to the target 1 of the
matrix at path 5. -/
def relativeMatrixRequest : RequestNode :=
  RequestNode.mk ElementType.matrix (some 5) Option.none Option.none
    (some [{ target := 1, sources := some [7], operation := some MatrixOperation.connect }])
    Option.none []

/-! ## Qualified requests and the entry point (src/EmberServer.js, lines 94-151 and 210-213) -/

/-- `TreeServer.prototype.handleQualifiedMatrix`; `place` is the path at which
the element was found. A request without `connections` gives the loop of
`handleMatrixConnections` nothing to run over. -/
def TreeServer.handleQualifiedMatrix (lib : EmberLib) (srv : TreeServer) (client : Client)
    (element : EmberElement) (place : List Int) (matrix : RequestNode) : TreeServer :=
  srv.runMatrixConnections lib (some client) element place (matrix.connections.getD []) true

/-- `TreeServer.prototype.handleQualifiedNode`, for a request item whose `path`
is `path`; the second component is the returned path. Of the children of the
item only the first is looked at. -/
def TreeServer.handleQualifiedNode (lib : EmberLib) (srv : TreeServer) (client : Client)
    (node : RequestNode) (path : List Int) : TreeServer × Option (List Int) :=
  match srv.tree.getElementByPath path with
  | Option.none =>
    ((srv.emit (ServerEvent.error (ServerError.unknownElement path))).handleError
      (some client) Option.none, Option.none)
  | some element =>
    match node.children with
    | child :: _ =>
      if child.isCommand then (srv.handleCommand client element child, some path)
      else (srv, some path)
    | [] =>
      if node.isMatrix then
        (srv.handleQualifiedMatrix lib client element path node, some path)
      else if node.isParameter then
        let (srv1, element1) := srv.handleQualifiedParameter client element node
        ({ srv1 with tree := srv1.tree.replaceAt path element1 }, some path)
      else (srv, some path)

/-- `TreeServer.prototype.handleRoot`; `root` is the list of the elements of the
decoded request, and the second component is the returned path, the value
`"root"` of a command on the root being the empty path. -/
def TreeServer.handleRoot (lib : EmberLib) (srv : TreeServer) (client : Client)
    (root : List RequestNode) : TreeServer × Option (List Int) :=
  match root with
  | [] => (srv, Option.none)
  | node :: _ =>
    match node.path with
    | some path => srv.handleQualifiedNode lib client node path
    | Option.none =>
      if node.isCommand then (srv.handleCommand client srv.tree node, some [])
      else srv.handleNode lib client node

/-! ## replaceElement (src/EmberServer.js, lines 607-625) -/

/-- The error `replaceElement` raises. -/
inductive ReplaceError where
  | elementNotFound
deriving DecidableEq, Repr

/-- Modelled from the spec: the back-reference `_parent` of the element that
`getElementByPath` finds at `path`, kept by EmberLib, which is not under src/.
The tree owns its elements through `children`, so the parent is the element
found at the path without its last number; the root has no parent. -/
def EmberElement.parentAt (tree : EmberElement) (path : List Int) : Option EmberElement :=
  if path = [] then Option.none else tree.getElementByPath path.dropLast

/-- The element with another list of children. -/
def EmberElement.withChildren (e : EmberElement) (children : List EmberElement) : EmberElement :=
  .mk e.type e.number e.path e.contents (some children) e.matrix e.func

/-- The server with another tree. -/
def TreeServer.withTree (srv : TreeServer) (tree : EmberElement) : TreeServer :=
  { srv with tree := tree }

/-- `TreeServer.prototype.replaceElement`: the state the call leaves and the
error it raises, if any. The loop replaces the first child of the parent whose
`getPath()` is the path of the new element, builds the response and calls
`updateSubscribers` without origin; when no child has that path the call
returns without doing anything. -/
def TreeServer.replaceElement (srv : TreeServer) (element : EmberElement) :
    TreeServer × Option ReplaceError :=
  let path := element.path
  match srv.tree.getElementByPath path with
  | Option.none => (srv, some ReplaceError.elementNotFound)
  | some _ =>
    match srv.tree.parentAt path with
    | Option.none => (srv, some ReplaceError.elementNotFound)
    | some parent =>
      match parent.children with
      | Option.none => ({ srv with thrown := true }, Option.none)
      | some children =>
        if children.any (fun c => decide (c.path = path)) then
          let parent1 := parent.withChildren
            (replaceFirst (fun c => decide (c.path = path)) (fun _ => element) children)
          let srv1 := srv.withTree (srv.tree.replaceAt path.dropLast parent1)
          (srv1.updateSubscribers path (getResponse element) Option.none, Option.none)
        else (srv, Option.none)

/-- The paths of the tree are derived, as `getPath()` of EmberLib derives them:
the path of an element is the sequence of numbers that leads to it, and the
path of a child is the path of its parent followed by its number. -/
def EmberElement.PathsDerived (tree : EmberElement) : Prop :=
  ∀ q e, tree.getElementByPath q = some e →
    e.path = q ∧ ∀ c ∈ e.children.getD [], c.path = q ++ [c.number]

/-! ## The two forms of a request for a command, and further inputs of the closed theorems -/

/-- The relative request for a command: the single-child chain of nodes with
the given numbers, ending in the command. -/
def relativeChain : List Int → RequestNode → RequestNode
  | [], c => c
  | n :: rest, c =>
    RequestNode.mk ElementType.node (some n) Option.none Option.none Option.none Option.none
      [relativeChain rest c]

/-- The qualified request for a command: a node with the given path whose
first child is the command. -/
def qualifiedRequest (path : List Int) (c : RequestNode) : RequestNode :=
  RequestNode.mk ElementType.node Option.none (some path) Option.none Option.none Option.none [c]

/-- A command with the number `n`. -/
def commandOf (n : Int) : RequestNode :=
  RequestNode.mk ElementType.command (some n) Option.none Option.none Option.none Option.none []

/-- An item of class Command that carries no number. -/
def numberlessCommand : RequestNode :=
  RequestNode.mk ElementType.command Option.none Option.none Option.none Option.none Option.none
    []

/-- A parameter at path 1.2 with the value 9 and read-only access. -/
def replacement : EmberElement :=
  EmberElement.mk ElementType.parameter 2 [1, 2]
    (some { value := some 9, access := some ParameterAccess.read })
    Option.none Option.none Option.none

/-- A tree that holds `replacement`, a parameter that cannot be written, at
path 1.2. -/
def readOnlyRoot : EmberElement :=
  EmberElement.mk ElementType.root 0 [] Option.none
    (some [EmberElement.mk ElementType.node 1 [1] (some {}) (some [replacement, streamChild])
      Option.none Option.none])
    Option.none Option.none

/-- A server over `readOnlyRoot` where `someClient` is subscribed to the path
1.2. -/
def readOnlyServer : TreeServer :=
  { tree := readOnlyRoot, clients := [someClient, otherClient],
    subscribers := fun p => if p = [1, 2] then some [someClient] else Option.none }

/-! ## Lemmas on the response and on the connections of a matrix -/

/-- Reading the response at the key just written gives the written result. -/
theorem getResult_setResult (res : List MatrixConnection) (c : MatrixConnection) :
    getResult (setResult res c) c.target = some c := by
  unfold getResult setResult
  split
  · rename_i h
    induction res with
    | nil => simp at h
    | cons r rs ih =>
      by_cases hr : r.target = c.target
      · simp [List.find?, hr]
      · simp [List.find?, hr] at h ⊢
        simpa using ih (by simpa using h)
  · rename_i h
    simp only [Bool.not_eq_true, List.any_eq_false, decide_eq_true_eq] at h
    rw [List.find?_append]
    have : List.find? (fun r => decide (r.target = c.target)) res = none := by
      simp [List.find?_eq_none]; exact h
    simp [this]

/-- The connection of a target after `updateSources`. -/
theorem getConnection_updateSources (m : Matrix) (t u : Int)
    (f : Option (List Int) → Option (List Int)) :
    (m.updateSources t f).getConnection u =
      (m.getConnection u).map
        (fun c => if c.target = t then { c with sources := f c.sources } else c) := by
  unfold Matrix.getConnection Matrix.updateSources
  simp only [List.find?_map]
  have hp : ((fun c : MatrixConnection => decide (c.target = u)) ∘
      (fun c : MatrixConnection => if c.target = t then { c with sources := f c.sources } else c)) =
      (fun c : MatrixConnection => decide (c.target = u)) := by
    funext c
    simp only [Function.comp]
    split <;> rfl
  rw [hp]

/-- A connection found under a key has that key as its target. -/
theorem getConnection_target {m : Matrix} {u : Int} {c : MatrixConnection}
    (h : m.getConnection u = some c) : c.target = u := by
  unfold Matrix.getConnection at h
  simpa using List.find?_some h

/-- A connection found under a key is one of the connections of the matrix. -/
theorem getConnection_mem {m : Matrix} {u : Int} {c : MatrixConnection}
    (h : m.getConnection u = some c) : c ∈ m.connections := by
  unfold Matrix.getConnection at h
  exact List.mem_of_find?_eq_some h

/-- In a list with one entry per key, looking up the key of an entry finds it. -/
theorem find_target_of_mem (cs : List MatrixConnection)
    (hnd : (cs.map (fun c => c.target)).Nodup) (c : MatrixConnection) (hc : c ∈ cs) :
    cs.find? (fun x => decide (x.target = c.target)) = some c := by
  induction cs with
  | nil => cases hc
  | cons x xs ih =>
    rw [List.map_cons, List.nodup_cons] at hnd
    rcases List.mem_cons.mp hc with rfl | hmem
    · simp [List.find?]
    · have hne : x.target ≠ c.target := by
        intro heq
        exact hnd.1 (heq ▸ List.mem_map_of_mem (fun c => c.target) hmem)
      simp only [List.find?, hne, decide_False]
      exact ih hnd.2 hmem

/-- In a well-formed matrix, looking up the target of a connection finds it. -/
theorem getConnection_of_mem {m : Matrix} (hwf : m.WF) {c : MatrixConnection}
    (hc : c ∈ m.connections) : m.getConnection c.target = some c :=
  find_target_of_mem m.connections hwf c hc

/-- Writing the response at one key leaves the other keys as they were. -/
theorem getResult_setResult_ne (res : List MatrixConnection) (c : MatrixConnection) (u : Int)
    (h : u ≠ c.target) : getResult (setResult res c) u = getResult res u := by
  unfold getResult setResult
  split
  · rw [List.find?_map]
    have hp : ((fun r : MatrixConnection => decide (r.target = u)) ∘
        (fun r : MatrixConnection => if r.target = c.target then c else r)) =
        (fun r : MatrixConnection => decide (r.target = u)) := by
      funext r
      simp only [Function.comp]
      split
      · rename_i hr
        have h1 : ¬ c.target = u := fun e => h e.symm
        have h2 : ¬ r.target = u := fun e => h (e.symm.trans hr)
        simp [h1, h2]
      · rfl
    rw [hp]
    cases hf : List.find? (fun r : MatrixConnection => decide (r.target = u)) res with
    | none => rfl
    | some r =>
      have hr : r.target = u := by simpa using List.find?_some hf
      have : ¬ r.target = c.target := fun e => h (hr.symm.trans e)
      simp [this]
  · rw [List.find?_append]
    have h1 : ¬ c.target = u := fun e => h e.symm
    simp [List.find?, h1]

/-- The sources of every target after `updateSources`. -/
theorem sourcesOf_updateSources (m : Matrix) (t u : Int)
    (f : Option (List Int) → Option (List Int)) :
    (m.updateSources t f).sourcesOf u =
      if u = t then
        match m.getConnection t with
        | some c => (f c.sources).getD []
        | none => []
      else m.sourcesOf u := by
  unfold Matrix.sourcesOf
  rw [getConnection_updateSources]
  by_cases hu : u = t
  · subst hu
    cases hc : m.getConnection u with
    | none => simp
    | some c => simp [getConnection_target hc]
  · cases hc : m.getConnection u with
    | none => simp [hu]
    | some c =>
      have := getConnection_target hc
      simp [hu, this]

/-- A target listed by `getSourceConnections` carries the source. -/
theorem mem_sourcesOf_of_mem_getSourceConnections {m : Matrix} (hwf : m.WF) {s u : Int}
    (h : u ∈ m.getSourceConnections s) : s ∈ m.sourcesOf u := by
  unfold Matrix.getSourceConnections at h
  obtain ⟨c, hc, rfl⟩ := List.mem_map.mp h
  rw [List.mem_filter] at hc
  unfold Matrix.sourcesOf
  rw [getConnection_of_mem hwf hc.1]
  simpa using hc.2

/-- A target that carries a source is listed by `getSourceConnections`. -/
theorem mem_getSourceConnections_of_mem_sourcesOf {m : Matrix} {s u : Int}
    (h : s ∈ m.sourcesOf u) : u ∈ m.getSourceConnections s := by
  unfold Matrix.sourcesOf at h
  cases hc : m.getConnection u with
  | none => simp [hc] at h
  | some c =>
    rw [hc] at h
    unfold Matrix.getSourceConnections
    refine List.mem_map.mpr ⟨c, ?_, getConnection_target hc⟩
    rw [List.mem_filter]
    exact ⟨getConnection_mem hc, by simpa using h⟩

/-- `getSourceConnections` lists a target once. -/
theorem getSourceConnections_nodup {m : Matrix} (hwf : m.WF) (s : Int) :
    (m.getSourceConnections s).Nodup := by
  unfold Matrix.getSourceConnections
  exact List.Nodup.sublist (List.Sublist.map _ (List.filter_sublist _)) hwf

/-- A duplicate-free list that holds `a` and nothing else is `[a]`. -/
theorem eq_singleton_of_nodup {l : List Int} {a : Int} (hnd : l.Nodup)
    (hall : ∀ x ∈ l, x = a) (hmem : a ∈ l) : l = [a] := by
  match l, hnd, hall, hmem with
  | [], _, _, hmem => cases hmem
  | [x], _, hall, _ => rw [hall x (List.mem_singleton.mpr rfl)]
  | x :: y :: rest, hnd, hall, _ =>
    have hx := hall x (by simp)
    have hy := hall y (by simp)
    rw [List.nodup_cons] at hnd
    exact absurd (by rw [hx, hy]; simp) hnd.1

/-- In an exclusive matrix, a source carried by a target is routed to that target only. -/
theorem getSourceConnections_eq_singleton {m : Matrix} (hwf : m.WF) (hex : m.Exclusive)
    {s u : Int} (h : s ∈ m.sourcesOf u) : m.getSourceConnections s = [u] :=
  eq_singleton_of_nodup (getSourceConnections_nodup hwf s)
    (fun x hx => hex s x u (mem_sourcesOf_of_mem_getSourceConnections hwf hx) h)
    (mem_getSourceConnections_of_mem_sourcesOf h)

/-! ## The oneToOne invariant through the loop body -/

theorem updateSources_wf {m : Matrix} (t : Int) (f : Option (List Int) → Option (List Int))
    (h : m.WF) : (m.updateSources t f).WF := by
  unfold Matrix.WF Matrix.updateSources
  simp only [List.map_map]
  have hp : ((fun c : MatrixConnection => c.target) ∘
      (fun c : MatrixConnection => if c.target = t then { c with sources := f c.sources } else c)) =
      (fun c : MatrixConnection => c.target) := by
    funext c
    simp only [Function.comp]
    split <;> rfl
  rw [hp]
  exact h

theorem updateSources_exclusive {m : Matrix} (t : Int)
    (f : Option (List Int) → Option (List Int)) (hex : m.Exclusive)
    (h : ∀ c, m.getConnection t = some c → ∀ x ∈ (f c.sources).getD [],
      ∀ u, x ∈ m.sourcesOf u → u = t) :
    (m.updateSources t f).Exclusive := by
  intro s t₁ t₂ h₁ h₂
  rw [sourcesOf_updateSources] at h₁ h₂
  have key : ∀ a b : Int, a = t → ¬ b = t →
      (s ∈ match m.getConnection t with
        | some c => (f c.sources).getD []
        | none => []) → s ∈ m.sourcesOf b → False := by
    intro a b _ hb ha hbs
    cases hc : m.getConnection t with
    | none => simp [hc] at ha
    | some c =>
      rw [hc] at ha
      exact hb (h c hc s ha b hbs)
  by_cases e₁ : t₁ = t <;> by_cases e₂ : t₂ = t
  · rw [e₁, e₂]
  · rw [if_pos e₁] at h₁
    rw [if_neg e₂] at h₂
    exact (key t₁ t₂ e₁ e₂ h₁ h₂).elim
  · rw [if_neg e₁] at h₁
    rw [if_pos e₂] at h₂
    exact (key t₂ t₁ e₂ e₁ h₂ h₁).elim
  · rw [if_neg e₁] at h₁
    rw [if_neg e₂] at h₂
    exact hex s t₁ t₂ h₁ h₂

theorem updateSources_inv {m : Matrix} (t : Int)
    (f : Option (List Int) → Option (List Int)) (hinv : m.OneToOneInv)
    (h : ∀ c, m.getConnection t = some c → ∀ x ∈ (f c.sources).getD [],
      ∀ u, x ∈ m.sourcesOf u → u = t) :
    (m.updateSources t f).OneToOneInv :=
  ⟨hinv.1, updateSources_wf t f hinv.2.1, updateSources_exclusive t f hinv.2.2 h⟩

theorem setSources_nil_inv {m : Matrix} (t : Int) (hinv : m.OneToOneInv) :
    (m.setSources t []).OneToOneInv :=
  updateSources_inv t _ hinv (by intro c _ x hx; simp at hx)

theorem mem_sourcesOf_setSources_nil {m : Matrix} {t u x : Int}
    (h : x ∈ (m.setSources t []).sourcesOf u) : x ∈ m.sourcesOf u ∧ u ≠ t := by
  unfold Matrix.setSources at h
  rw [sourcesOf_updateSources] at h
  by_cases e : u = t
  · rw [if_pos e] at h
    cases hc : m.getConnection t <;> simp [hc] at h
  · rw [if_neg e] at h
    exact ⟨h, e⟩

@[simp] theorem emit_matrix (s : Step) (response : Bool) (client : Option Client)
    (type : Option EmitType) (target : Int) (sources : Option (List Int)) :
    (s.emit response client type target sources).matrix = s.matrix := by
  unfold Step.emit; split <;> rfl

@[simp] theorem emit_connection (s : Step) (response : Bool) (client : Option Client)
    (type : Option EmitType) (target : Int) (sources : Option (List Int)) :
    (s.emit response client type target sources).connection = s.connection := by
  unfold Step.emit; split <;> rfl

@[simp] theorem emit_thrown (s : Step) (response : Bool) (client : Option Client)
    (type : Option EmitType) (target : Int) (sources : Option (List Int)) :
    (s.emit response client type target sources).thrown = s.thrown := by
  unfold Step.emit; split <;> rfl

@[simp] theorem emit_conResult (s : Step) (response : Bool) (client : Option Client)
    (type : Option EmitType) (target : Int) (sources : Option (List Int)) :
    (s.emit response client type target sources).conResult = s.conResult := by
  unfold Step.emit; split <;> rfl

theorem releaseSource_inv (client : Option Client) (response : Bool) (source : Int) (s : Step)
    (hinv : s.matrix.OneToOneInv) :
    (releaseSource client response source s).matrix.OneToOneInv ∧
    (releaseSource client response source s).connection = s.connection ∧
    (releaseSource client response source s).thrown = s.thrown ∧
    ∀ u, source ∈ (releaseSource client response source s).matrix.sourcesOf u →
      u = s.connection.target := by
  unfold releaseSource
  rw [if_pos hinv.1]
  have hall : ∀ u, source ∈ s.matrix.sourcesOf u → s.matrix.getSourceConnections source = [u] :=
    fun u hu => getSourceConnections_eq_singleton hinv.2.1 hinv.2.2 hu
  split
  · rename_i other hg
    split
    · rename_i hne
      refine ⟨?_, ?_, ?_, ?_⟩
      · simpa using setSources_nil_inv other hinv
      · simp
      · simp
      · intro u hu
        simp only [emit_matrix] at hu
        have := mem_sourcesOf_setSources_nil hu
        have h1 := hall u this.1
        rw [hg] at h1
        exact absurd (List.singleton_injective h1).symm this.2
    · rename_i heq
      refine ⟨hinv, rfl, rfl, ?_⟩
      intro u hu
      have h1 := hall u hu
      rw [hg] at h1
      have := List.singleton_injective h1
      rw [← this]
      exact not_not.mp heq
  · rename_i hg
    refine ⟨hinv, rfl, rfl, ?_⟩
    intro u hu
    exact absurd (hall u hu) (hg u)

theorem substituteDefault_oneToOne (tree : Element) (current source : Int) (s : Step)
    (htype : s.matrix.type = some MatrixType.oneToOne) :
    substituteDefault tree current source s = s := by
  unfold substituteDefault
  rw [if_neg (by rw [htype]; decide)]

theorem releaseTarget_inv (client : Option Client) (response : Bool) (current source : Int)
    (s : Step) (hinv : s.matrix.OneToOneInv) (hsrc : s.connection.sources = some [source])
    (hP : ∀ u, source ∈ s.matrix.sourcesOf u → u = s.connection.target) :
    (releaseTarget client response current s).matrix.OneToOneInv ∧
    (releaseTarget client response current s).connection.target = s.connection.target ∧
    (releaseTarget client response current s).connection.sources = some [source] ∧
    ∀ u, source ∈ (releaseTarget client response current s).matrix.sourcesOf u →
      u = s.connection.target := by
  unfold releaseTarget
  split
  · exact ⟨hinv, rfl, hsrc, hP⟩
  · rw [hsrc]
    simp only
    split
    · refine ⟨?_, ?_, ?_, ?_⟩
      · simpa using setSources_nil_inv s.connection.target hinv
      · simp
      · simpa using hsrc
      · intro u hu
        simp only [emit_matrix] at hu
        exact hP u (mem_sourcesOf_setSources_nil hu).1
    · split
      · exact ⟨hinv, rfl, hsrc, hP⟩
      · exact ⟨hinv, rfl, hsrc, hP⟩

theorem prepareSingle_inv (tree : Element) (client : Option Client) (response : Bool)
    (source : Int) (s : Step) (hinv : s.matrix.OneToOneInv)
    (hsrc : s.connection.sources = some [source]) :
    (prepareSingle tree client response source s).matrix.OneToOneInv ∧
    (prepareSingle tree client response source s).connection.target = s.connection.target ∧
    (prepareSingle tree client response source s).connection.sources = some [source] ∧
    ∀ u, source ∈ (prepareSingle tree client response source s).matrix.sourcesOf u →
      u = s.connection.target := by
  obtain ⟨h1, h2, _, h4⟩ := releaseSource_inv client response source s hinv
  unfold prepareSingle
  simp only
  split
  · exact ⟨h1, by rw [h2], by rw [h2]; exact hsrc, h4⟩
  · split
    · rename_i current _
      rw [substituteDefault_oneToOne _ _ _ _ h1.1]
      have := releaseTarget_inv client response current source
        (releaseSource client response source s) h1 (by rw [h2]; exact hsrc)
        (by rw [h2]; exact h4)
      rw [h2] at this
      exact this
    · exact ⟨h1, by rw [h2], by rw [h2]; exact hsrc, h4⟩

theorem mem_sourcesOf_of_getConnection {m : Matrix} {t x : Int} {c : MatrixConnection}
    (hc : m.getConnection t = some c) (hx : x ∈ c.sources.getD []) : x ∈ m.sourcesOf t := by
  unfold Matrix.sourcesOf
  rw [hc]
  exact hx

theorem acceptsConnect_true {lib : EmberLib} {s : Step} (h : acceptsConnect lib s = true) :
    ∃ a l, s.connection.sources = some (a :: l) ∧
      s.connection.operation ≠ some MatrixOperation.disconnect ∧
      lib.canConnect s.matrix s.connection.target (a :: l) s.connection.operation = true := by
  unfold acceptsConnect at h
  split at h
  · rename_i a l hs
    simp only [Bool.and_eq_true, decide_eq_true_eq] at h
    exact ⟨a, l, hs, h.1, h.2⟩
  · cases h

@[simp] theorem finish_matrix (client : Option Client) (response : Bool) (s : Step) :
    (finish client response s).matrix = s.matrix := by
  unfold finish
  simp

@[simp] theorem finish_thrown (client : Option Client) (response : Bool) (s : Step) :
    (finish client response s).thrown = s.thrown := by
  unfold finish
  simp

theorem applyConnection_inv (lib : EmberLib) (tree : Element) (client : Option Client)
    (response : Bool) (cur : MatrixConnection) (s : Step)
    (hlib : lib.DisconnectRemoves) (hinv : s.matrix.OneToOneInv)
    (hQ : acceptsConnect lib s = true → ∀ x ∈ s.connection.sources.getD [],
      ∀ u, x ∈ s.matrix.sourcesOf u → u = s.connection.target) :
    (applyConnection lib tree client response cur s).matrix.OneToOneInv := by
  have hold : ∀ c, s.matrix.getConnection s.connection.target = some c →
      ∀ x ∈ c.sources.getD [], ∀ u, x ∈ s.matrix.sourcesOf u → u = s.connection.target :=
    fun c hc x hx u hu => hinv.2.2 x u _ hu (mem_sourcesOf_of_getConnection hc hx)
  unfold applyConnection
  split
  · rename_i hacc
    have hq := hQ hacc
    unfold applySources Step.setDisposition
    simp only
    split
    · exact updateSources_inv _ _ hinv (fun c _ x hx => hq x (by simpa using hx))
    · exact updateSources_inv _ _ hinv (fun c _ x hx => hq x (by simpa using hx))
    · refine updateSources_inv _ _ hinv (fun c hc x hx => ?_)
      simp only [Option.getD_some, List.mem_dedup, List.mem_append] at hx
      rcases hx with hx | hx
      · exact hold c hc x hx
      · exact hq x hx
    · exact hinv
  · split
    · unfold implicitDisconnect Step.setDisposition
      simpa using setSources_nil_inv s.connection.target hinv
    · split
      · rw [if_neg (by rw [hinv.1]; decide)]
        unfold disconnectOther Step.setDisposition
        exact updateSources_inv _ _ hinv (fun c hc x hx => hold c hc x (hlib _ _ x hx))
      · split
        · exact hinv
        · exact hinv

theorem prepare_inv (lib : EmberLib) (tree : Element) (client : Option Client)
    (response : Bool) (cur : MatrixConnection) (s : Step)
    (hlib : lib.RespectsOneToOne) (hinv : s.matrix.OneToOneInv)
    (hcur : s.matrix.getConnection s.connection.target = some cur) :
    (prepare tree client response cur s).matrix.OneToOneInv ∧
    (acceptsConnect lib (prepare tree client response cur s) = true →
      ∀ x ∈ (prepare tree client response cur s).connection.sources.getD [],
      ∀ u, x ∈ (prepare tree client response cur s).matrix.sourcesOf u →
        u = (prepare tree client response cur s).connection.target) := by
  have hother : (cur.isLocked = true ∨ ∀ source, s.connection.sources ≠ some [source]) →
      acceptsConnect lib s = true → ∀ x ∈ s.connection.sources.getD [],
      ∀ u, x ∈ s.matrix.sourcesOf u → u = s.connection.target := by
    intro hcase hacc x hx
    obtain ⟨a, l, hs, _, hcan⟩ := acceptsConnect_true hacc
    rw [hs] at hx
    refine hlib s.matrix s.connection.target cur (a :: l) _ hinv.1 hcur ?_ hcan x hx
    rcases hcase with h | h
    · exact Or.inl h
    · right
      intro hlen
      cases l with
      | nil => exact h a hs
      | cons b l => simp at hlen
  unfold prepare
  split
  · rename_i hlocked
    exact ⟨hinv, hother (Or.inl hlocked)⟩
  · split
    · split
      · rename_i source hs
        obtain ⟨h1, h2, h3, h4⟩ := prepareSingle_inv tree client response source s hinv hs
        refine ⟨h1, fun _ x hx => ?_⟩
        rw [h3] at hx
        rw [h2]
        simp only [Option.getD_some, List.mem_singleton] at hx
        rw [hx]
        exact h4
      · rename_i hns
        exact ⟨hinv, hother (Or.inr hns)⟩
    · rename_i hcond
      refine ⟨hinv, fun hacc => ?_⟩
      obtain ⟨_, _, _, hop, _⟩ := acceptsConnect_true hacc
      exact absurd ⟨by rw [hinv.1]; decide, hop⟩ hcond

theorem secondChain_inv (lib : EmberLib) (tree : Element) (client : Option Client)
    (response : Bool) (s : Step) (hlib : lib.DisconnectRemoves) (hinv : s.matrix.OneToOneInv)
    (hQ : acceptsConnect lib s = true → ∀ x ∈ s.connection.sources.getD [],
      ∀ u, x ∈ s.matrix.sourcesOf u → u = s.connection.target) :
    (secondChain lib tree client response s).matrix.OneToOneInv := by
  unfold secondChain
  split
  · exact hinv
  · split
    · exact hinv
    · exact applyConnection_inv lib tree client response _ s hlib hinv hQ

theorem conclude_matrix (client : Option Client) (response : Bool) (s : Step) :
    (conclude client response s).matrix = s.matrix := by
  unfold conclude
  split
  · rfl
  · simp

theorem processConnection_inv (lib : EmberLib) (tree : Element) (client : Option Client)
    (response : Bool) (st : LoopState) (connection : MatrixConnection)
    (hlib₁ : lib.RespectsOneToOne) (hlib₂ : lib.DisconnectRemoves)
    (hinv : st.matrix.OneToOneInv) :
    (processConnection lib tree client response st connection).matrix.OneToOneInv := by
  unfold processConnection
  simp only
  split
  · exact hinv
  · rename_i cur hcur
    obtain ⟨h1, h2⟩ := prepare_inv lib tree client response cur
      { matrix := st.matrix, connection := connection, conResult := { target := connection.target },
        res := setResult st.res { target := connection.target }, emitted := st.emitted }
      hlib₁ hinv hcur
    simp only [conclude_matrix]
    exact secondChain_inv lib tree client response _ hlib₂ h1 h2

theorem processConnections_inv (lib : EmberLib) (tree : Element) (client : Option Client)
    (response : Bool) (connections : List MatrixConnection) (st : LoopState)
    (hlib₁ : lib.RespectsOneToOne) (hlib₂ : lib.DisconnectRemoves)
    (hinv : st.matrix.OneToOneInv) :
    (processConnections lib tree client response st connections).matrix.OneToOneInv := by
  induction connections generalizing st with
  | nil => exact hinv
  | cons c rest ih =>
    have h := processConnection_inv lib tree client response st c hlib₁ hlib₂ hinv
    unfold processConnections
    simp only
    split
    · exact h
    · exact ih _ h

theorem handleMatrixConnections_inv (lib : EmberLib) (tree : Element) (client : Option Client)
    (m : Matrix) (connections : List MatrixConnection) (response : Bool)
    (hlib₁ : lib.RespectsOneToOne) (hlib₂ : lib.DisconnectRemoves) (hinv : m.OneToOneInv) :
    (handleMatrixConnections lib tree client m connections response).matrix.OneToOneInv := by
  have h := processConnections_inv lib tree client response connections { matrix := m }
    hlib₁ hlib₂ hinv
  unfold handleMatrixConnections
  simp only
  split
  · exact h
  · exact h

/-! ## Events emitted for the sources a request changes -/

theorem sourcesOf_congr {m m' : Matrix} (h : m'.connections = m.connections) (u : Int) :
    m'.sourcesOf u = m.sourcesOf u := by
  unfold Matrix.sourcesOf Matrix.getConnection
  rw [h]

theorem covered_same (addr : Option String) {m m' : Matrix} (extra : List MatrixEvent)
    (h : m'.connections = m.connections) : Covered addr m m' extra :=
  fun u hu => absurd (sourcesOf_congr h u) hu

theorem covered_update (addr : Option String) (m : Matrix) (v : Int)
    (f : Option (List Int) → Option (List Int)) (extra : List MatrixEvent)
    (h : ∃ e ∈ extra, e.type ≠ none ∧ e.target = v ∧ e.client = addr) :
    Covered addr m (m.updateSources v f) extra := by
  intro u hu
  by_cases e : u = v
  · rw [e]
    exact h
  · rw [sourcesOf_updateSources, if_neg e] at hu
    exact absurd rfl hu

theorem covered_trans {addr : Option String} {m₀ m₁ m₂ : Matrix} {e₁ e₂ : List MatrixEvent}
    (h₁ : Covered addr m₀ m₁ e₁) (h₂ : Covered addr m₁ m₂ e₂) :
    Covered addr m₀ m₂ (e₁ ++ e₂) := by
  intro u hu
  by_cases h : m₁.sourcesOf u = m₀.sourcesOf u
  · obtain ⟨e, he, hp⟩ := h₂ u (by rw [h]; exact hu)
    exact ⟨e, List.mem_append_right _ he, hp⟩
  · obtain ⟨e, he, hp⟩ := h₁ u h
    exact ⟨e, List.mem_append_left _ he, hp⟩

theorem stepCovers_refl (addr : Option String) (s : Step) : StepCovers addr s s :=
  ⟨rfl, [], by simp, covered_same addr [] rfl⟩

theorem stepCovers_trans {addr : Option String} {s₀ s₁ s₂ : Step}
    (h₁ : StepCovers addr s₀ s₁) (h₂ : StepCovers addr s₁ s₂) : StepCovers addr s₀ s₂ := by
  obtain ⟨t₁, e₁, he₁, c₁⟩ := h₁
  obtain ⟨t₂, e₂, he₂, c₂⟩ := h₂
  exact ⟨t₂.trans t₁, e₁ ++ e₂, by rw [he₂, he₁, List.append_assoc], covered_trans c₁ c₂⟩

theorem getDisconnectSource_connections (tree : Element) (m : Matrix) (t : Int) :
    (getDisconnectSource tree m t).2.connections = m.connections := by
  unfold getDisconnectSource
  repeat' split
  all_goals try rfl
  all_goals (simp only; split <;> rfl)

theorem emit_emitted_true (s : Step) (client : Option Client) (type : Option EmitType)
    (target : Int) (sources : Option (List Int)) :
    (s.emit true client type target sources).emitted =
      s.emitted ++ [{ type := type, target := target, sources := sources,
                      client := clientAddress client }] := by
  unfold Step.emit
  simp

theorem emit_false (s : Step) (client : Option Client) (type : Option EmitType)
    (target : Int) (sources : Option (List Int)) :
    s.emit false client type target sources = s := by
  unfold Step.emit
  simp

theorem releaseSource_covers (client : Option Client) (source : Int) (s : Step) :
    StepCovers (clientAddress client) s (releaseSource client true source s) := by
  unfold releaseSource
  split
  · split
    · split
      · rename_i other _ _
        refine ⟨by simp, [_], by rw [emit_emitted_true], ?_⟩
        rw [emit_matrix]
        exact covered_update _ _ other _ _ ⟨_, List.mem_singleton.mpr rfl, by simp, rfl, rfl⟩
      · exact stepCovers_refl _ s
    · exact stepCovers_refl _ s
  · exact stepCovers_refl _ s

theorem substituteDefault_covers (addr : Option String) (tree : Element) (current source : Int)
    (s : Step) : StepCovers addr s (substituteDefault tree current source s) := by
  have hc := getDisconnectSource_connections tree s.matrix s.connection.target
  unfold substituteDefault
  split
  · split
    · rename_i m heq
      rw [heq] at hc
      exact ⟨rfl, [], by simp, covered_same addr [] hc⟩
    · rename_i d m heq
      rw [heq] at hc
      simp only
      split
      · split
        · split
          · exact ⟨rfl, [], by simp, covered_same addr [] hc⟩
          · exact ⟨rfl, [], by simp, covered_same addr [] hc⟩
        · exact ⟨rfl, [], by simp, covered_same addr [] hc⟩
      · exact ⟨rfl, [], by simp, covered_same addr [] hc⟩
  · exact stepCovers_refl _ s

theorem releaseTarget_covers (client : Option Client) (current : Int) (s : Step) :
    StepCovers (clientAddress client) s (releaseTarget client true current s) := by
  unfold releaseTarget
  split
  · exact stepCovers_refl _ s
  · split
    · split
      · refine ⟨by simp, [_], by rw [emit_emitted_true], ?_⟩
        rw [emit_matrix]
        exact covered_update _ _ s.connection.target _ _
          ⟨_, List.mem_singleton.mpr rfl, by simp, rfl, rfl⟩
      · split
        · exact ⟨rfl, [], by simp, covered_same _ [] rfl⟩
        · exact stepCovers_refl _ s
    · exact stepCovers_refl _ s

theorem prepareSingle_covers (tree : Element) (client : Option Client) (source : Int) (s : Step) :
    StepCovers (clientAddress client) s (prepareSingle tree client true source s) := by
  have h1 := releaseSource_covers client source s
  unfold prepareSingle
  simp only
  split
  · exact stepCovers_trans h1 ⟨rfl, [], by simp, covered_same _ [] rfl⟩
  · split
    · exact stepCovers_trans h1
        (stepCovers_trans (substituteDefault_covers _ tree _ source _)
          (releaseTarget_covers client _ _))
    · exact h1

theorem prepare_covers (tree : Element) (client : Option Client) (cur : MatrixConnection)
    (s : Step) : StepCovers (clientAddress client) s (prepare tree client true cur s) := by
  unfold prepare
  split
  · exact ⟨rfl, [], by simp, covered_same _ [] rfl⟩
  · split
    · split
      · exact prepareSingle_covers tree client _ s
      · exact stepCovers_refl _ s
    · exact stepCovers_refl _ s

@[simp] theorem finish_connection (client : Option Client) (response : Bool) (s : Step) :
    (finish client response s).connection = s.connection := by
  unfold finish
  simp

theorem finish_emitted_true (client : Option Client) (s : Step) :
    (finish client true s).emitted =
      s.emitted ++ [{ type := s.emitType, target := s.connection.target,
                      sources := s.connection.sources, client := clientAddress client }] := by
  unfold finish
  rw [emit_emitted_true]

theorem conclude_of_not_thrown (client : Option Client) (response : Bool) (s : Step)
    (h : s.thrown = false) : conclude client response s = finish client response s := by
  unfold conclude
  rw [if_neg (by rw [h]; decide)]

theorem conclude_of_thrown (client : Option Client) (response : Bool) (s : Step)
    (h : s.thrown = true) : conclude client response s = s := by
  unfold conclude
  rw [if_pos h]

theorem conclude_covers_named (client : Option Client) (s s' : Step) (type : EmitType)
    (f : Option (List Int) → Option (List Int)) (hth : s'.thrown = false)
    (hc : s'.connection = s.connection) (he : s'.emitted = s.emitted)
    (hm : s'.matrix = s.matrix.updateSources s.connection.target f)
    (ht : s'.emitType = some type) :
    StepCovers (clientAddress client) s (conclude client true s') := by
  rw [conclude_of_not_thrown _ _ _ hth]
  refine ⟨by simp [hc], [⟨s'.emitType, s'.connection.target, s'.connection.sources,
    clientAddress client⟩], by rw [finish_emitted_true, he], ?_⟩
  rw [finish_matrix, hm]
  exact covered_update _ _ _ _ _ ⟨_, List.mem_singleton.mpr rfl, by simp [ht], by simp [hc], rfl⟩

theorem conclude_covers_same (client : Option Client) (s s' : Step) (hth : s'.thrown = false)
    (hc : s'.connection = s.connection) (he : s'.emitted = s.emitted)
    (hm : s'.matrix.connections = s.matrix.connections) :
    StepCovers (clientAddress client) s (conclude client true s') := by
  rw [conclude_of_not_thrown _ _ _ hth]
  refine ⟨by simp [hc], [⟨s'.emitType, s'.connection.target, s'.connection.sources,
    clientAddress client⟩], by rw [finish_emitted_true, he], ?_⟩
  rw [finish_matrix]
  exact covered_same _ _ hm

theorem conclude_covers_after_emit (client : Option Client) (s s' : Step) (type : EmitType)
    (sources : Option (List Int)) (f : Option (List Int) → Option (List Int))
    (hth : s'.thrown = false) (hc : s'.connection = s.connection)
    (he : s'.emitted = (s.emit true client (some type) s.connection.target sources).emitted)
    (hm : s'.matrix = s.matrix.updateSources s.connection.target f) :
    StepCovers (clientAddress client) s (conclude client true s') := by
  rw [conclude_of_not_thrown _ _ _ hth]
  refine ⟨by simp [hc],
    [⟨some type, s.connection.target, sources, clientAddress client⟩,
     ⟨s'.emitType, s'.connection.target, s'.connection.sources, clientAddress client⟩], ?_, ?_⟩
  · rw [finish_emitted_true, he, emit_emitted_true, List.append_assoc]
    rfl
  · rw [finish_matrix, hm]
    exact covered_update _ _ _ _ _ ⟨_, List.mem_cons_self _ _, by simp, rfl, rfl⟩

theorem conclude_covers_thrown (client : Option Client) (s s' : Step) (hth : s'.thrown = true)
    (hc : s'.connection = s.connection) (he : s'.emitted = s.emitted)
    (hm : s'.matrix.connections = s.matrix.connections) :
    StepCovers (clientAddress client) s (conclude client true s') := by
  rw [conclude_of_thrown _ _ _ hth]
  exact ⟨by rw [hc], [], by simp [he], covered_same _ [] hm⟩

theorem applyConnection_covers (lib : EmberLib) (tree : Element) (client : Option Client)
    (cur : MatrixConnection) (s : Step) (hs : s.thrown = false) :
    StepCovers (clientAddress client) s
      (conclude client true (applyConnection lib tree client true cur s)) := by
  unfold applyConnection
  split
  · unfold applySources Step.setDisposition
    simp only
    split
    · exact conclude_covers_named client s _ EmitType.matrixChange
        (fun _ => some (s.connection.sources.getD []).dedup) hs rfl rfl rfl rfl
    · exact conclude_covers_named client s _ EmitType.matrixChange
        (fun _ => some (s.connection.sources.getD []).dedup) hs rfl rfl rfl rfl
    · exact conclude_covers_named client s _ EmitType.matrixConnect
        (fun old => some (old.getD [] ++ s.connection.sources.getD []).dedup) hs rfl rfl rfl rfl
    · exact conclude_covers_same client s _ hs rfl rfl rfl
  · split
    · unfold implicitDisconnect Step.setDisposition
      exact conclude_covers_after_emit client s _ EmitType.matrixDisconnect cur.sources
        (fun _ => some ([] : List Int).dedup)
        (by simpa using hs) (by simp) rfl (by simp [Matrix.setSources])
    · split
      · split
        · have hc := getDisconnectSource_connections tree s.matrix s.connection.target
          unfold disconnectOneToN
          split
          · rename_i m heq
            rw [heq] at hc
            exact conclude_covers_thrown client s _ rfl rfl rfl hc
          · rename_i d m heq
            rw [heq] at hc
            simp only
            split
            · exact conclude_covers_thrown client s _ rfl rfl rfl hc
            · exact conclude_covers_same client s _ hs rfl rfl hc
            · split
              · split
                · split
                  · rename_i v _
                    exact @stepCovers_trans (clientAddress client) s { s with matrix := m } _
                      ⟨rfl, [], by simp, covered_same _ [] hc⟩
                      (conclude_covers_after_emit client { s with matrix := m } _
                        EmitType.matrixDisconnect cur.sources (fun _ => some [v].dedup)
                        (by simpa using hs) (by simp) rfl (by simp [Matrix.setSources]))
                  · exact conclude_covers_same client s _ hs rfl rfl hc
                · exact conclude_covers_same client s _ hs rfl rfl hc
              · exact conclude_covers_same client s _ hs rfl rfl hc
        · unfold disconnectOther Step.setDisposition
          exact conclude_covers_named client s _ EmitType.matrixDisconnect
            (fun old => lib.disconnectSources old s.connection.sources) hs rfl rfl rfl rfl
      · split
        · unfold Step.setDisposition
          exact conclude_covers_same client s _ hs rfl rfl rfl
        · exact conclude_covers_same client s _ hs rfl rfl rfl

theorem secondChain_covers (lib : EmberLib) (tree : Element) (client : Option Client)
    (s : Step) :
    StepCovers (clientAddress client) s
      (conclude client true (secondChain lib tree client true s)) := by
  unfold secondChain
  split
  · rename_i h
    rw [conclude_of_thrown _ _ _ h]
    exact stepCovers_refl _ s
  · rename_i h
    split
    · exact conclude_covers_thrown client s _ rfl rfl rfl rfl
    · exact applyConnection_covers lib tree client _ s (by simpa using h)

theorem processConnection_covers (lib : EmberLib) (tree : Element) (client : Option Client)
    (st : LoopState) (connection : MatrixConnection) :
    ∃ extra, (processConnection lib tree client true st connection).emitted =
        st.emitted ++ extra ∧
      Covered (clientAddress client) st.matrix
        (processConnection lib tree client true st connection).matrix extra := by
  unfold processConnection
  simp only
  split
  · exact ⟨[], by simp, covered_same _ [] rfl⟩
  · rename_i cur _
    have h := stepCovers_trans
      (prepare_covers tree client cur
        { matrix := st.matrix, connection := connection,
          conResult := { target := connection.target },
          res := setResult st.res { target := connection.target }, emitted := st.emitted })
      (secondChain_covers lib tree client _)
    exact h.2

theorem releaseSource_silent (client : Option Client) (source : Int) (s : Step) :
    (releaseSource client false source s).emitted = s.emitted := by
  unfold releaseSource
  simp only [emit_false]
  repeat' split
  all_goals rfl

theorem substituteDefault_emitted (tree : Element) (current source : Int) (s : Step) :
    (substituteDefault tree current source s).emitted = s.emitted := by
  unfold substituteDefault
  repeat' split
  all_goals rfl

theorem releaseTarget_silent (client : Option Client) (current : Int) (s : Step) :
    (releaseTarget client false current s).emitted = s.emitted := by
  unfold releaseTarget
  simp only [emit_false]
  repeat' split
  all_goals rfl

theorem prepareSingle_silent (tree : Element) (client : Option Client) (source : Int)
    (s : Step) : (prepareSingle tree client false source s).emitted = s.emitted := by
  unfold prepareSingle
  simp only
  split
  · exact releaseSource_silent client source s
  · split
    · rw [releaseTarget_silent, substituteDefault_emitted, releaseSource_silent]
    · exact releaseSource_silent client source s

theorem prepare_silent (tree : Element) (client : Option Client) (cur : MatrixConnection)
    (s : Step) : (prepare tree client false cur s).emitted = s.emitted := by
  unfold prepare
  split
  · rfl
  · split
    · split
      · exact prepareSingle_silent tree client _ s
      · rfl
    · rfl

theorem applyConnection_silent (lib : EmberLib) (tree : Element) (client : Option Client)
    (cur : MatrixConnection) (s : Step) :
    (applyConnection lib tree client false cur s).emitted = s.emitted := by
  unfold applyConnection applySources implicitDisconnect disconnectOneToN disconnectOther
    Step.setDisposition
  simp only [emit_false]
  repeat' split
  all_goals rfl

theorem conclude_silent (client : Option Client) (s : Step) :
    (conclude client false s).emitted = s.emitted := by
  unfold conclude finish
  simp only [emit_false]
  split <;> rfl

theorem secondChain_silent (lib : EmberLib) (tree : Element) (client : Option Client)
    (s : Step) :
    (conclude client false (secondChain lib tree client false s)).emitted = s.emitted := by
  rw [conclude_silent]
  unfold secondChain
  split
  · rfl
  · split
    · rfl
    · exact applyConnection_silent lib tree client _ s

theorem processConnection_silent (lib : EmberLib) (tree : Element) (client : Option Client)
    (st : LoopState) (connection : MatrixConnection) :
    (processConnection lib tree client false st connection).emitted = st.emitted := by
  unfold processConnection
  simp only
  split
  · rfl
  · rw [secondChain_silent, prepare_silent]

theorem processConnections_covers (lib : EmberLib) (tree : Element) (client : Option Client)
    (connections : List MatrixConnection) (st : LoopState) :
    ∃ extra, (processConnections lib tree client true st connections).emitted =
        st.emitted ++ extra ∧
      Covered (clientAddress client) st.matrix
        (processConnections lib tree client true st connections).matrix extra := by
  induction connections generalizing st with
  | nil => exact ⟨[], by simp [processConnections], covered_same _ [] rfl⟩
  | cons c rest ih =>
    obtain ⟨e₁, he₁, hc₁⟩ := processConnection_covers lib tree client st c
    unfold processConnections
    simp only
    split
    · exact ⟨e₁, he₁, hc₁⟩
    · obtain ⟨e₂, he₂, hc₂⟩ := ih (processConnection lib tree client true st c)
      exact ⟨e₁ ++ e₂, by rw [he₂, he₁, List.append_assoc], covered_trans hc₁ hc₂⟩

theorem processConnections_silent (lib : EmberLib) (tree : Element) (client : Option Client)
    (connections : List MatrixConnection) (st : LoopState) :
    (processConnections lib tree client false st connections).emitted = st.emitted := by
  induction connections generalizing st with
  | nil => rfl
  | cons c rest ih =>
    unfold processConnections
    simp only
    split
    · exact processConnection_silent lib tree client st c
    · rw [ih, processConnection_silent]

theorem handleMatrixConnections_emitted (lib : EmberLib) (tree : Element)
    (client : Option Client) (m : Matrix) (connections : List MatrixConnection)
    (response : Bool) :
    (handleMatrixConnections lib tree client m connections response).emitted =
      (processConnections lib tree client response { matrix := m } connections).emitted := by
  unfold handleMatrixConnections
  simp only
  split <;> rfl

theorem handleMatrixConnections_matrix (lib : EmberLib) (tree : Element)
    (client : Option Client) (m : Matrix) (connections : List MatrixConnection)
    (response : Bool) :
    (handleMatrixConnections lib tree client m connections response).matrix =
      (processConnections lib tree client response { matrix := m } connections).matrix := by
  unfold handleMatrixConnections
  simp only
  split <;> rfl

/-! ## Facts on the inputs of the closed theorems -/

theorem specLib_respectsOneToOne : specLib.RespectsOneToOne := by
  intro m t cur sources op htype _ _ hcan s hs u hu
  have hmem := mem_getSourceConnections_of_mem_sourcesOf hu
  simp only [specLib, canConnect, htype, Bool.and_eq_true, List.all_eq_true,
    decide_eq_true_eq] at hcan
  exact hcan.2 s hs u hmem

theorem specLib_disconnectRemoves : specLib.DisconnectRemoves := by
  intro old requested x hx
  simp [specLib, disconnectSources] at hx

theorem oneToOneMatrix_wf : oneToOneMatrix.WF := by
  unfold Matrix.WF
  decide

theorem oneToOneMatrix_sourcesOf (u x : Int) (h : x ∈ oneToOneMatrix.sourcesOf u) :
    u = 0 ∧ x = 5 := by
  by_cases h0 : u = 0
  · subst h0
    have : oneToOneMatrix.sourcesOf 0 = [5] := by decide
    rw [this] at h
    exact ⟨rfl, List.mem_singleton.mp h⟩
  · by_cases h1 : u = 1
    · subst h1
      have : oneToOneMatrix.sourcesOf 1 = [] := by decide
      rw [this] at h
      cases h
    · have h0' : ¬ (0 : Int) = u := fun e => h0 e.symm
      have h1' : ¬ (1 : Int) = u := fun e => h1 e.symm
      simp [Matrix.sourcesOf, Matrix.getConnection, oneToOneMatrix, List.find?, h0', h1'] at h

theorem oneToOneMatrix_exclusive : oneToOneMatrix.Exclusive := by
  intro s t₁ t₂ h₁ h₂
  rw [(oneToOneMatrix_sourcesOf t₁ s h₁).1, (oneToOneMatrix_sourcesOf t₂ s h₂).1]

/-! ## Lemmas on the subscription registry and on the request handlers -/

/-- What the loop of `updateSubscribers` has done after the subscribers `l`,
when the set of the path was `cur` before. -/
theorem notify_foldl (path : List Int) (response : Message) (origin : Option Client)
    (l : List Client) (srv : TreeServer) (cur : List Client)
    (hcur : srv.subscribers path = some cur) :
    (l.foldl (notifySubscriber path response origin) srv).queued =
      srv.queued ++ (l.filter (pushed origin srv.clients)).map (fun c => (c, response)) ∧
    (l.foldl (notifySubscriber path response origin) srv).subscribers path =
      some (cur.filter (fun c => kept origin srv.clients c || !decide (c ∈ l))) ∧
    (∀ p, p ≠ path →
      (l.foldl (notifySubscriber path response origin) srv).subscribers p = srv.subscribers p) ∧
    (l.foldl (notifySubscriber path response origin) srv).clients = srv.clients ∧
    (l.foldl (notifySubscriber path response origin) srv).tree = srv.tree ∧
    (l.foldl (notifySubscriber path response origin) srv).emitted = srv.emitted ∧
    (l.foldl (notifySubscriber path response origin) srv).sent = srv.sent ∧
    (l.foldl (notifySubscriber path response origin) srv).thrown = srv.thrown := by
  induction l generalizing srv cur with
  | nil =>
    refine ⟨by simp, ?_, fun _ _ => rfl, rfl, rfl, rfl, rfl, rfl⟩
    simp [hcur]
  | cons c l ih =>
    simp only [List.foldl_cons]
    by_cases ho : some c = origin
    · have hstep : notifySubscriber path response origin srv c = srv := by
        unfold notifySubscriber
        rw [if_pos ho]
      rw [hstep]
      obtain ⟨h1, h2, h3, h4, h5, h6, h7, h8⟩ := ih srv cur hcur
      refine ⟨?_, ?_, h3, h4, h5, h6, h7, h8⟩
      · rw [h1]
        simp [List.filter_cons, pushed, ho]
      · rw [h2]
        congr 1
        apply List.filter_congr
        intro x _
        by_cases hx : x = c
        · subst hx
          simp [kept, ho]
        · simp [hx]
    · by_cases hl : c ∈ srv.clients
      · have hstep : notifySubscriber path response origin srv c =
            { srv with queued := srv.queued ++ [(c, response)] } := by
          unfold notifySubscriber
          rw [if_neg ho, if_pos hl]
        rw [hstep]
        obtain ⟨h1, h2, h3, h4, h5, h6, h7, h8⟩ :=
          ih { srv with queued := srv.queued ++ [(c, response)] } cur hcur
        refine ⟨?_, ?_, h3, h4, h5, h6, h7, h8⟩
        · rw [h1]
          simp [List.filter_cons, pushed, ho, hl]
        · rw [h2]
          congr 1
          apply List.filter_congr
          intro x _
          by_cases hx : x = c
          · subst hx
            simp [kept, hl]
          · simp [hx]
      · have hstep : notifySubscriber path response origin srv c =
            srv.setSubscribers path (setDelete cur c) := by
          unfold notifySubscriber
          rw [if_neg ho, if_neg hl, hcur]
        rw [hstep]
        obtain ⟨h1, h2, h3, h4, h5, h6, h7, h8⟩ :=
          ih (srv.setSubscribers path (setDelete cur c)) (setDelete cur c)
            (by simp [TreeServer.setSubscribers])
        refine ⟨?_, ?_, ?_, h4, h5, h6, h7, h8⟩
        · rw [h1]
          simp [List.filter_cons, pushed, ho, hl, TreeServer.setSubscribers]
        · rw [h2]
          simp only [TreeServer.setSubscribers, setDelete, List.filter_filter]
          congr 1
          apply List.filter_congr
          intro x _
          by_cases hx : x = c
          · subst hx
            simp [kept, ho, hl]
          · simp [hx]
        · intro p hp
          rw [h3 p hp]
          simp [TreeServer.setSubscribers, hp]

theorem filter_eq_singleton {l : List Client} {c : Client} (hnd : l.Nodup) (hc : c ∈ l) :
    l.filter (fun a => decide (a = c)) = [c] := by
  induction l with
  | nil => cases hc
  | cons x xs ih =>
    rw [List.nodup_cons] at hnd
    by_cases hx : x = c
    · subst hx
      rw [List.filter_cons_of_pos (by simp)]
      congr 1
      rw [List.filter_eq_nil_iff]
      intro a ha
      simp only [decide_eq_true_eq]
      intro e
      exact hnd.1 (e ▸ ha)
    · rw [List.filter_cons_of_neg (by simpa using hx)]
      rcases List.mem_cons.mp hc with h | h
      · exact absurd h.symm hx
      · exact ih hnd.2 h

theorem updateSubscribers_none (srv : TreeServer) (path : List Int) (response : Message)
    (origin : Option Client) (h : srv.subscribers path = Option.none) :
    srv.updateSubscribers path response origin = srv := by
  unfold TreeServer.updateSubscribers
  rw [h]

/-- The state `updateSubscribers` leaves for a path that has a subscriber set. -/
theorem updateSubscribers_some (srv : TreeServer) (path : List Int) (response : Message)
    (origin : Option Client) (set : List Client) (h : srv.subscribers path = some set) :
    (srv.updateSubscribers path response origin).queued =
      srv.queued ++ (set.filter (pushed origin srv.clients)).map (fun c => (c, response)) ∧
    (srv.updateSubscribers path response origin).subscribers path =
      some (set.filter (kept origin srv.clients)) ∧
    (∀ p, p ≠ path →
      (srv.updateSubscribers path response origin).subscribers p = srv.subscribers p) ∧
    (srv.updateSubscribers path response origin).clients = srv.clients ∧
    (srv.updateSubscribers path response origin).tree = srv.tree ∧
    (srv.updateSubscribers path response origin).emitted = srv.emitted ∧
    (srv.updateSubscribers path response origin).sent = srv.sent ∧
    (srv.updateSubscribers path response origin).thrown = srv.thrown := by
  unfold TreeServer.updateSubscribers
  rw [h]
  simp only
  obtain ⟨h1, h2, h3, h4, h5, h6, h7, h8⟩ := notify_foldl path response origin set srv set h
  refine ⟨h1, ?_, h3, h4, h5, h6, h7, h8⟩
  rw [h2]
  congr 1
  apply List.filter_congr
  intro x hx
  simp [hx]

/-- What `updateSubscribers` never changes. -/
theorem updateSubscribers_frame (srv : TreeServer) (path : List Int) (response : Message)
    (origin : Option Client) :
    (srv.updateSubscribers path response origin).clients = srv.clients ∧
    (srv.updateSubscribers path response origin).tree = srv.tree ∧
    (srv.updateSubscribers path response origin).emitted = srv.emitted ∧
    (srv.updateSubscribers path response origin).sent = srv.sent ∧
    (srv.updateSubscribers path response origin).thrown = srv.thrown ∧
    (∀ p, p ≠ path →
      (srv.updateSubscribers path response origin).subscribers p = srv.subscribers p) := by
  cases h : srv.subscribers path with
  | none =>
    rw [updateSubscribers_none srv path response origin h]
    exact ⟨rfl, rfl, rfl, rfl, rfl, fun _ _ => rfl⟩
  | some set =>
    obtain ⟨_, _, h3, h4, h5, h6, h7, h8⟩ := updateSubscribers_some srv path response origin set h
    exact ⟨h4, h5, h6, h7, h8, h3⟩

theorem mem_setAdd (set : List Client) (c x : Client) :
    x ∈ setAdd set c ↔ x ∈ set ∨ x = c := by
  unfold setAdd
  split
  · rename_i h
    constructor
    · exact Or.inl
    · rintro (h' | rfl)
      · exact h'
      · exact h
  · simp

theorem mem_setDelete (set : List Client) (c x : Client) :
    x ∈ setDelete set c ↔ x ∈ set ∧ x ≠ c := by
  unfold setDelete
  simp

theorem subscribers_subscribe (srv : TreeServer) (c : Client) (e : EmberElement)
    (p : List Int) :
    (srv.subscribe c e).subscribers p =
      if p = e.path then some (setAdd ((srv.subscribers e.path).getD []) c)
      else srv.subscribers p := by
  unfold TreeServer.subscribe
  simp only
  cases h : srv.subscribers e.path <;>
    simp only [TreeServer.setSubscribers, Option.getD_none, Option.getD_some]

theorem subscribers_unsubscribe (srv : TreeServer) (c : Client) (e : EmberElement)
    (p : List Int) :
    (srv.unsubscribe c e).subscribers p =
      if p = e.path then (srv.subscribers e.path).map (fun set => setDelete set c)
      else srv.subscribers p := by
  unfold TreeServer.unsubscribe
  simp only
  cases h : srv.subscribers e.path with
  | none =>
    simp only [Option.map_none']
    split
    · rename_i hp
      rw [hp, h]
    · rfl
  | some set => simp only [TreeServer.setSubscribers, Option.map_some']

theorem subscribe_eq (srv : TreeServer) (c : Client) (e : EmberElement) :
    srv.subscribe c e =
      srv.setSubscribers e.path (setAdd ((srv.subscribers e.path).getD []) c) := by
  unfold TreeServer.subscribe
  simp only
  cases h : srv.subscribers e.path <;> rfl

theorem setAdd_setAdd (set : List Client) (c : Client) :
    setAdd (setAdd set c) c = setAdd set c := by
  have hmem : c ∈ setAdd set c := (mem_setAdd set c c).mpr (Or.inr rfl)
  rw [show setAdd (setAdd set c) c =
    if c ∈ setAdd set c then setAdd set c else setAdd set c ++ [c] from rfl, if_pos hmem]

theorem setSubscribers_setSubscribers (srv : TreeServer) (p : List Int) (a b : List Client) :
    (srv.setSubscribers p a).setSubscribers p b = srv.setSubscribers p b := by
  unfold TreeServer.setSubscribers
  simp only
  congr 1
  funext q
  split <;> rfl

theorem subscribed_subscribe (srv : TreeServer) (c : Client) (e : EmberElement)
    (p : List Int) (x : Client) :
    (srv.subscribe c e).subscribed p x ↔ srv.subscribed p x ∨ (x = c ∧ p = e.path) := by
  unfold TreeServer.subscribed
  rw [subscribers_subscribe]
  by_cases hp : p = e.path
  · rw [if_pos hp, hp]
    simp only [Option.getD_some, mem_setAdd]
    tauto
  · rw [if_neg hp]
    tauto

theorem subscribe_frame (srv : TreeServer) (c : Client) (e : EmberElement) :
    (srv.subscribe c e).sent = srv.sent ∧ (srv.subscribe c e).queued = srv.queued ∧
    (srv.subscribe c e).emitted = srv.emitted ∧ (srv.subscribe c e).thrown = srv.thrown ∧
    (srv.subscribe c e).clients = srv.clients ∧ (srv.subscribe c e).tree = srv.tree := by
  rw [subscribe_eq]
  exact ⟨rfl, rfl, rfl, rfl, rfl, rfl⟩

/-- The registry after the loop of `handleGetDirectory` over the children of a
node. -/
theorem subscribeChildren_subscribed (c : Client) (children : List EmberElement)
    (srv : TreeServer) (p : List Int) (x : Client) :
    (children.foldl (fun s child => if child.reportsChanges then s.subscribe c child else s)
      srv).subscribed p x ↔
      srv.subscribed p x ∨
        (x = c ∧ ∃ child ∈ children, child.reportsChanges = true ∧ child.path = p) := by
  induction children generalizing srv with
  | nil => simp
  | cons child rest ih =>
    rw [List.foldl_cons, ih]
    by_cases h : child.reportsChanges = true
    · rw [if_pos h, subscribed_subscribe]
      constructor
      · rintro ((h1 | ⟨h1, h2⟩) | ⟨h1, ch, hch, h2⟩)
        · exact Or.inl h1
        · exact Or.inr ⟨h1, child, List.mem_cons_self _ _, h, h2.symm⟩
        · exact Or.inr ⟨h1, ch, List.mem_cons_of_mem _ hch, h2⟩
      · rintro (h1 | ⟨h1, ch, hch, h2, h3⟩)
        · exact Or.inl (Or.inl h1)
        · rcases List.mem_cons.mp hch with rfl | hmem
          · exact Or.inl (Or.inr ⟨h1, h3.symm⟩)
          · exact Or.inr ⟨h1, ch, hmem, h2, h3⟩
    · rw [if_neg h]
      constructor
      · rintro (h1 | ⟨h1, ch, hch, h2⟩)
        · exact Or.inl h1
        · exact Or.inr ⟨h1, ch, List.mem_cons_of_mem _ hch, h2⟩
      · rintro (h1 | ⟨h1, ch, hch, h2, h3⟩)
        · exact Or.inl h1
        · rcases List.mem_cons.mp hch with rfl | hmem
          · exact absurd h2 h
          · exact Or.inr ⟨h1, ch, hmem, h2, h3⟩

theorem subscribeChildren_frame (c : Client) (children : List EmberElement) (srv : TreeServer) :
    (children.foldl (fun s child => if child.reportsChanges then s.subscribe c child else s)
      srv).sent = srv.sent ∧
    (children.foldl (fun s child => if child.reportsChanges then s.subscribe c child else s)
      srv).thrown = srv.thrown := by
  induction children generalizing srv with
  | nil => exact ⟨rfl, rfl⟩
  | cons child rest ih =>
    rw [List.foldl_cons]
    obtain ⟨h1, h2⟩ := ih (if child.reportsChanges then srv.subscribe c child else srv)
    rw [h1, h2]
    split
    · exact ⟨(subscribe_frame srv c child).1, (subscribe_frame srv c child).2.2.2.1⟩
    · exact ⟨rfl, rfl⟩

/-- The state `handleGetDirectory` reaches before it builds the response. -/
theorem handleGetDirectory_subscribers (srv : TreeServer) (c : Client) (element : EmberElement) :
    (srv.handleGetDirectory (some c) element).subscribers =
      (if element.reportsChanges then srv.subscribe c element
        else if element.isNode then
          match element.children with
          | some children =>
            children.foldl
              (fun s child => if child.reportsChanges then s.subscribe c child else s) srv
          | Option.none => srv
        else srv).subscribers := by
  unfold TreeServer.handleGetDirectory
  simp only
  split <;> rfl

theorem node_not_reportsChanges (element : EmberElement) (h : element.isNode = true) :
    element.reportsChanges = false := by
  unfold EmberElement.isNode at h
  unfold EmberElement.reportsChanges EmberElement.isMatrix EmberElement.isParameter
  simp only [decide_eq_true_eq] at h
  simp [h]

theorem queued_filter_pushed {l : List Client} {c : Client} (origin : Option Client)
    (clients : List Client) (m : Message) (hnd : l.Nodup) (hc : c ∈ l)
    (hp : pushed origin clients c = true) :
    ((l.filter (pushed origin clients)).map (fun a => (a, m))).filter
      (fun x => decide (x.1 = c)) = [(c, m)] := by
  rw [List.filter_map]
  have hf : ((fun x : Client × Message => decide (x.1 = c)) ∘ fun a => (a, m)) =
      fun a => decide (a = c) := rfl
  rw [hf, filter_eq_singleton (hnd.filter _) (List.mem_filter.mpr ⟨hc, hp⟩)]
  rfl

theorem queued_filter_origin (l : List Client) (origin : Client) (clients : List Client)
    (m : Message) :
    ((l.filter (pushed (some origin) clients)).map (fun a => (a, m))).filter
      (fun x => decide (x.1 = origin)) = [] := by
  rw [List.filter_eq_nil_iff]
  intro x hx
  simp only [List.mem_map, List.mem_filter] at hx
  obtain ⟨c, ⟨_, hp⟩, rfl⟩ := hx
  simp only [pushed, Bool.and_eq_true, Bool.not_eq_true', decide_eq_false_iff_not,
    decide_eq_true_eq, Option.some.injEq] at hp
  simpa using hp.1

theorem withContents_path (e : EmberElement) (c : Option ElementContents) :
    (e.withContents c).path = e.path := rfl

theorem withContents_contents (e : EmberElement) (c : Option ElementContents) :
    (e.withContents c).contents = c := rfl

theorem withContents_children (e : EmberElement) (c : Option ElementContents) :
    (e.withContents c).children = e.children := rfl

theorem withContents_isRoot (e : EmberElement) (c : Option ElementContents) :
    (e.withContents c).isRoot = e.isRoot := rfl

theorem setValue_writable (srv : TreeServer) (element : EmberElement) (v : Int)
    (origin : Option Client) (key : Option ContentsKey) (c : ElementContents)
    (hparam : element.isParameter = true) (hc : element.contents = some c)
    (hw : c.writable = true) :
    srv.setValue element v origin key = srv.assign element { c with value := some v } origin := by
  unfold TreeServer.setValue
  rw [hc]
  simp only [hparam, hw, if_true]

theorem setValue_not_writable (srv : TreeServer) (element : EmberElement) (v : Int)
    (origin : Option Client) (key : Option ContentsKey) (c : ElementContents)
    (hparam : element.isParameter = true) (hc : element.contents = some c)
    (hw : c.writable = false) :
    srv.setValue element v origin key = (srv, element) := by
  unfold TreeServer.setValue
  rw [hc]
  simp only [hparam, hw, if_true, Bool.false_eq_true, if_false]

theorem writable_iff (c : ElementContents) :
    c.writable = true ↔
      c.access = some ParameterAccess.write ∨ c.access = some ParameterAccess.readWrite := by
  unfold ElementContents.writable
  cases h : c.access with
  | none => simp
  | some a => cases a <;> simp [ParameterAccess.value]

theorem handleInvoke_eq (srv : TreeServer) (client : Client) (invocation : Invocation)
    (element : Option EmberElement) :
    srv.handleInvoke client invocation element =
      (match (invoke invocation element).2 with
        | some e => srv.emit (ServerEvent.error e)
        | Option.none => srv).send client
        (Message.invocationResult (invoke invocation element).1) := rfl

theorem invoke_absent (invocation : Invocation) :
    invoke invocation Option.none =
      ({ invocationId := invocation.id, failed := true }, Option.none) := rfl

theorem invoke_not_function (invocation : Invocation) (e : EmberElement)
    (h : e.isFunction = false) :
    invoke invocation (some e) =
      ({ invocationId := invocation.id, failed := true }, Option.none) := by
  unfold invoke
  simp only [h, if_true]

theorem invoke_no_handler (invocation : Invocation) (e : EmberElement)
    (h : e.isFunction = true) (hf : e.func = Option.none) :
    invoke invocation (some e) =
      ({ invocationId := invocation.id, failed := true }, some ServerError.typeError) := by
  unfold invoke
  simp only [h, hf, Bool.true_eq_false, if_false]

theorem invoke_returns (invocation : Invocation) (e : EmberElement) (f : Handler)
    (values : List Int) (h : e.isFunction = true) (hf : e.func = some f)
    (hr : f invocation.arguments = Except.ok values) :
    invoke invocation (some e) =
      ({ invocationId := invocation.id, result := some values }, Option.none) := by
  unfold invoke
  simp only [h, hf, hr, Bool.true_eq_false, if_false]

theorem invoke_raises (invocation : Invocation) (e : EmberElement) (f : Handler)
    (failure : Int) (h : e.isFunction = true) (hf : e.func = some f)
    (hr : f invocation.arguments = Except.error failure) :
    invoke invocation (some e) =
      ({ invocationId := invocation.id, failed := true },
        some (ServerError.raised failure)) := by
  unfold invoke
  simp only [h, hf, hr, Bool.true_eq_false, if_false]

theorem parameter_not_root (e : EmberElement) (h : e.isParameter = true) : e.isRoot = false := by
  unfold EmberElement.isParameter at h
  unfold EmberElement.isRoot
  simp only [decide_eq_true_eq] at h
  simp [h]

/-- The queue after a second call of `updateSubscribers` for the same path and
origin, on a state that took over the queue and the registry of the first. -/
theorem two_pushes (srv s1 : TreeServer) (path : List Int) (m1 m2 : Message) (A C : Client)
    (set : List Client) (hset : srv.subscribers path = some set) (hnd : set.Nodup)
    (hC : C ∈ set) (hlive : C ∈ srv.clients) (hne : C ≠ A)
    (hq : s1.queued = (srv.updateSubscribers path m1 (some A)).queued)
    (hs : s1.subscribers = (srv.updateSubscribers path m1 (some A)).subscribers)
    (hcl : s1.clients = srv.clients) (hsent : s1.sent = srv.sent ++ [(A, m2)]) :
    (s1.updateSubscribers path m2 (some A)).queued.filter (fun x => decide (x.1 = C)) =
      srv.queued.filter (fun x => decide (x.1 = C)) ++ [(C, m1), (C, m2)] ∧
    (s1.updateSubscribers path m2 (some A)).queued.filter (fun x => decide (x.1 = A)) =
      srv.queued.filter (fun x => decide (x.1 = A)) ∧
    (s1.updateSubscribers path m2 (some A)).sent = srv.sent ++ [(A, m2)] := by
  obtain ⟨h1, h2, _⟩ := updateSubscribers_some srv path m1 (some A) set hset
  have hset1 : s1.subscribers path = some (set.filter (kept (some A) srv.clients)) := by
    rw [hs, h2]
  obtain ⟨g1, _, _, _, _, _, g7, _⟩ :=
    updateSubscribers_some s1 path m2 (some A) _ hset1
  have hp : pushed (some A) srv.clients C = true := by
    simp [pushed, hne, hlive]
  have hk : C ∈ set.filter (kept (some A) srv.clients) :=
    List.mem_filter.mpr ⟨hC, by simp [kept, hlive]⟩
  refine ⟨?_, ?_, ?_⟩
  · rw [g1, hq, h1, hcl, List.filter_append, List.filter_append,
      queued_filter_pushed (some A) srv.clients m1 hnd hC hp,
      queued_filter_pushed (some A) srv.clients m2 (hnd.filter _) hk hp, List.append_assoc]
    rfl
  · rw [g1, hq, h1, hcl, List.filter_append, List.filter_append,
      queued_filter_origin, queued_filter_origin, List.append_nil, List.append_nil]
  · rw [g7, hsent]

theorem handleQualifiedParameter_writable (srv : TreeServer) (client : Client)
    (element : EmberElement) (parameter : RequestNode) (c pc : ElementContents) (v : Int)
    (res : Message)
    (hparam : element.isParameter = true) (hc : element.contents = some c)
    (hw : c.writable = true) (hpc : parameter.contents = some pc) (hv : pc.value = some v)
    (hres : getQualifiedResponse (element.withContents (some { c with value := some v })) =
      some res) :
    srv.handleQualifiedParameter client element parameter =
      ((((srv.updateSubscribers element.path
          (getResponse (element.withContents (some { c with value := some v })))
          (some client)).emit (ServerEvent.valueChange element.path)).send client
          res).updateSubscribers element.path res (some client),
        element.withContents (some { c with value := some v })) := by
  unfold TreeServer.handleQualifiedParameter
  rw [hpc]
  simp only [hv]
  rw [setValue_writable srv element v (some client) Option.none c hparam hc hw]
  have hassign : srv.assign element { c with value := some v } (some client) =
      ((srv.updateSubscribers element.path
        (getResponse (element.withContents (some { c with value := some v })))
        (some client)).emit (ServerEvent.valueChange element.path),
        element.withContents (some { c with value := some v })) := rfl
  rw [hassign]
  simp only [hres, withContents_path]

theorem handleNode_setValue (lib : EmberLib) (srv : TreeServer) (client : Client)
    (node cmd : RequestNode) (path : List Int) (element : EmberElement) (c : ElementContents)
    (v : Int)
    (hd : descend node [] = Descent.found cmd path)
    (he : srv.tree.getElementByPath path = some element)
    (hcmd : cmd.isParameter = true) (hv : cmd.contents.bind (fun c => c.value) = some v)
    (hparam : element.isParameter = true) (hc : element.contents = some c)
    (hw : c.writable = true) :
    (TreeServer.handleNode lib srv client node).1 =
      (({ (srv.updateSubscribers element.path
          (getResponse (element.withContents (some { c with value := some v })))
          (some client)).emit (ServerEvent.valueChange element.path) with
          tree := ((srv.updateSubscribers element.path
            (getResponse (element.withContents (some { c with value := some v })))
            (some client)).emit (ServerEvent.valueChange element.path)).tree.replaceAt path
            (element.withContents (some { c with value := some v })) } : TreeServer).send client
        (getResponse (element.withContents (some { c with value := some v })))).updateSubscribers
        element.path (getResponse (element.withContents (some { c with value := some v })))
        (some client) := by
  have hnc : cmd.isCommand = false := by
    unfold RequestNode.isParameter at hcmd
    unfold RequestNode.isCommand
    simp only [decide_eq_true_eq] at hcmd
    simp [hcmd]
  unfold TreeServer.handleNode
  rw [hd]
  simp only [he, hnc, hcmd, hv, Bool.false_eq_true, false_and, if_false, Option.isSome_some,
    and_self, if_true]
  rw [setValue_writable srv element v (some client) Option.none c hparam hc hw]
  have hassign : srv.assign element { c with value := some v } (some client) =
      ((srv.updateSubscribers element.path
        (getResponse (element.withContents (some { c with value := some v })))
        (some client)).emit (ServerEvent.valueChange element.path),
        element.withContents (some { c with value := some v })) := rfl
  rw [hassign]
  rfl

/-- A relative request that ends on a matrix item is answered with `invalid
request format`, whatever the element it resolves to. -/
theorem handleNode_matrix_item (lib : EmberLib) (srv : TreeServer) (client : Client)
    (node cmd : RequestNode) (path : List Int) (element : EmberElement)
    (hd : descend node [] = Descent.found cmd path)
    (he : srv.tree.getElementByPath path = some element)
    (hcmd : cmd.isMatrix = true) :
    TreeServer.handleNode lib srv client node =
      ((srv.emit (ServerEvent.error ServerError.invalidRequestFormat)).send client
        (Message.branch element.path), Option.none) := by
  have hnc : cmd.isCommand = false := by
    unfold RequestNode.isMatrix at hcmd
    unfold RequestNode.isCommand
    simp only [decide_eq_true_eq] at hcmd
    simp [hcmd]
  have hnp : cmd.isParameter = false := by
    unfold RequestNode.isMatrix at hcmd
    unfold RequestNode.isParameter
    simp only [decide_eq_true_eq] at hcmd
    simp [hcmd]
  unfold TreeServer.handleNode
  rw [hd]
  simp only [he, hnc, hnp, Bool.false_eq_true, false_and, if_false]
  rfl

/-! ## Lemmas on the entry point, on the tree and on replaceElement -/

/-- The descent of `handleNode` over a chain of nodes that ends in a command
with a number stops at the command, with the numbers of the chain as path. -/
theorem descend_relativeChain (c : RequestNode) (code : Int) (hc : c.isCommand = true)
    (hn : c.number = some code) (ns acc : List Int) :
    descend (relativeChain ns c) acc = Descent.found c (acc ++ ns) := by
  induction ns generalizing acc with
  | nil =>
    obtain ⟨type, number, p, contents, connections, invocation, children⟩ := c
    have ht : type = ElementType.command := by
      simpa [RequestNode.isCommand, RequestNode.type] using hc
    have hnum : number = some code := hn
    subst ht
    subst hnum
    simp only [relativeChain, List.append_nil]
    unfold descend
    simp
  | cons n rest ih =>
    simp only [relativeChain, descend]
    rw [if_neg (by decide), ih]
    simp

/-- `setValue` on a Parameter without contents or without write access changes
nothing. -/
theorem setValue_refused (srv : TreeServer) (element : EmberElement) (v : Int)
    (origin : Option Client) (key : Option ContentsKey) (hparam : element.isParameter = true)
    (hrefused : ∀ c, element.contents = some c → c.writable = false) :
    srv.setValue element v origin key = (srv, element) := by
  cases hc : element.contents with
  | none =>
    unfold TreeServer.setValue
    rw [hc]
  | some c => exact setValue_not_writable srv element v origin key c hparam hc (hrefused c hc)

/-- A source that the requested target carries itself is not released from
another target. -/
theorem releaseSource_of_holder (client : Option Client) (response : Bool) (s : Int) (st : Step)
    (cur : MatrixConnection) (hcur : st.matrix.getConnection st.connection.target = some cur)
    (hsrc : cur.sources = some [s]) :
    releaseSource client response s st = st := by
  have hmem : st.connection.target ∈ st.matrix.getSourceConnections s := by
    apply mem_getSourceConnections_of_mem_sourcesOf
    unfold Matrix.sourcesOf
    simp [hcur, hsrc]
  unfold releaseSource
  split
  · split
    · rename_i other heq
      rw [heq] at hmem
      have : st.connection.target = other := by simpa using hmem
      rw [if_neg (by simp [this])]
    · rfl
  · rfl

theorem getElementByPath_nil (tree : EmberElement) : tree.getElementByPath [] = some tree := by
  unfold EmberElement.getElementByPath
  rfl

theorem getElementByPath_cons (tree : EmberElement) (n : Int) (rest : List Int) :
    tree.getElementByPath (n :: rest) =
      ((tree.children.getD []).find? (fun c => decide (c.number = n))).bind
        (fun c => c.getElementByPath rest) := by
  rw [EmberElement.getElementByPath]
  cases (tree.children.getD []).find? (fun c => decide (c.number = n)) <;> rfl

/-- The element at a path is the first child with the last number of the
element at the path without it. -/
theorem getElementByPath_append (tree : EmberElement) (q : List Int) (n : Int) :
    tree.getElementByPath (q ++ [n]) =
      (tree.getElementByPath q).bind
        (fun p => (p.children.getD []).find? (fun c => decide (c.number = n))) := by
  induction q generalizing tree with
  | nil =>
    rw [List.nil_append, getElementByPath_cons, getElementByPath_nil, Option.some_bind]
    cases (tree.children.getD []).find? (fun c => decide (c.number = n)) with
    | none => rfl
    | some c => exact getElementByPath_nil c
  | cons m rest ih =>
    rw [List.cons_append, getElementByPath_cons, getElementByPath_cons]
    cases (tree.children.getD []).find? (fun c => decide (c.number = m)) with
    | none => rfl
    | some c => exact ih c

theorem replaceFirst_append (p : EmberElement → Bool) (f : EmberElement → EmberElement)
    (pre post : List EmberElement) (old : EmberElement)
    (hpre : ∀ a ∈ pre, p a = false) (hold : p old = true) :
    replaceFirst p f (pre ++ old :: post) = pre ++ f old :: post := by
  induction pre with
  | nil => simp [replaceFirst, hold]
  | cons a rest ih =>
    have ha : p a = false := hpre a (List.mem_cons_self _ _)
    simp only [List.cons_append, replaceFirst, ha, Bool.false_eq_true, if_false]
    exact congrArg (List.cons a) (ih (fun b hb => hpre b (List.mem_cons_of_mem _ hb)))

theorem find_replaceFirst (p : EmberElement → Bool) (f : EmberElement → EmberElement)
    (cs : List EmberElement) (c : EmberElement) (hfind : cs.find? p = some c)
    (hkeep : p (f c) = true) :
    (replaceFirst p f cs).find? p = some (f c) := by
  obtain ⟨hp, pre, post, hcs, hpre⟩ := List.find?_eq_some.mp hfind
  have hpre1 : ∀ a ∈ pre, p a = false := by
    intro a ha
    simpa using hpre a ha
  rw [hcs, replaceFirst_append p f pre post c hpre1 hp]
  rw [List.find?_eq_some]
  exact ⟨hkeep, pre, post, rfl, hpre⟩

theorem replaceAt_number (c : EmberElement) (m : Int) (rest : List Int) (new : EmberElement) :
    (c.replaceAt (m :: rest) new).number = c.number := by
  unfold EmberElement.replaceAt
  rfl

theorem replaceAt_children (tree : EmberElement) (n : Int) (rest : List Int)
    (new : EmberElement) :
    (tree.replaceAt (n :: rest) new).children =
      tree.children.map (replaceFirst (fun c => decide (c.number = n))
        (fun c => c.replaceAt rest new)) := by
  rw [EmberElement.replaceAt]
  rfl

/-- After `new` has been written at the place of an element with the same
number, `getElementByPath` finds `new` at that path. -/
theorem getElementByPath_replaceAt (tree : EmberElement) (q : List Int)
    (old new : EmberElement) (hfound : tree.getElementByPath q = some old)
    (hnumber : new.number = old.number) :
    (tree.replaceAt q new).getElementByPath q = some new := by
  induction q generalizing tree with
  | nil =>
    rw [getElementByPath_nil]
    rfl
  | cons n rest ih =>
    rw [getElementByPath_cons] at hfound
    cases hfind : (tree.children.getD []).find? (fun c => decide (c.number = n)) with
    | none => simp [hfind] at hfound
    | some c =>
      rw [hfind, Option.some_bind] at hfound
      have hcn : c.number = n := by
        have := (List.find?_eq_some.mp hfind).1
        simpa using this
      cases hch : tree.children with
      | none => simp [hch] at hfind
      | some cs =>
        rw [hch, Option.getD_some] at hfind
        have hkeep : (fun c => decide (c.number = n)) (c.replaceAt rest new) = true := by
          cases rest with
          | nil =>
            rw [getElementByPath_nil] at hfound
            have hco : c = old := Option.some.inj hfound
            have hr : c.replaceAt [] new = new := rfl
            simp [hr, hnumber, ← hco, hcn]
          | cons m r => simp [replaceAt_number, hcn]
        rw [getElementByPath_cons, replaceAt_children, hch, Option.map_some', Option.getD_some,
          find_replaceFirst _ _ cs c hfind hkeep, Option.some_bind]
        exact ih c hfound

/-- The paths of `exampleRoot` are derived. -/
theorem exampleRoot_pathsDerived : exampleRoot.PathsDerived := by
  intro q e h
  rcases q with _ | ⟨a, q⟩
  · cases h
    refine ⟨rfl, ?_⟩
    intro c hc
    have : c = directoryNode := by simpa [exampleRoot, EmberElement.children] using hc
    subst this
    rfl
  · rw [getElementByPath_cons] at h
    by_cases ha : a = 1
    · subst ha
      have h1 : directoryNode.getElementByPath q = some e := h
      rcases q with _ | ⟨b, q⟩
      · cases h1
        refine ⟨rfl, ?_⟩
        intro c hc
        have : c = parameterChild ∨ c = streamChild := by
          simpa [directoryNode, EmberElement.children] using hc
        rcases this with rfl | rfl <;> rfl
      · rw [getElementByPath_cons] at h1
        by_cases hb : b = 2
        · subst hb
          have h2 : parameterChild.getElementByPath q = some e := h1
          rcases q with _ | ⟨d, q⟩
          · cases h2
            exact ⟨rfl, by intro c hc; cases hc⟩
          · rw [getElementByPath_cons] at h2
            cases h2
        · by_cases hb3 : b = 3
          · subst hb3
            have h2 : streamChild.getElementByPath q = some e := h1
            rcases q with _ | ⟨d, q⟩
            · cases h2
              exact ⟨rfl, by intro c hc; cases hc⟩
            · rw [getElementByPath_cons] at h2
              cases h2
          · exfalso
            have h2 : b ≠ 2 := hb
            have h3 : b ≠ 3 := hb3
            simp [directoryNode, parameterChild, streamChild, EmberElement.children,
              EmberElement.number, List.find?, Ne.symm h2, Ne.symm h3] at h1
    · exfalso
      simp [exampleRoot, directoryNode, EmberElement.children, EmberElement.number, List.find?,
        Ne.symm ha] at h

/-- Where `getElementByPath` finds an element below the root: the parent at
the path without its last number, and the place of the element among the
children of the parent, the first one with its number. -/
theorem found_below_parent (tree : EmberElement) (path : List Int) (old : EmberElement)
    (hfound : tree.getElementByPath path = some old) (hne : path ≠ []) :
    ∃ parent pre post, tree.getElementByPath path.dropLast = some parent ∧
      parent.children = some (pre ++ old :: post) ∧
      old.number = path.getLast hne ∧
      ∀ c ∈ pre, c.number ≠ old.number := by
  have hsplit := List.dropLast_append_getLast hne
  rw [← hsplit, getElementByPath_append] at hfound
  cases hp : tree.getElementByPath path.dropLast with
  | none => simp [hp] at hfound
  | some parent =>
    rw [hp, Option.some_bind] at hfound
    obtain ⟨hnum, pre, post, hcs, hpre⟩ := List.find?_eq_some.mp hfound
    have hnum1 : old.number = path.getLast hne := by simpa using hnum
    refine ⟨parent, pre, post, rfl, ?_, hnum1, ?_⟩
    · cases hch : parent.children with
      | none => simp [hch] at hcs
      | some cs =>
        rw [hch, Option.getD_some] at hcs
        rw [hcs]
    · intro c hc
      have := hpre c hc
      rw [hnum1]
      simpa using this

/-- What `replaceElement` does for an element whose path resolves below the
root of a tree with derived paths. -/
theorem replaceElement_found (srv : TreeServer) (element old parent : EmberElement)
    (pre post : List EmberElement) (hwf : srv.tree.PathsDerived)
    (hfound : srv.tree.getElementByPath element.path = some old)
    (hne : element.path ≠ [])
    (hparent : srv.tree.getElementByPath element.path.dropLast = some parent)
    (hchildren : parent.children = some (pre ++ old :: post))
    (hpre : ∀ c ∈ pre, c.number ≠ old.number) :
    srv.replaceElement element =
      ((srv.withTree (srv.tree.replaceAt element.path.dropLast
            (parent.withChildren (pre ++ element :: post)))).updateSubscribers
          element.path (getResponse element) Option.none, Option.none) := by
  have hsplit := List.dropLast_append_getLast hne
  obtain ⟨_, _, _, hp1, hc1, hnum, _⟩ := found_below_parent srv.tree element.path old hfound hne
  obtain ⟨hppath, hcpath⟩ := hwf element.path.dropLast parent hparent
  rw [hchildren, Option.getD_some] at hcpath
  have hold : old.path = element.path := (hwf element.path old hfound).1
  have hprepath : ∀ a ∈ pre,
      (fun c : EmberElement => decide (c.path = element.path)) a = false := by
    intro a ha
    have h1 := hcpath a (List.mem_append_left _ ha)
    have h2 := hpre a ha
    simp only [decide_eq_false_iff_not]
    intro h3
    rw [h1] at h3
    have h4 := List.append_cancel_left (h3.trans hsplit.symm)
    simp only [List.cons.injEq, and_true] at h4
    exact h2 (by rw [h4, hnum])
  have hany : (pre ++ old :: post).any (fun c => decide (c.path = element.path)) = true := by
    simp [hold]
  unfold TreeServer.replaceElement EmberElement.parentAt
  simp only [hfound, if_neg hne, hparent, hchildren, hany, if_true]
  rw [replaceFirst_append _ _ pre post old hprepath (by simp [hold])]

/-! ## Theorems -/

/-- C3. On an nToN matrix, a request on an unlocked target that is not a
disconnect, names at least one source and is refused by `canConnect` leaves the
whole matrix as it was (no partial apply) and gives the target the disposition
`tally`, both in `conResult` and in the response. `processConnection` is the
body of the loop of `handleMatrixConnections`, taken at any state of the loop. -/
theorem nToN_capacity_rejection (lib : EmberLib) (tree : Element) (client : Option Client)
    (response : Bool) (st : LoopState) (connection cur : MatrixConnection) (a : Int) (l : List Int)
    (htype : st.matrix.type = some MatrixType.nToN)
    (hcur : st.matrix.getConnection connection.target = some cur)
    (hunlocked : cur.isLocked = false)
    (hop : connection.operation ≠ some MatrixOperation.disconnect)
    (hsrc : connection.sources = some (a :: l))
    (hcan : lib.canConnect st.matrix connection.target (a :: l) connection.operation = false) :
    (processConnection lib tree client response st connection).matrix = st.matrix ∧
    (processConnection lib tree client response st connection).thrown = false ∧
    (processConnection lib tree client response st connection).conResult =
      some { target := connection.target, sources := cur.sources,
             disposition := some MatrixDisposition.tally } ∧
    getResult (processConnection lib tree client response st connection).res connection.target =
      some { target := connection.target, sources := cur.sources,
             disposition := some MatrixDisposition.tally } := by
  have hres := getResult_setResult (setResult st.res { target := connection.target })
    { target := connection.target, sources := cur.sources,
      disposition := some MatrixDisposition.tally }
  cases response <;>
    simp [processConnection, secondChain, conclude, hcur, prepare, hunlocked, htype, applyConnection, acceptsConnect, hsrc,
      hop, hcan, Step.setDisposition, finish, Step.emit] <;> exact hres


/-- C5. On an nToN matrix and for an unlocked target, the disposition of the
result is `modified` exactly in the three rows of the spec's table
(`tableSaysModified`) and `tally` in every other case. -/
theorem nToN_disposition_table (lib : EmberLib) (tree : Element) (client : Option Client)
    (response : Bool) (st : LoopState) (connection cur : MatrixConnection)
    (htype : st.matrix.type = some MatrixType.nToN)
    (hcur : st.matrix.getConnection connection.target = some cur)
    (hunlocked : cur.isLocked = false) :
    (tableSaysModified lib st.matrix cur connection →
      resultDisposition (processConnection lib tree client response st connection) =
        some MatrixDisposition.modified) ∧
    (¬ tableSaysModified lib st.matrix cur connection →
      resultDisposition (processConnection lib tree client response st connection) =
        some MatrixDisposition.tally) := by
  obtain ⟨t, srcs, op, d, lk⟩ := connection
  simp only at hcur
  have hcur' := hcur
  unfold Matrix.getConnection at hcur'
  have htgt : cur.target = t := by simpa using List.find?_some hcur'
  rcases srcs with _ | _ | ⟨a, l⟩ <;> rcases op with _ | _ | _ | _ <;>
    cases hs : cur.hasSources <;> cases response <;>
    simp [tableSaysModified, resultDisposition, processConnection, secondChain, conclude, hcur, prepare, hunlocked, htype,
      applyConnection, acceptsConnect, Step.setDisposition, finish, Step.emit, hs,
      implicitDisconnect, disconnectOther, applySources, getConnection_updateSources,
      Matrix.setSources, Matrix.connectSources, htgt] <;>
    (try cases hc : lib.canConnect st.matrix t (a :: l) _ ) <;>
    simp [hc, applySources, Step.setDisposition, getConnection_updateSources, hcur, htgt,
      Matrix.setSources, Matrix.connectSources]


/-- C4, evaluated on the code at a locked target. Target 0 of `lockedMatrix` is
locked and carries source 5; the request `absolute(target = 0, sources = [])`
from a client empties the target and the response reports `modified`, whatever
the library parameters are: the second chain of the loop body (lines 325-338)
does not look at the lock. The claim says `locked` and an unchanged matrix. -/
theorem locked_target_not_ignored (lib : EmberLib) :
    (lockedMatrix.getConnection 0).map (fun c => c.isLocked) = some true ∧
    lockedMatrix.sourcesOf 0 = [5] ∧
    (handleMatrixConnections lib emptyTree (some someClient) lockedMatrix [clearRequest]
      true).matrix.sourcesOf 0 = [] ∧
    responseDisposition (handleMatrixConnections lib emptyTree (some someClient) lockedMatrix
      [clearRequest] true).response.connections 0 = some MatrixDisposition.modified := by
  refine ⟨by decide, by decide, ?_, ?_⟩ <;> rfl

/-- C3 at a concrete input: `capacityMatrix` allows one source per target,
target 0 carries source 1, and `connect(target = 0, sources = [2])` is
answered `tally`. -/
theorem nToN_capacity_rejection_witness :
    (processConnection specLib emptyTree none true { matrix := capacityMatrix }
      { target := 0, sources := some [2], operation := some MatrixOperation.connect }).conResult =
      some { target := 0, sources := some [1], disposition := some MatrixDisposition.tally } :=
  (nToN_capacity_rejection specLib emptyTree none true { matrix := capacityMatrix }
      { target := 0, sources := some [2], operation := some MatrixOperation.connect }
      { target := 0, sources := some [1] } 2 [] rfl rfl rfl (by decide) rfl (by decide)).2.2.1

/-- C5 at two concrete inputs: an empty source list on a target with sources is
`modified`, a disconnect of a target without sources is `tally`. -/
theorem nToN_disposition_table_witness :
    resultDisposition (processConnection specLib emptyTree none true { matrix := capacityMatrix }
      clearRequest) = some MatrixDisposition.modified ∧
    resultDisposition (processConnection specLib emptyTree none true { matrix := capacityMatrix }
      disconnectOne) = some MatrixDisposition.tally :=
  ⟨(nToN_disposition_table specLib emptyTree none true { matrix := capacityMatrix } clearRequest
      { target := 0, sources := some [1] } rfl rfl rfl).1
      (Or.inr (Or.inl ⟨by decide, rfl, rfl⟩)),
   (nToN_disposition_table specLib emptyTree none true { matrix := capacityMatrix } disconnectOne
      { target := 1 } rfl rfl rfl).2
      (by simp [tableSaysModified, disconnectOne, MatrixConnection.hasSources])⟩

/-- C6, evaluated on the code at a oneToN disconnect. Target 0 of `oneToNMatrix`
is unlocked and carries source 5; after `disconnect(target = 0, sources = [5])`
the result of target 0 has no disposition at all, in `conResult` and in the
response, whatever the library parameters are: lines 344-364 assign
`connection.operarion` and never `conResult.disposition`. The claim says
`modified`. -/
theorem oneToN_disconnect_leaves_disposition_unset (lib : EmberLib) :
    oneToNMatrix.sourcesOf 0 = [5] ∧
    (handleMatrixConnections lib emptyTree (some someClient) oneToNMatrix [disconnectFive]
      true).thrown = false ∧
    (handleMatrixConnections lib emptyTree (some someClient) oneToNMatrix [disconnectFive]
      true).conResult =
      some { target := 0, sources := some [5], disposition := none } ∧
    responseDisposition (handleMatrixConnections lib emptyTree (some someClient) oneToNMatrix
      [disconnectFive] true).response.connections 0 = none := by
  refine ⟨by decide, ?_, ?_, ?_⟩ <;> rfl

/-- C7. Disconnect idempotence: for every matrix and every unlocked target
without sources, a `handleMatrixConnections` call with one disconnect request
for that target leaves the matrix as it was, raises nothing, answers `tally`,
emits no `matrix-connect`, `matrix-disconnect` or `matrix-change` event (the
one `emit` call made for a client request has an undefined event name), and
does not call `updateSubscribers`. -/
theorem disconnect_of_disconnected_target_is_noop (lib : EmberLib) (tree : Element)
    (client : Option Client) (response : Bool) (m : Matrix) (connection cur : MatrixConnection)
    (hcur : m.getConnection connection.target = some cur)
    (hunlocked : cur.isLocked = false)
    (hempty : cur.hasSources = false)
    (hop : connection.operation = some MatrixOperation.disconnect) :
    (handleMatrixConnections lib tree client m [connection] response).matrix = m ∧
    (handleMatrixConnections lib tree client m [connection] response).thrown = false ∧
    responseDisposition
      (handleMatrixConnections lib tree client m [connection] response).response.connections
      connection.target = some MatrixDisposition.tally ∧
    (∀ e ∈ (handleMatrixConnections lib tree client m [connection] response).emitted,
      e.type = none) ∧
    (handleMatrixConnections lib tree client m [connection] response).updated = none := by
  obtain ⟨t, srcs, op, d, lk⟩ := connection
  simp only at hcur hop
  subst hop
  have hres := getResult_setResult (setResult [] { target := t })
    { target := t, sources := cur.sources, disposition := some MatrixDisposition.tally }
  rcases srcs with _ | _ | ⟨a, l⟩ <;> cases response <;>
    simp [handleMatrixConnections, processConnections, processConnection, secondChain, conclude,
      hcur, prepare,
      hunlocked, applyConnection, acceptsConnect, hempty, Step.setDisposition, finish,
      Step.emit, notTally, responseDisposition] <;>
    simp [hres]

/-- C7 at a concrete input: disconnecting the empty target 1 of
`oneToOneMatrix` notifies no subscriber. -/
theorem disconnect_of_disconnected_target_is_noop_witness :
    (handleMatrixConnections specLib emptyTree (some someClient) oneToOneMatrix [disconnectOne]
      true).updated = none :=
  (disconnect_of_disconnected_target_is_noop specLib emptyTree (some someClient) true
    oneToOneMatrix disconnectOne { target := 1 } rfl rfl rfl rfl).2.2.2.2

/-- C8, evaluated on the code. Target 0 of `oneToNMatrix` is unlocked and
carries exactly source 5, the matrix has no labels so that
`getDisconnectSource` returns `null`, and `canConnect` is the spec's (a oneToN
target may carry one source). After `absolute(target = 0, sources = [5])` the
sources stay `[5]` but the disposition is `modified`: line 288 assigns the
misspelt `connection.operarion`, so the request still reaches lines 310-323.
The claim says `tally`. -/
theorem oneToN_same_source_without_default_is_modified :
    (getDisconnectSource emptyTree oneToNMatrix 0).1 = some none ∧
    oneToNMatrix.sourcesOf 0 = [5] ∧
    (handleMatrixConnections specLib emptyTree (some someClient) oneToNMatrix [setFive]
      true).matrix.sourcesOf 0 = [5] ∧
    responseDisposition (handleMatrixConnections specLib emptyTree (some someClient) oneToNMatrix
      [setFive] true).response.connections 0 = some MatrixDisposition.modified := by
  refine ⟨?_, by decide, ?_, ?_⟩ <;> rfl

/-- C9, evaluated on the code. For the request
`[absolute(0, []), disconnect(1, [])]` on `capacityMatrix` the disposition of
target 0 is `modified` and that of target 1 is `tally`, and `updateSubscribers`
is not called, whatever the library parameters are: line 393 tests the
`conResult` of the connection processed last only. The claim says it is called
as soon as one disposition is not `tally`. -/
theorem subscribers_not_updated_when_last_is_tally (lib : EmberLib) :
    responseDisposition (handleMatrixConnections lib emptyTree (some someClient) capacityMatrix
      [clearRequest, disconnectOne] true).response.connections 0 =
      some MatrixDisposition.modified ∧
    responseDisposition (handleMatrixConnections lib emptyTree (some someClient) capacityMatrix
      [clearRequest, disconnectOne] true).response.connections 1 =
      some MatrixDisposition.tally ∧
    (handleMatrixConnections lib emptyTree (some someClient) capacityMatrix
      [clearRequest, disconnectOne] true).thrown = false ∧
    (handleMatrixConnections lib emptyTree (some someClient) capacityMatrix
      [clearRequest, disconnectOne] true).updated = none := by
  refine ⟨?_, ?_, ?_, ?_⟩ <;> rfl

/-- C2. Scenario A generalised. On a oneToOne matrix in which source `s` is
routed to target `other`, a client's request `connect(target = t, sources =
[s])` for an unlocked, empty target `t ≠ other` that `canConnect` accepts once
`other` is released leaves `other` without sources and `t` with `[s]`, emits
`matrix-disconnect` for `other` and then `matrix-connect` for `t`, and the
response carries both targets with disposition `modified`. -/
theorem oneToOne_takeover (lib : EmberLib) (tree : Element) (client : Client) (m : Matrix)
    (t other s : Int) (cur : MatrixConnection)
    (htype : m.type = some MatrixType.oneToOne)
    (hwf : m.WF) (hex : m.Exclusive)
    (hrouted : s ∈ m.sourcesOf other)
    (hne : t ≠ other)
    (hcur : m.getConnection t = some cur)
    (hunlocked : cur.isLocked = false)
    (hempty : cur.hasSources = false)
    (hcan : lib.canConnect (m.setSources other []) t [s] (some MatrixOperation.connect) = true) :
    (handleMatrixConnections lib tree (some client) m
      [{ target := t, sources := some [s], operation := some MatrixOperation.connect }]
      true).matrix.sourcesOf other = [] ∧
    (handleMatrixConnections lib tree (some client) m
      [{ target := t, sources := some [s], operation := some MatrixOperation.connect }]
      true).matrix.sourcesOf t = [s] ∧
    (handleMatrixConnections lib tree (some client) m
      [{ target := t, sources := some [s], operation := some MatrixOperation.connect }]
      true).emitted =
      [{ type := some EmitType.matrixDisconnect, target := other, sources := some [s],
         client := some client.remoteAddress },
       { type := some EmitType.matrixConnect, target := t, sources := some [s],
         client := some client.remoteAddress }] ∧
    responseDisposition (handleMatrixConnections lib tree (some client) m
      [{ target := t, sources := some [s], operation := some MatrixOperation.connect }]
      true).response.connections other = some MatrixDisposition.modified ∧
    responseDisposition (handleMatrixConnections lib tree (some client) m
      [{ target := t, sources := some [s], operation := some MatrixOperation.connect }]
      true).response.connections t = some MatrixDisposition.modified ∧
    (handleMatrixConnections lib tree (some client) m
      [{ target := t, sources := some [s], operation := some MatrixOperation.connect }]
      true).thrown = false := by
  have hgsc := getSourceConnections_eq_singleton hwf hex hrouted
  have hne' : ¬ other = t := fun e => hne e.symm
  have htgt := getConnection_target hcur
  have hcur1 : (m.setSources other []).getConnection t = some cur := by
    unfold Matrix.setSources
    rw [getConnection_updateSources, hcur]
    simp [htgt, hne]
  have hsrc : cur.sources = none ∨ cur.sources = some [] := by
    unfold MatrixConnection.hasSources at hempty
    rcases h : cur.sources with _ | _ | ⟨a, l⟩
    · exact Or.inl rfl
    · exact Or.inr rfl
    · simp [h] at hempty
  have hso : ((m.setSources other []).connectSources t [s]).sourcesOf other = [] := by
    unfold Matrix.connectSources Matrix.setSources
    rw [sourcesOf_updateSources, if_neg hne', sourcesOf_updateSources, if_pos rfl]
    cases m.getConnection other <;> simp
  have hst : ((m.setSources other []).connectSources t [s]).sourcesOf t = [s] := by
    unfold Matrix.connectSources
    rw [sourcesOf_updateSources, if_pos rfl, hcur1]
    rcases hsrc with hsrc | hsrc <;> simp [hsrc]
  have hro : ∀ (x : Option (List Int)),
      responseDisposition (setResult (setResult (setResult [] { target := t })
        { target := other, sources := some [], disposition := some MatrixDisposition.modified })
        { target := t, sources := x, disposition := some MatrixDisposition.modified }) other =
      some MatrixDisposition.modified := by
    intro x
    unfold responseDisposition
    rw [getResult_setResult_ne _ _ _ hne']
    have := getResult_setResult (setResult [] { target := t })
      { target := other, sources := some [], disposition := some MatrixDisposition.modified }
    simp only at this
    rw [this]
    rfl
  have hrt : ∀ (x : Option (List Int)),
      responseDisposition (setResult (setResult (setResult [] { target := t })
        { target := other, sources := some [], disposition := some MatrixDisposition.modified })
        { target := t, sources := x, disposition := some MatrixDisposition.modified }) t =
      some MatrixDisposition.modified := by
    intro x
    unfold responseDisposition
    have := getResult_setResult (setResult (setResult [] { target := t })
        { target := other, sources := some [], disposition := some MatrixDisposition.modified })
      { target := t, sources := x, disposition := some MatrixDisposition.modified }
    simp only at this
    rw [this]
    rfl
  rcases hsrc with hsrc | hsrc <;>
    simp [handleMatrixConnections, processConnections, processConnection, secondChain, conclude,
      hcur, prepare,
      hunlocked, htype, prepareSingle, releaseSource, hgsc, hne', Step.emit, hcur1, hsrc,
      applyConnection, acceptsConnect, hcan, applySources, Step.setDisposition, finish,
      clientAddress] <;>
    exact ⟨hso, hst, hro _, hrt _⟩

/-- C1. oneToOne exclusivity. Let the matrix be oneToOne with one connection per
target and no source on two targets, let `canConnect` respect the oneToOne
topology for the requests the handler does not prepare itself
(`RespectsOneToOne`) and let `disconnectSources` only remove sources. Then
after any sequence of `handleMatrixConnections` calls, from clients or through
`matrixConnect`, with any requested connections, no source id appears in the
source set of more than one target. -/
theorem oneToOne_exclusivity (lib : EmberLib) (tree : Element) (m : Matrix)
    (calls : List (Option Client × List MatrixConnection × Bool))
    (hlib₁ : lib.RespectsOneToOne) (hlib₂ : lib.DisconnectRemoves)
    (htype : m.type = some MatrixType.oneToOne) (hwf : m.WF) (hex : m.Exclusive) :
    (handleSequence lib tree m calls).Exclusive := by
  have hinv : m.OneToOneInv := ⟨htype, hwf, hex⟩
  suffices h : (handleSequence lib tree m calls).OneToOneInv from h.2.2
  induction calls generalizing m with
  | nil => exact hinv
  | cons call rest ih =>
    obtain ⟨client, connections, response⟩ := call
    have h := handleMatrixConnections_inv lib tree client m connections response hlib₁ hlib₂ hinv
    exact ih _ h.1 h.2.1 h.2.2 h

/-- C1 at a concrete input: a client's `connect(1, [5])` followed by a
server-side `absolute(0, [5])` on `oneToOneMatrix`, with the spec's library. -/
theorem oneToOne_exclusivity_witness :
    (handleSequence specLib emptyTree oneToOneMatrix
      [(some someClient, [connectFiveToOne], true), (none, [setFive], false)]).Exclusive :=
  oneToOne_exclusivity specLib emptyTree oneToOneMatrix
    [(some someClient, [connectFiveToOne], true), (none, [setFive], false)]
    specLib_respectsOneToOne specLib_disconnectRemoves rfl oneToOneMatrix_wf
    oneToOneMatrix_exclusive

/-- C2 at Scenario A itself: target 0 of `oneToOneMatrix` carries source 5 and a
client requests `connect(target = 1, sources = [5])`. -/
theorem oneToOne_takeover_witness :
    (handleMatrixConnections specLib emptyTree (some someClient) oneToOneMatrix
      [{ target := 1, sources := some [5], operation := some MatrixOperation.connect }]
      true).emitted =
      [{ type := some EmitType.matrixDisconnect, target := 0, sources := some [5],
         client := some someClient.remoteAddress },
       { type := some EmitType.matrixConnect, target := 1, sources := some [5],
         client := some someClient.remoteAddress }] :=
  (oneToOne_takeover specLib emptyTree someClient oneToOneMatrix 1 0 5 { target := 1 } rfl
    oneToOneMatrix_wf oneToOneMatrix_exclusive (by decide) (by decide) rfl rfl rfl
    (by decide)).2.2.1

/-- C10, as amended. For a run that is asked for a response (every client
request), each processed connection appends events such that every target
whose sources it changed has a `matrix-connect`, `matrix-disconnect` or
`matrix-change` event for that target carrying the client identity, and so
does the whole run; a run not asked for a response emits no event, and so the
server-side operations `matrixConnect`, `matrixDisconnect` and `matrixSet`
emit nothing. -/
theorem state_change_emits_event (lib : EmberLib) (tree : Element) (client : Option Client)
    (st : LoopState) (connection : MatrixConnection) (m : Matrix)
    (connections : List MatrixConnection) :
    (∃ extra, (processConnection lib tree client true st connection).emitted =
        st.emitted ++ extra ∧
      ∀ u, (processConnection lib tree client true st connection).matrix.sourcesOf u ≠
          st.matrix.sourcesOf u →
        ∃ e ∈ extra, e.type ≠ none ∧ e.target = u ∧ e.client = clientAddress client) ∧
    (∀ u, (handleMatrixConnections lib tree client m connections true).matrix.sourcesOf u ≠
        m.sourcesOf u →
      ∃ e ∈ (handleMatrixConnections lib tree client m connections true).emitted,
        e.type ≠ none ∧ e.target = u ∧ e.client = clientAddress client) ∧
    (handleMatrixConnections lib tree client m connections false).emitted = [] ∧
    (∀ target sources operation,
      (doMatrixOperation lib tree m target sources operation).emitted = []) := by
  refine ⟨processConnection_covers lib tree client st connection, ?_, ?_, ?_⟩
  · obtain ⟨extra, he, hc⟩ := processConnections_covers lib tree client connections
      { matrix := m }
    rw [handleMatrixConnections_emitted, handleMatrixConnections_matrix, he]
    intro u hu
    obtain ⟨e, hmem, hp⟩ := hc u hu
    exact ⟨e, List.mem_append_right _ hmem, hp⟩
  · rw [handleMatrixConnections_emitted, processConnections_silent]
  · intro target sources operation
    unfold doMatrixOperation
    rw [handleMatrixConnections_emitted, processConnections_silent]

/-- C10 as amended, at a concrete input: a client empties target 0 of
`oneToOneMatrix` and a named event for target 0 with its address is emitted. -/
theorem state_change_emits_event_witness :
    ∃ e ∈ (processConnection specLib emptyTree (some someClient) true
        { matrix := oneToOneMatrix } clearRequest).emitted,
      e.type ≠ none ∧ e.target = 0 ∧ e.client = some someClient.remoteAddress := by
  obtain ⟨extra, he, hcov⟩ := (state_change_emits_event specLib emptyTree (some someClient)
    { matrix := oneToOneMatrix } clearRequest oneToOneMatrix []).1
  obtain ⟨e, hmem, hp⟩ := hcov 0 (by decide)
  exact ⟨e, by rw [he]; exact List.mem_append_right _ hmem, hp⟩

/-- C10 as stated fails. `matrixSet(path, 0, [])` changes the sources of
target 0 of `oneToOneMatrix` from `[5]` to `[]` and emits no event; and when a
client sends the same request, the only named event, `matrix-disconnect`,
carries the sources `[5]` the target had, not the requested `[]`. -/
theorem server_operation_emits_no_event :
    oneToOneMatrix.sourcesOf 0 = [5] ∧
    (matrixSet specLib emptyTree oneToOneMatrix 0 []).matrix.sourcesOf 0 = [] ∧
    (matrixSet specLib emptyTree oneToOneMatrix 0 []).emitted = [] ∧
    (handleMatrixConnections specLib emptyTree (some someClient) oneToOneMatrix [clearRequest]
      true).emitted =
      [{ type := some EmitType.matrixDisconnect, target := 0, sources := some [5],
         client := some someClient.remoteAddress },
       { type := none, target := 0, sources := some [],
         client := some someClient.remoteAddress }] := by
  refine ⟨by decide, by decide, by decide, by decide⟩

/-! ## Theorems on the server: administrative API, registry, commands and value mutation -/

/-- C11. Whenever the path resolves to no element, the element has no contents
or no `targetCount`, the target is negative or not below `targetCount`, or
`sources` has no length, each of `matrixConnect`, `matrixDisconnect` and
`matrixSet` raises an error to its caller and leaves the server as it was: the
tree with its matrix connections, the subscriber registry, and what has been
sent, queued and emitted. -/
theorem matrix_api_validation (lib : EmberLib) (srv : TreeServer) (path : List Int)
    (target : Int) (sources : Option (List Int))
    (h : srv.tree.getElementByPath path = Option.none ∨
      (∃ e, srv.tree.getElementByPath path = some e ∧ e.contents = Option.none) ∨
      (∃ e c, srv.tree.getElementByPath path = some e ∧ e.contents = some c ∧
        c.targetCount = Option.none) ∨
      (∃ e c n, srv.tree.getElementByPath path = some e ∧ e.contents = some c ∧
        c.targetCount = some n ∧ (target < 0 ∨ target ≥ n)) ∨
      sources = Option.none) :
    (∃ err, srv.matrixConnect lib path target sources = (srv, some err)) ∧
    (∃ err, srv.matrixDisconnect lib path target sources = (srv, some err)) ∧
    (∃ err, srv.matrixSet lib path target sources = (srv, some err)) := by
  have hv : ∃ err, validateMatrixOperation (srv.tree.getElementByPath path) target sources =
      Except.error err := by
    unfold validateMatrixOperation
    rcases h with h | ⟨e, he, h⟩ | ⟨e, c, he, hc, h⟩ | ⟨e, c, n, he, hc, hn, h⟩ | h
    · rw [h]
      exact ⟨_, rfl⟩
    · rw [he]
      simp only [h]
      exact ⟨_, rfl⟩
    · rw [he]
      simp only [hc, h]
      exact ⟨_, rfl⟩
    · rw [he]
      simp only [hc, hn, h, if_true]
      exact ⟨_, rfl⟩
    · subst h
      cases srv.tree.getElementByPath path with
      | none => exact ⟨_, rfl⟩
      | some e =>
        simp only
        cases e.contents with
        | none => exact ⟨_, rfl⟩
        | some c =>
          simp only
          cases c.targetCount with
          | none => exact ⟨_, rfl⟩
          | some n =>
            simp only
            split
            · exact ⟨_, rfl⟩
            · exact ⟨_, rfl⟩
  obtain ⟨err, herr⟩ := hv
  have hop : ∀ op, srv.doMatrixOperation lib path target sources op = (srv, some err) := by
    intro op
    unfold TreeServer.doMatrixOperation
    rw [herr]
  exact ⟨⟨err, hop _⟩, ⟨err, hop _⟩, ⟨err, hop _⟩⟩

/-- The validation of C11 at the matrix of `matrixServer`, which has two targets,
for the target 2. -/
theorem matrix_api_validation_witness :
    matrixServer.tree.getElementByPath [5] = some matrixElement ∧
    matrixElement.contents = some { targetCount := some 2 } ∧
    (∃ err, matrixServer.matrixConnect specLib [5] 2 (some [7]) = (matrixServer, some err)) ∧
    (∃ err, matrixServer.matrixDisconnect specLib [5] 2 (some [7]) =
      (matrixServer, some err)) ∧
    (∃ err, matrixServer.matrixSet specLib [5] 2 (some [7]) = (matrixServer, some err)) :=
  ⟨rfl, rfl, matrix_api_validation specLib matrixServer [5] 2 (some [7])
    (Or.inr (Or.inr (Or.inr (Or.inl ⟨matrixElement, _, 2, rfl, rfl, rfl,
      Or.inr (by decide)⟩))))⟩

/-- C12. Whatever the path, the response and the registry, a call of
`updateSubscribers` with the origin `origin` only appends to the queue of
messages, and none of the messages it appends is for `origin`, also when
`origin` is a live member of the subscriber set of the path. -/
theorem origin_is_never_queued (srv : TreeServer) (path : List Int) (response : Message)
    (origin : Client) :
    ∃ extra, (srv.updateSubscribers path response (some origin)).queued = srv.queued ++ extra ∧
      ∀ x ∈ extra, x.1 ≠ origin := by
  cases h : srv.subscribers path with
  | none =>
    rw [updateSubscribers_none srv path response _ h]
    exact ⟨[], by simp, by simp⟩
  | some set =>
    refine ⟨_, (updateSubscribers_some srv path response _ set h).1, ?_⟩
    intro x hx
    simp only [List.mem_map, List.mem_filter] at hx
    obtain ⟨c, ⟨_, hp⟩, rfl⟩ := hx
    simp only [pushed, Bool.and_eq_true, Bool.not_eq_true', decide_eq_false_iff_not,
      Option.some.injEq] at hp
    exact hp.1

/-- C13, amended. For a path with the subscriber set `set`, `updateSubscribers`
queues the response exactly once to every member of `set` that is live and is
not the origin, queues nothing to anyone else, leaves in the set of the path
exactly the members that are live or are the origin (so no client other than
the origin that is absent from the live set), and does not touch the set of
any other path. -/
theorem fan_out_and_pruning (srv : TreeServer) (path : List Int) (response : Message)
    (origin : Option Client) (set : List Client)
    (hset : srv.subscribers path = some set) (hnodup : set.Nodup) :
    ∃ extra pruned,
      (srv.updateSubscribers path response origin).queued = srv.queued ++ extra ∧
      (srv.updateSubscribers path response origin).subscribers path = some pruned ∧
      (∀ c ∈ set, c ∈ srv.clients → some c ≠ origin →
        extra.filter (fun x => decide (x.1 = c)) = [(c, response)]) ∧
      (∀ x ∈ extra, x.2 = response ∧ x.1 ∈ set ∧ x.1 ∈ srv.clients ∧ some x.1 ≠ origin) ∧
      (∀ c, c ∈ pruned ↔ c ∈ set ∧ (c ∈ srv.clients ∨ some c = origin)) ∧
      (∀ p, p ≠ path →
        (srv.updateSubscribers path response origin).subscribers p = srv.subscribers p) := by
  obtain ⟨h1, h2, h3, _⟩ := updateSubscribers_some srv path response origin set hset
  refine ⟨_, _, h1, h2, ?_, ?_, ?_, h3⟩
  · intro c hc hlive hne
    rw [List.filter_map]
    have hf : ((fun x : Client × Message => decide (x.1 = c)) ∘ fun c => (c, response)) =
        fun a => decide (a = c) := rfl
    rw [hf, filter_eq_singleton (hnodup.filter _)
      (List.mem_filter.mpr ⟨hc, by simp [pushed, hne, hlive]⟩)]
    rfl
  · intro x hx
    simp only [List.mem_map, List.mem_filter] at hx
    obtain ⟨c, ⟨hc, hp⟩, rfl⟩ := hx
    simp only [pushed, Bool.and_eq_true, Bool.not_eq_true', decide_eq_false_iff_not,
      decide_eq_true_eq] at hp
    exact ⟨rfl, hc, hp.2, hp.1⟩
  · intro c
    simp only [List.mem_filter, kept, Bool.or_eq_true, decide_eq_true_eq]
    tauto

/-- The amended C13 on `staleOriginServer` with no origin: the stale subscriber
is pruned. -/
theorem fan_out_and_pruning_witness :
    ∃ extra pruned,
      (staleOriginServer.updateSubscribers [1, 2] Message.minimalRoot Option.none).queued =
        staleOriginServer.queued ++ extra ∧
      (staleOriginServer.updateSubscribers [1, 2] Message.minimalRoot Option.none).subscribers
        [1, 2] = some pruned ∧
      ∀ c, c ∈ pruned ↔ c ∈ [someClient] ∧ (c ∈ staleOriginServer.clients ∨ some c = Option.none) := by
  obtain ⟨extra, pruned, h1, h2, _, _, h5, _⟩ :=
    fan_out_and_pruning staleOriginServer [1, 2] Message.minimalRoot Option.none [someClient]
      rfl (by decide)
  exact ⟨extra, pruned, h1, h2, h5⟩

/-- C13 as stated fails. `someClient` is the only subscriber of the path 1.2 and
is not live; after `updateSubscribers` with `someClient` as origin it is still
in the subscriber set of that path, because the loop passes over the origin
before it looks at the live set. -/
theorem stale_origin_is_not_pruned :
    staleOriginServer.subscribers [1, 2] = some [someClient] ∧
    someClient ∉ staleOriginServer.clients ∧
    (staleOriginServer.updateSubscribers [1, 2] Message.minimalRoot
      (some someClient)).subscribers [1, 2] = some [someClient] := by
  refine ⟨rfl, by decide, by decide⟩

/-- C14. After `subscribe(c, e)` the client `c` is a member of the subscriber set
of the path of `e`; after `unsubscribe(c, e)` it is not; subscribing twice is
subscribing once; `unsubscribe` on a path without entry changes nothing; and
neither operation changes the membership of another client or of another
path. -/
theorem subscription_registry_laws (srv : TreeServer) (c : Client) (e : EmberElement) :
    (srv.subscribe c e).subscribed e.path c ∧
    ¬ (srv.unsubscribe c e).subscribed e.path c ∧
    (srv.subscribe c e).subscribe c e = srv.subscribe c e ∧
    (srv.subscribers e.path = Option.none → srv.unsubscribe c e = srv) ∧
    (∀ p x, (x ≠ c ∨ p ≠ e.path) →
      ((srv.subscribe c e).subscribed p x ↔ srv.subscribed p x) ∧
      ((srv.unsubscribe c e).subscribed p x ↔ srv.subscribed p x)) ∧
    (∀ p, p ≠ e.path →
      (srv.subscribe c e).subscribers p = srv.subscribers p ∧
      (srv.unsubscribe c e).subscribers p = srv.subscribers p) := by
  refine ⟨?_, ?_, ?_, ?_, ?_, ?_⟩
  · rw [subscribed_subscribe]
    exact Or.inr ⟨rfl, rfl⟩
  · unfold TreeServer.subscribed
    rw [subscribers_unsubscribe, if_pos rfl]
    cases srv.subscribers e.path with
    | none => simp
    | some set => simp [mem_setDelete]
  · rw [subscribe_eq (srv.subscribe c e), subscribers_subscribe, if_pos rfl, Option.getD_some,
      setAdd_setAdd, subscribe_eq srv, setSubscribers_setSubscribers]
  · intro h
    unfold TreeServer.unsubscribe
    simp only [h]
  · intro p x hx
    constructor
    · rw [subscribed_subscribe]
      constructor
      · rintro (h | ⟨h1, h2⟩)
        · exact h
        · rcases hx with hx | hx
          · exact absurd h1 hx
          · exact absurd h2 hx
      · exact Or.inl
    · unfold TreeServer.subscribed
      rw [subscribers_unsubscribe]
      by_cases hp : p = e.path
      · rw [if_pos hp, hp]
        have hxc : x ≠ c := by
          rcases hx with hx | hx
          · exact hx
          · exact absurd hp hx
        cases srv.subscribers e.path with
        | none => simp
        | some set => simp [mem_setDelete, hxc]
      · rw [if_neg hp]
  · intro p hp
    rw [subscribers_subscribe, subscribers_unsubscribe, if_neg hp, if_neg hp]
    exact ⟨rfl, rfl⟩

/-- C15. For a known client `c`, `handleGetDirectory` on a Node makes `c` a
subscriber of exactly the paths of the children that are a Parameter or a
Matrix without stream identifier, all other memberships staying as they were;
on an element that is itself a Parameter or a Matrix without stream identifier
it makes `c` a subscriber of the path of that element only; on a Parameter or
a Matrix with a stream identifier it leaves the registry as it was. -/
theorem getDirectory_implicit_subscription (srv : TreeServer) (c : Client)
    (element : EmberElement) :
    (element.isNode = true → ∀ p x,
      ((srv.handleGetDirectory (some c) element).subscribed p x ↔
        srv.subscribed p x ∨
          (x = c ∧ ∃ child ∈ element.children.getD [],
            ((child.isMatrix = true ∨ child.isParameter = true) ∧ child.isStream = false) ∧
              child.path = p))) ∧
    ((element.isMatrix = true ∨ element.isParameter = true) → element.isStream = false →
      ∀ p x, ((srv.handleGetDirectory (some c) element).subscribed p x ↔
        srv.subscribed p x ∨ (x = c ∧ p = element.path))) ∧
    ((element.isMatrix = true ∨ element.isParameter = true) → element.isStream = true →
      (srv.handleGetDirectory (some c) element).subscribers = srv.subscribers) := by
  have hrep : ∀ e : EmberElement, e.reportsChanges = true ↔
      ((e.isMatrix = true ∨ e.isParameter = true) ∧ e.isStream = false) := by
    intro e
    unfold EmberElement.reportsChanges
    simp
  refine ⟨?_, ?_, ?_⟩
  · intro hnode p x
    unfold TreeServer.subscribed
    rw [handleGetDirectory_subscribers, node_not_reportsChanges element hnode]
    simp only [Bool.false_eq_true, if_false, hnode, if_true]
    cases hch : element.children with
    | none => simp
    | some children =>
      have := subscribeChildren_subscribed c children srv p x
      unfold TreeServer.subscribed at this
      simp only [Option.getD_some]
      rw [this]
      simp only [hrep]
  · intro hkind hstream p x
    unfold TreeServer.subscribed
    rw [handleGetDirectory_subscribers, if_pos ((hrep element).mpr ⟨hkind, hstream⟩)]
    exact subscribed_subscribe srv c element p x
  · intro hkind hstream
    have hnr : element.reportsChanges = false := by
      unfold EmberElement.reportsChanges
      simp [hstream]
    have hnn : element.isNode = false := by
      unfold EmberElement.isNode
      unfold EmberElement.isMatrix EmberElement.isParameter at hkind
      simp only [decide_eq_true_eq] at hkind
      rcases hkind with h | h <;> simp [h]
    rw [handleGetDirectory_subscribers, hnr, hnn]
    simp

/-- C16, amended. For a known client and a non-root element, `handleGetDirectory`
sends exactly one response and raises nothing. When the element has the
children c1..cn, the response holds the minimal qualified form of each child,
one level only, and not the form of the element itself; the qualified form of
the element is what the response holds when the element has no children. -/
theorem getDirectory_response (srv : TreeServer) (c : Client) (element : EmberElement)
    (hroot : element.isRoot = false) :
    (∀ children, element.children = some children →
      (srv.handleGetDirectory (some c) element).sent =
        srv.sent ++ [(c, Message.qualified
          (children.map (fun child => child.toQualified.getMinimalContent)))]) ∧
    (element.children = Option.none →
      (srv.handleGetDirectory (some c) element).sent =
        srv.sent ++ [(c, Message.qualified [element.toQualified])]) ∧
    (srv.handleGetDirectory (some c) element).thrown = srv.thrown := by
  have hsent : ∀ res, getQualifiedResponse element = some res →
      (srv.handleGetDirectory (some c) element).sent = srv.sent ++ [(c, res)] ∧
      (srv.handleGetDirectory (some c) element).thrown = srv.thrown := by
    intro res hres
    unfold TreeServer.handleGetDirectory
    simp only [hres, TreeServer.send]
    split
    · exact ⟨by rw [(subscribe_frame srv c element).1], (subscribe_frame srv c element).2.2.2.1⟩
    · split
      · split
        · rename_i children _
          exact ⟨by rw [(subscribeChildren_frame c children srv).1],
            (subscribeChildren_frame c children srv).2⟩
        · exact ⟨rfl, rfl⟩
      · exact ⟨rfl, rfl⟩
  have hq : ∃ res, getQualifiedResponse element = some res ∧
      (∀ children, element.children = some children →
        res = Message.qualified (children.map (fun child => child.toQualified.getMinimalContent))) ∧
      (element.children = Option.none → res = Message.qualified [element.toQualified]) := by
    unfold getQualifiedResponse
    simp only [hroot, if_true]
    cases hch : element.children with
    | none => exact ⟨_, rfl, by simp, fun _ => rfl⟩
    | some children => exact ⟨_, rfl, fun cs hcs => by rw [Option.some.inj hcs], by simp⟩
  obtain ⟨res, hres, h1, h2⟩ := hq
  obtain ⟨hs, ht⟩ := hsent res hres
  exact ⟨fun cs hcs => by rw [hs, h1 cs hcs], fun hn => by rw [hs, h2 hn], ht⟩

/-- The amended C16 on `directoryNode`, which has two children. -/
theorem getDirectory_response_witness :
    directoryNode.isRoot = false ∧
    (exampleServer.handleGetDirectory (some someClient) directoryNode).sent =
      exampleServer.sent ++ [(someClient, Message.qualified
        ([parameterChild, streamChild].map
          (fun child => child.toQualified.getMinimalContent)))] :=
  ⟨rfl, (getDirectory_response exampleServer someClient directoryNode rfl).1
    [parameterChild, streamChild] rfl⟩

/-- C16 as stated fails. `directoryNode`, at path 1, is no root and has two
children; the one response `handleGetDirectory` sends holds the minimal
qualified forms of the two children and no item for the path 1. -/
theorem directory_response_omits_the_element :
    directoryNode.isRoot = false ∧
    directoryNode.children = some [parameterChild, streamChild] ∧
    (exampleServer.handleGetDirectory (some someClient) directoryNode).sent =
      [(someClient, Message.qualified
        [parameterChild.toQualified.getMinimalContent,
         streamChild.toQualified.getMinimalContent])] ∧
    directoryNode.toQualified.getMinimalContent ∉
      [parameterChild.toQualified.getMinimalContent,
       streamChild.toQualified.getMinimalContent] ∧
    ∀ item ∈ [parameterChild.toQualified.getMinimalContent,
        streamChild.toQualified.getMinimalContent], item.path ≠ directoryNode.path := by
  refine ⟨rfl, rfl, rfl, by decide, by decide⟩

/-- C17. `handleInvoke` sends exactly one response to the client, a result whose
`invocationId` is the id of the invocation. The result is marked failed
exactly when the element is absent, is no Function, or its handler raises (a
Function without `func` raises when it is called); when the handler raises a
failure, an `error` event with that failure is emitted; when it returns, the
result carries the values returned for the arguments of the invocation and no
event is emitted. The tree, the subscriber registry, the live clients and the
queue are as before. -/
theorem invoke_definite_outcome (srv : TreeServer) (client : Client) (invocation : Invocation)
    (element : Option EmberElement) :
    ∃ result : InvocationResult,
      (srv.handleInvoke client invocation element).sent =
        srv.sent ++ [(client, Message.invocationResult result)] ∧
      result.invocationId = invocation.id ∧
      (result.failed = true ↔
        (element = Option.none ∨
          ∃ e, element = some e ∧
            (e.isFunction = false ∨ e.func = Option.none ∨
              ∃ f failure, e.func = some f ∧
                f invocation.arguments = Except.error failure))) ∧
      (∀ e f failure, element = some e → e.isFunction = true → e.func = some f →
        f invocation.arguments = Except.error failure →
        (srv.handleInvoke client invocation element).emitted =
          srv.emitted ++ [ServerEvent.error (ServerError.raised failure)]) ∧
      (∀ e f values, element = some e → e.isFunction = true → e.func = some f →
        f invocation.arguments = Except.ok values →
        result.result = some values ∧
        (srv.handleInvoke client invocation element).emitted = srv.emitted) ∧
      (srv.handleInvoke client invocation element).tree = srv.tree ∧
      (srv.handleInvoke client invocation element).subscribers = srv.subscribers ∧
      (srv.handleInvoke client invocation element).clients = srv.clients ∧
      (srv.handleInvoke client invocation element).queued = srv.queued := by
  have hframe : ∀ caught : Option ServerError,
      (match caught with
        | some e => srv.emit (ServerEvent.error e)
        | Option.none => srv).sent = srv.sent ∧
      (match caught with
        | some e => srv.emit (ServerEvent.error e)
        | Option.none => srv).tree = srv.tree ∧
      (match caught with
        | some e => srv.emit (ServerEvent.error e)
        | Option.none => srv).subscribers = srv.subscribers ∧
      (match caught with
        | some e => srv.emit (ServerEvent.error e)
        | Option.none => srv).clients = srv.clients ∧
      (match caught with
        | some e => srv.emit (ServerEvent.error e)
        | Option.none => srv).queued = srv.queued := by
    intro caught
    cases caught <;> exact ⟨rfl, rfl, rfl, rfl, rfl⟩
  obtain ⟨f1, f2, f3, f4, f5⟩ := hframe (invoke invocation element).2
  refine ⟨(invoke invocation element).1, ?_, ?_, ?_, ?_, ?_, ?_, ?_, ?_, ?_⟩
  · rw [handleInvoke_eq]
    simp only [TreeServer.send]
    rw [f1]
  · cases element with
    | none => rfl
    | some e =>
      by_cases h : e.isFunction = true
      · cases hf : e.func with
        | none => rw [invoke_no_handler invocation e h hf]
        | some f =>
          cases hr : f invocation.arguments with
          | ok values => rw [invoke_returns invocation e f values h hf hr]
          | error failure => rw [invoke_raises invocation e f failure h hf hr]
      · rw [invoke_not_function invocation e (by simpa using h)]
  · cases element with
    | none => simp [invoke_absent]
    | some e =>
      by_cases h : e.isFunction = true
      · cases hf : e.func with
        | none => simp [invoke_no_handler invocation e h hf, hf]
        | some f =>
          cases hr : f invocation.arguments with
          | ok values => simp [invoke_returns invocation e f values h hf hr, hf, hr, h]
          | error failure => simp [invoke_raises invocation e f failure h hf hr, hf, hr]
      · have h1 : e.isFunction = false := by simpa using h
        simp [invoke_not_function invocation e h1, h1]
  · intro e f failure he h hf hr
    subst he
    rw [handleInvoke_eq, invoke_raises invocation e f failure h hf hr]
    rfl
  · intro e f values he h hf hr
    subst he
    rw [handleInvoke_eq, invoke_returns invocation e f values h hf hr]
    exact ⟨rfl, rfl⟩
  · rw [handleInvoke_eq]
    exact f2
  · rw [handleInvoke_eq]
    exact f3
  · rw [handleInvoke_eq]
    exact f4
  · rw [handleInvoke_eq]
    exact f5

/-- C18. On a Parameter, `setValue(element, v, origin)` does nothing when the
element has no contents. With contents, the write is permitted exactly when
`access` is `write` or `readWrite`; then the value of the contents becomes
`v`, the response is queued to the live subscribers of the path other than
`origin`, and `value-change` is emitted; otherwise (`access` undefined, `none`
or `read`) the server and the element are as before. -/
theorem setValue_access_control (srv : TreeServer) (element : EmberElement) (v : Int)
    (origin : Option Client) (key : Option ContentsKey)
    (hparam : element.isParameter = true) :
    (element.contents = Option.none → srv.setValue element v origin key = (srv, element)) ∧
    (∀ c, element.contents = some c →
      (c.writable = true ↔
        c.access = some ParameterAccess.write ∨ c.access = some ParameterAccess.readWrite) ∧
      (c.writable = true →
        (srv.setValue element v origin key).2 =
          element.withContents (some { c with value := some v }) ∧
        (srv.setValue element v origin key).1 =
            (srv.updateSubscribers element.path
              (getResponse (element.withContents (some { c with value := some v })))
              origin).emit (ServerEvent.valueChange element.path) ∧
        (srv.setValue element v origin key).1.emitted =
          srv.emitted ++ [ServerEvent.valueChange element.path] ∧
        (srv.setValue element v origin key).1.queued =
          srv.queued ++
            (((srv.subscribers element.path).getD []).filter
              (fun s => !decide (some s = origin) && decide (s ∈ srv.clients))).map
              (fun s => (s, getResponse
                (element.withContents (some { c with value := some v }))))) ∧
      (c.writable = false → srv.setValue element v origin key = (srv, element))) := by
  constructor
  · intro hc
    unfold TreeServer.setValue
    rw [hc]
  · intro c hc
    refine ⟨writable_iff c, ?_, setValue_not_writable srv element v origin key c hparam hc⟩
    intro hw
    rw [setValue_writable srv element v origin key c hparam hc hw]
    have hassign : srv.assign element { c with value := some v } origin =
        ((srv.updateSubscribers element.path
          (getResponse (element.withContents (some { c with value := some v })))
          origin).emit (ServerEvent.valueChange element.path),
          element.withContents (some { c with value := some v })) := rfl
    rw [hassign]
    refine ⟨rfl, rfl, ?_, ?_⟩
    · simp only [TreeServer.emit]
      rw [(updateSubscribers_frame srv _ _ _).2.2.1]
    · simp only [TreeServer.emit]
      cases hs : srv.subscribers element.path with
      | none =>
        rw [updateSubscribers_none srv _ _ _ hs]
        simp
      | some set =>
        rw [(updateSubscribers_some srv _ _ _ set hs).1]
        rfl

/-- C18 on the writable parameter `parameterChild` and on `streamChild`, which
has no `access`. -/
theorem setValue_access_control_witness :
    (exampleServer.setValue parameterChild 42 (some otherClient) Option.none).2.contents =
      some { value := some 42, access := some ParameterAccess.readWrite } ∧
    (exampleServer.setValue streamChild 42 (some otherClient) Option.none) =
      (exampleServer, streamChild) := by
  obtain ⟨_, h⟩ := setValue_access_control exampleServer parameterChild 42 (some otherClient)
    Option.none rfl
  obtain ⟨_, h1, _⟩ := h _ rfl
  obtain ⟨_, h⟩ := setValue_access_control exampleServer streamChild 42 (some otherClient)
    Option.none rfl
  obtain ⟨_, _, h2⟩ := h _ rfl
  exact ⟨by rw [(h1 rfl).1]; rfl, h2 rfl⟩

/-- C19, amended. For a writable parameter at path P, a live client `C` among
the subscribers of P and another client `A` that sends a value-set request for
P, processing the request appends two messages to the queue of `C`: first the
response `setValue` pushes, which holds the updated value, then the response
the request handler pushes with its own call of `updateSubscribers`. For a
relative request (`handleNode`) the second message is the first one again; for
a qualified request (`handleQualifiedParameter`) it is the qualified response,
which holds the updated value when the parameter has no children and only the
minimal qualified forms of the children when it has children. Nothing is
appended to the queue of `A`, which is sent its direct response, the second
message. -/
theorem value_set_pushes_twice (lib : EmberLib) (srv : TreeServer) (element : EmberElement)
    (c : ElementContents) (v : Int) (C A : Client) (set : List Client)
    (hparam : element.isParameter = true) (hc : element.contents = some c)
    (hw : c.writable = true) (hset : srv.subscribers element.path = some set)
    (hnd : set.Nodup) (hC : C ∈ set) (hlive : C ∈ srv.clients) (hne : C ≠ A) :
    (∃ children, getResponse (element.withContents (some { c with value := some v })) =
      Message.response
        { path := element.path, contents := some { c with value := some v }, minimal := false }
        children) ∧
    (∀ parameter pc, parameter.contents = some pc → pc.value = some v →
      ∃ response,
        getQualifiedResponse (element.withContents (some { c with value := some v })) =
          some response ∧
        (element.children = Option.none → response = Message.qualified
          [{ path := element.path, contents := some { c with value := some v },
             minimal := false }]) ∧
        (∀ children, element.children = some children → response = Message.qualified
          (children.map (fun child => child.toQualified.getMinimalContent))) ∧
        (srv.handleQualifiedParameter A element parameter).1.queued.filter
            (fun x => decide (x.1 = C)) =
          srv.queued.filter (fun x => decide (x.1 = C)) ++
            [(C, getResponse (element.withContents (some { c with value := some v }))),
             (C, response)] ∧
        (srv.handleQualifiedParameter A element parameter).1.queued.filter
            (fun x => decide (x.1 = A)) =
          srv.queued.filter (fun x => decide (x.1 = A)) ∧
        (srv.handleQualifiedParameter A element parameter).1.sent =
          srv.sent ++ [(A, response)]) ∧
    (∀ node cmd path, descend node [] = Descent.found cmd path →
      srv.tree.getElementByPath path = some element → cmd.isParameter = true →
      cmd.contents.bind (fun pc => pc.value) = some v →
        (TreeServer.handleNode lib srv A node).1.queued.filter (fun x => decide (x.1 = C)) =
          srv.queued.filter (fun x => decide (x.1 = C)) ++
            [(C, getResponse (element.withContents (some { c with value := some v }))),
             (C, getResponse (element.withContents (some { c with value := some v })))] ∧
        (TreeServer.handleNode lib srv A node).1.queued.filter (fun x => decide (x.1 = A)) =
          srv.queued.filter (fun x => decide (x.1 = A)) ∧
        (TreeServer.handleNode lib srv A node).1.sent =
          srv.sent ++
            [(A, getResponse (element.withContents (some { c with value := some v })))]) := by
  refine ⟨⟨_, rfl⟩, ?_, ?_⟩
  · intro parameter pc hpc hv
    have hq : ∃ res,
        getQualifiedResponse (element.withContents (some { c with value := some v })) =
          some res ∧
        (element.children = Option.none → res = Message.qualified
          [{ path := element.path, contents := some { c with value := some v },
             minimal := false }]) ∧
        (∀ children, element.children = some children → res = Message.qualified
          (children.map (fun child => child.toQualified.getMinimalContent))) := by
      unfold getQualifiedResponse
      simp only [withContents_isRoot, parameter_not_root element hparam, if_true,
        withContents_children]
      cases hch : element.children with
      | none => exact ⟨_, rfl, fun _ => rfl, by simp⟩
      | some children =>
        exact ⟨_, rfl, by simp, fun cs hcs => by rw [Option.some.inj hcs]⟩
    obtain ⟨res, hres, hleaf, hnested⟩ := hq
    refine ⟨res, hres, hleaf, hnested, ?_⟩
    rw [handleQualifiedParameter_writable srv A element parameter c pc v res hparam hc hw hpc
      hv hres]
    exact two_pushes srv _ element.path _ res A C set hset hnd hC hlive hne rfl rfl
      (updateSubscribers_frame srv _ _ _).1
      (by
        show (srv.updateSubscribers _ _ _).sent ++ [(A, res)] = _
        rw [(updateSubscribers_frame srv _ _ _).2.2.2.1])
  · intro node cmd path hd he hcmd hv
    rw [handleNode_setValue lib srv A node cmd path element c v hd he hcmd hv hparam hc hw]
    exact two_pushes srv _ element.path _ _ A C set hset hnd hC hlive hne rfl rfl
      (updateSubscribers_frame srv _ _ _).1
      (by
        show (srv.updateSubscribers _ _ _).sent ++ [(A, _)] = _
        rw [(updateSubscribers_frame srv _ _ _).2.2.2.1])

/-- The amended C19 on Scenario B: `someClient` is subscribed to the parameter
1.2 and `otherClient` sets its value to 42; and the same request when the
parameter 1.2 has a child. -/
theorem value_set_pushes_twice_witness :
    (scenarioServer.handleQualifiedParameter otherClient parameterChild setRequest).1.queued.filter
        (fun x => decide (x.1 = someClient)) =
      [(someClient, getResponse (parameterChild.withContents
          (some { value := some 42, access := some ParameterAccess.readWrite }))),
       (someClient, Message.qualified
          [⟨[1, 2], some { value := some 42, access := some ParameterAccess.readWrite },
            false⟩])] ∧
    (scenarioServer.handleQualifiedParameter otherClient nestedParameter
        setRequest).1.queued.filter (fun x => decide (x.1 = someClient)) =
      [(someClient, getResponse (nestedParameter.withContents
          (some { value := some 42, access := some ParameterAccess.readWrite }))),
       (someClient, Message.qualified [⟨[1, 2, 1], some { value := some 0 }, true⟩])] ∧
    (TreeServer.handleNode specLib scenarioServer otherClient relativeSetRequest).1.queued.filter
        (fun x => decide (x.1 = otherClient)) = [] := by
  obtain ⟨_, h1, h2⟩ := value_set_pushes_twice specLib scenarioServer parameterChild
    { value := some 7, access := some ParameterAccess.readWrite } 42 someClient otherClient
    [someClient] rfl rfl rfl rfl (by decide) (by decide) (by decide) (by decide)
  obtain ⟨response, hres, hleaf, _, hq, _⟩ := h1 setRequest _ rfl rfl
  obtain ⟨_, hA, _⟩ := h2 relativeSetRequest _ [1, 2] rfl rfl rfl rfl
  obtain ⟨_, g1, _⟩ := value_set_pushes_twice specLib scenarioServer nestedParameter
    { value := some 7, access := some ParameterAccess.readWrite } 42 someClient otherClient
    [someClient] rfl rfl rfl rfl (by decide) (by decide) (by decide) (by decide)
  obtain ⟨response1, _, _, gnested, gq, _⟩ := g1 setRequest _ rfl rfl
  refine ⟨?_, ?_, hA⟩
  · rw [hq, hleaf rfl]
    rfl
  · rw [gq, gnested _ rfl]
    rfl

/-- C19 as stated fails. In Scenario B the queue of the server is empty before
the request; after the value-set request of `otherClient`, qualified or
relative, it holds two messages for the subscriber `someClient`, not one. -/
theorem scenario_b_pushes_twice :
    scenarioServer.queued = [] ∧
    ((scenarioServer.handleQualifiedParameter otherClient parameterChild
      setRequest).1.queued.map Prod.fst) = [someClient, someClient] ∧
    ((TreeServer.handleNode specLib scenarioServer otherClient
      relativeSetRequest).1.queued.map Prod.fst) = [someClient, someClient] := by
  refine ⟨rfl, by decide, by decide⟩

/-- C20 fails on the code. The relative request `relativeMatrixRequest` descends
to the matrix at path 5 of `matrixServer` and its terminal item is a matrix
carrying one connection; `handleNode` emits the error `invalid request
format`, answers with the branch of the element, returns no path and leaves
the tree as it was, whatever `canConnect` and `disconnectSources` are: the
branch that would call `handleMatrixConnections` tests `cmd.isCommand()`,
which the branch before it has already taken. -/
theorem relative_matrix_request_is_rejected (lib : EmberLib) :
    descend relativeMatrixRequest [] = Descent.found relativeMatrixRequest [5] ∧
    matrixServer.tree.getElementByPath [5] = some matrixElement ∧
    matrixElement.isMatrix = true ∧
    relativeMatrixRequest.isMatrix = true ∧
    relativeMatrixRequest.connections =
      some [{ target := 1, sources := some [7], operation := some MatrixOperation.connect }] ∧
    TreeServer.handleNode lib matrixServer someClient relativeMatrixRequest =
      ((matrixServer.emit (ServerEvent.error ServerError.invalidRequestFormat)).send someClient
        (Message.branch [5]), Option.none) ∧
    (TreeServer.handleNode lib matrixServer someClient relativeMatrixRequest).1.tree =
      matrixServer.tree ∧
    (TreeServer.handleNode lib matrixServer someClient relativeMatrixRequest).1.emitted =
      [ServerEvent.error ServerError.invalidRequestFormat] := by
  refine ⟨rfl, rfl, rfl, rfl, rfl, rfl, rfl, rfl⟩

/-! ## Theorems on the dispatcher, replaceElement and two behaviours of the handlers -/

/-- C21, amended. For a command whose number is none of GetDirectory, Subscribe,
Unsubscribe and Invoke, `handleCommand` emits one error event that names the
command number, and does nothing else: no response is sent to the client,
nothing is queued, and the tree and the subscriber registry are unchanged. -/
theorem unknown_command_only_emits (srv : TreeServer) (client : Client)
    (element : EmberElement) (cmd : RequestNode)
    (h1 : cmd.number ≠ some COMMAND_GETDIRECTORY) (h2 : cmd.number ≠ some COMMAND_SUBSCRIBE)
    (h3 : cmd.number ≠ some COMMAND_UNSUBSCRIBE) (h4 : cmd.number ≠ some COMMAND_INVOKE) :
    (srv.handleCommand client element cmd).emitted =
      srv.emitted ++ [ServerEvent.error (ServerError.invalidCommand cmd.number)] ∧
    (srv.handleCommand client element cmd).sent = srv.sent ∧
    (srv.handleCommand client element cmd).queued = srv.queued ∧
    (srv.handleCommand client element cmd).tree = srv.tree ∧
    (srv.handleCommand client element cmd).subscribers = srv.subscribers ∧
    (srv.handleCommand client element cmd).thrown = srv.thrown := by
  unfold TreeServer.handleCommand
  rw [if_neg h1, if_neg h2, if_neg h3, if_neg h4]
  exact ⟨rfl, rfl, rfl, rfl, rfl, rfl⟩

/-- The amended C21 for the command number 99 on `exampleServer`. -/
theorem unknown_command_only_emits_witness :
    (exampleServer.handleCommand someClient directoryNode (commandOf 99)).emitted =
      exampleServer.emitted ++ [ServerEvent.error (ServerError.invalidCommand (some 99))] ∧
    (exampleServer.handleCommand someClient directoryNode (commandOf 99)).sent =
      exampleServer.sent := by
  obtain ⟨h1, h2, _⟩ := unknown_command_only_emits exampleServer someClient directoryNode
    (commandOf 99) (by decide) (by decide) (by decide) (by decide)
  exact ⟨h1, h2⟩

/-- C21 as stated fails. The command with the number 99 is none of the four
known commands; `handleCommand` emits the error and the list of responses
sent, empty before the call, is still empty after it: the client is not sent
the minimal root of the tree. -/
theorem unknown_command_is_not_answered :
    (commandOf 99).isCommand = true ∧
    (commandOf 99).number ≠ some COMMAND_GETDIRECTORY ∧
    (commandOf 99).number ≠ some COMMAND_SUBSCRIBE ∧
    (commandOf 99).number ≠ some COMMAND_UNSUBSCRIBE ∧
    (commandOf 99).number ≠ some COMMAND_INVOKE ∧
    exampleServer.sent = [] ∧
    (exampleServer.handleCommand someClient directoryNode (commandOf 99)).sent = [] ∧
    (exampleServer.handleCommand someClient directoryNode (commandOf 99)).emitted =
      [ServerEvent.error (ServerError.invalidCommand (some 99))] := by
  refine ⟨rfl, by decide, by decide, by decide, by decide, rfl, rfl, rfl⟩

/-- C22. When no element of the tree is found at the path of a request, be it the
path of a qualified request (`handleQualifiedNode`) or the path a relative
request descends (`handleNode`), the server emits exactly one event, the error
`unknown element`, sends the client exactly one response, the minimal root of
the tree, and returns no path; the tree, the subscriber registry, the queue
and the live clients are unchanged, so no command and no mutation has run. -/
theorem unknown_path_is_answered_with_minimal_root (lib : EmberLib) (srv : TreeServer)
    (client : Client) (path : List Int) (hnone : srv.tree.getElementByPath path = Option.none) :
    (∀ node,
      (srv.handleQualifiedNode lib client node path).1.emitted =
        srv.emitted ++ [ServerEvent.error (ServerError.unknownElement path)] ∧
      (srv.handleQualifiedNode lib client node path).1.sent =
        srv.sent ++ [(client, Message.minimalRoot)] ∧
      (srv.handleQualifiedNode lib client node path).1.tree = srv.tree ∧
      (srv.handleQualifiedNode lib client node path).1.subscribers = srv.subscribers ∧
      (srv.handleQualifiedNode lib client node path).1.queued = srv.queued ∧
      (srv.handleQualifiedNode lib client node path).1.clients = srv.clients ∧
      (srv.handleQualifiedNode lib client node path).1.thrown = srv.thrown ∧
      (srv.handleQualifiedNode lib client node path).2 = Option.none) ∧
    (∀ node cmd, descend node [] = Descent.found cmd path →
      (TreeServer.handleNode lib srv client node).1.emitted =
        srv.emitted ++ [ServerEvent.error (ServerError.unknownElement path)] ∧
      (TreeServer.handleNode lib srv client node).1.sent =
        srv.sent ++ [(client, Message.minimalRoot)] ∧
      (TreeServer.handleNode lib srv client node).1.tree = srv.tree ∧
      (TreeServer.handleNode lib srv client node).1.subscribers = srv.subscribers ∧
      (TreeServer.handleNode lib srv client node).1.queued = srv.queued ∧
      (TreeServer.handleNode lib srv client node).1.clients = srv.clients ∧
      (TreeServer.handleNode lib srv client node).1.thrown = srv.thrown ∧
      (TreeServer.handleNode lib srv client node).2 = Option.none) := by
  constructor
  · intro node
    unfold TreeServer.handleQualifiedNode
    rw [hnone]
    exact ⟨rfl, rfl, rfl, rfl, rfl, rfl, rfl, rfl⟩
  · intro node cmd hd
    have heq : TreeServer.handleNode lib srv client node =
        ((srv.emit (ServerEvent.error (ServerError.unknownElement path))).handleError
          (some client) Option.none, Option.none) := by
      unfold TreeServer.handleNode
      rw [hd]
      simp only [hnone]
    rw [heq]
    exact ⟨rfl, rfl, rfl, rfl, rfl, rfl, rfl, rfl⟩

/-- C22 on `exampleServer` for the path 1.9, which has no element. -/
theorem unknown_path_is_answered_with_minimal_root_witness :
    exampleServer.tree.getElementByPath [1, 9] = Option.none ∧
    (exampleServer.handleQualifiedNode specLib someClient setRequest [1, 9]).1.sent =
      exampleServer.sent ++ [(someClient, Message.minimalRoot)] ∧
    (TreeServer.handleNode specLib exampleServer someClient
      (relativeChain [1, 9] (commandOf 32))).1.sent =
      exampleServer.sent ++ [(someClient, Message.minimalRoot)] := by
  obtain ⟨h1, h2⟩ :=
    unknown_path_is_answered_with_minimal_root specLib exampleServer someClient [1, 9] rfl
  exact ⟨rfl, (h1 setRequest).2.1, (h2 (relativeChain [1, 9] (commandOf 32)) (commandOf 32)
    rfl).2.1⟩

/-- C23, amended. For numbers n1..nk with k at least 1 and a command `c` that
carries a number, `handleRoot` does the same on the relative request, the
single-child chain of nodes n1..nk ending in `c`, and on the qualified request
with the path n1..nk whose first child is `c`: the states of the server and
the returned paths are equal. When an element is found at the path, both are
the call of `handleCommand` with that element and `c`; when none is found,
both emit the error and answer with the minimal root. -/
theorem relative_and_qualified_dispatch_alike (lib : EmberLib) (srv : TreeServer)
    (client : Client) (ns : List Int) (c : RequestNode) (code : Int)
    (hk : ns ≠ []) (hc : c.isCommand = true) (hn : c.number = some code) :
    srv.handleRoot lib client [relativeChain ns c] =
      srv.handleRoot lib client [qualifiedRequest ns c] ∧
    (∀ element, srv.tree.getElementByPath ns = some element →
      srv.handleRoot lib client [relativeChain ns c] =
        (srv.handleCommand client element c, some ns) ∧
      srv.handleRoot lib client [qualifiedRequest ns c] =
        (srv.handleCommand client element c, some ns)) ∧
    (srv.tree.getElementByPath ns = Option.none →
      srv.handleRoot lib client [relativeChain ns c] =
        ((srv.emit (ServerEvent.error (ServerError.unknownElement ns))).send client
          Message.minimalRoot, Option.none)) := by
  have hrel : srv.handleRoot lib client [relativeChain ns c] =
      TreeServer.handleNode lib srv client (relativeChain ns c) := by
    cases ns with
    | nil => exact absurd rfl hk
    | cons n rest => rfl
  have hqual : srv.handleRoot lib client [qualifiedRequest ns c] =
      srv.handleQualifiedNode lib client (qualifiedRequest ns c) ns := rfl
  have hd : descend (relativeChain ns c) [] = Descent.found c ns := by
    rw [descend_relativeChain c code hc hn ns []]
    simp
  have hnode : TreeServer.handleNode lib srv client (relativeChain ns c) =
      match srv.tree.getElementByPath ns with
      | Option.none =>
        ((srv.emit (ServerEvent.error (ServerError.unknownElement ns))).handleError
          (some client) Option.none, Option.none)
      | some element => (srv.handleCommand client element c, some ns) := by
    unfold TreeServer.handleNode
    rw [hd]
    simp only
    cases srv.tree.getElementByPath ns with
    | none => rfl
    | some element => simp only [hc, if_true]
  have hq : srv.handleQualifiedNode lib client (qualifiedRequest ns c) ns =
      match srv.tree.getElementByPath ns with
      | Option.none =>
        ((srv.emit (ServerEvent.error (ServerError.unknownElement ns))).handleError
          (some client) Option.none, Option.none)
      | some element => (srv.handleCommand client element c, some ns) := by
    unfold TreeServer.handleQualifiedNode
    cases srv.tree.getElementByPath ns with
    | none => rfl
    | some element => simp only [qualifiedRequest, RequestNode.children, hc, if_true]
  rw [hrel, hqual, hnode, hq]
  refine ⟨rfl, ?_, ?_⟩
  · intro element he
    rw [he]
    exact ⟨rfl, rfl⟩
  · intro he
    rw [he]
    rfl

/-- The amended C23 for GetDirectory on the node 1 of `exampleServer`. -/
theorem relative_and_qualified_dispatch_alike_witness :
    exampleServer.handleRoot specLib someClient
        [relativeChain [1] (commandOf COMMAND_GETDIRECTORY)] =
      exampleServer.handleRoot specLib someClient
        [qualifiedRequest [1] (commandOf COMMAND_GETDIRECTORY)] ∧
    exampleServer.handleRoot specLib someClient
        [relativeChain [1] (commandOf COMMAND_GETDIRECTORY)] =
      (exampleServer.handleCommand someClient directoryNode (commandOf COMMAND_GETDIRECTORY),
        some [1]) := by
  obtain ⟨h1, h2, _⟩ := relative_and_qualified_dispatch_alike specLib exampleServer someClient
    [1] (commandOf COMMAND_GETDIRECTORY) COMMAND_GETDIRECTORY (by decide) rfl rfl
  exact ⟨h1, (h2 directoryNode rfl).1⟩

/-- C23 as stated fails. For the item of class Command without number, the
qualified request with path 1 reaches `handleCommand` with the node at path 1,
which emits `invalid command`, while the relative request is stopped by the
test `element.number == null` of the descent, which emits `invalid request`
and returns no path. -/
theorem numberless_command_is_dispatched_differently :
    numberlessCommand.isCommand = true ∧
    exampleServer.tree.getElementByPath [1] = some directoryNode ∧
    exampleServer.handleRoot specLib someClient [qualifiedRequest [1] numberlessCommand] =
      (exampleServer.handleCommand someClient directoryNode numberlessCommand, some [1]) ∧
    exampleServer.handleRoot specLib someClient [relativeChain [1] numberlessCommand] =
      (exampleServer.emit (ServerEvent.error ServerError.invalidRequest), Option.none) ∧
    (exampleServer.handleRoot specLib someClient
      [qualifiedRequest [1] numberlessCommand]).1.emitted =
      [ServerEvent.error (ServerError.invalidCommand Option.none)] ∧
    (exampleServer.handleRoot specLib someClient
      [relativeChain [1] numberlessCommand]).1.emitted =
      [ServerEvent.error ServerError.invalidRequest] := by
  refine ⟨rfl, rfl, rfl, rfl, rfl, rfl⟩

/-- C24. In a tree whose paths are derived from the numbers, let the path of
`element` resolve to `old` below the root. Then the parent of `old` is found
at the path without its last number, `old` is the first of its children with
its number, and `replaceElement` raises nothing, leaves the children of that
parent as they were with `element` at the place of `old` (the parent link of
`element` is its place among these children), and queues the response built
for `element` once to every live subscriber of the path; nothing is sent or
emitted and no other subscriber set changes. When the path resolves to nothing
or to the root, which has no parent, the call raises an error and leaves the
server as it was. -/
theorem replaceElement_swaps_in_place (srv : TreeServer) (element : EmberElement)
    (hwf : srv.tree.PathsDerived) :
    (∀ old, srv.tree.getElementByPath element.path = some old → element.path ≠ [] →
      ∃ parent pre post,
        srv.tree.getElementByPath element.path.dropLast = some parent ∧
        parent.children = some (pre ++ old :: post) ∧
        (∀ c ∈ pre, c.number ≠ old.number) ∧
        (srv.replaceElement element).2 = Option.none ∧
        (srv.replaceElement element).1.tree =
          srv.tree.replaceAt element.path.dropLast
            (parent.withChildren (pre ++ element :: post)) ∧
        ((srv.replaceElement element).1.tree.getElementByPath element.path.dropLast).bind
            (fun p => p.children) = some (pre ++ element :: post) ∧
        (srv.replaceElement element).1.queued =
          srv.queued ++
            (((srv.subscribers element.path).getD []).filter
              (fun s => decide (s ∈ srv.clients))).map
              (fun s => (s, getResponse element)) ∧
        (∀ set C, srv.subscribers element.path = some set → set.Nodup → C ∈ set →
          C ∈ srv.clients →
          (srv.replaceElement element).1.queued.filter (fun x => decide (x.1 = C)) =
            srv.queued.filter (fun x => decide (x.1 = C)) ++ [(C, getResponse element)]) ∧
        (srv.replaceElement element).1.sent = srv.sent ∧
        (srv.replaceElement element).1.emitted = srv.emitted ∧
        (∀ p, p ≠ element.path →
          (srv.replaceElement element).1.subscribers p = srv.subscribers p)) ∧
    ((srv.tree.getElementByPath element.path = Option.none ∨ element.path = []) →
      srv.replaceElement element = (srv, some ReplaceError.elementNotFound)) := by
  constructor
  · intro old hfound hne
    obtain ⟨parent, pre, post, hparent, hchildren, _, hpre⟩ :=
      found_below_parent srv.tree element.path old hfound hne
    have heq := replaceElement_found srv element old parent pre post hwf hfound hne hparent
      hchildren hpre
    have hframe := updateSubscribers_frame
      (srv.withTree (srv.tree.replaceAt element.path.dropLast
            (parent.withChildren (pre ++ element :: post))))
      element.path (getResponse element) Option.none
    have hqueue : ∀ t1 : EmberElement,
        ((srv.withTree t1).updateSubscribers element.path (getResponse element)
          Option.none).queued =
        srv.queued ++
          (((srv.subscribers element.path).getD []).filter
            (fun s => decide (s ∈ srv.clients))).map (fun s => (s, getResponse element)) := by
      intro t1
      cases hs : srv.subscribers element.path with
      | none =>
        rw [updateSubscribers_none (srv.withTree t1) _ _ _ hs]
        simp [TreeServer.withTree]
      | some set =>
        rw [(updateSubscribers_some (srv.withTree t1) _ _ _ set hs).1]
        have hp : pushed Option.none (srv.withTree t1).clients =
            fun s => decide (s ∈ srv.clients) := by
          funext s
          simp [pushed, TreeServer.withTree]
        rw [hp]
        rfl
    have honce : ∀ (t1 : EmberElement) (set : List Client) (C : Client),
        srv.subscribers element.path = some set → set.Nodup → C ∈ set → C ∈ srv.clients →
        ((srv.withTree t1).updateSubscribers element.path (getResponse element)
          Option.none).queued.filter (fun x => decide (x.1 = C)) =
          srv.queued.filter (fun x => decide (x.1 = C)) ++ [(C, getResponse element)] := by
      intro t1 set C hset hnd hC hlive
      rw [(updateSubscribers_some (srv.withTree t1) _ _ _ set hset).1, List.filter_append]
      have hp : pushed Option.none (srv.withTree t1).clients C = true := by
        simp [pushed, hlive, TreeServer.withTree]
      rw [queued_filter_pushed Option.none _ (getResponse element) hnd hC hp]
      rfl
    refine ⟨parent, pre, post, hparent, hchildren, hpre, ?_, ?_, ?_, ?_, ?_, ?_, ?_, ?_⟩
    · rw [heq]
    · rw [heq]
      exact hframe.2.1
    · rw [heq]
      show Option.bind (EmberElement.getElementByPath _ _) _ = _
      rw [hframe.2.1]
      show Option.bind ((srv.tree.replaceAt element.path.dropLast
        (parent.withChildren (pre ++ element :: post))).getElementByPath
          element.path.dropLast) _ = _
      rw [getElementByPath_replaceAt srv.tree _ parent
        (parent.withChildren (pre ++ element :: post)) hparent rfl]
      rfl
    · rw [heq]
      exact hqueue _
    · intro set C hset hnd hC hlive
      rw [heq]
      exact honce _ set C hset hnd hC hlive
    · rw [heq]
      exact hframe.2.2.2.1
    · rw [heq]
      exact hframe.2.2.1
    · intro p hp
      rw [heq]
      exact hframe.2.2.2.2.2 p hp
  · intro h
    unfold TreeServer.replaceElement EmberElement.parentAt
    rcases h with h | h
    · simp only [h]
    · simp only [h, if_true]
      cases srv.tree.getElementByPath [] <;> rfl

/-- C24 on `scenarioServer`: `replacement` takes the place of `parameterChild`
at path 1.2 and the subscriber `someClient` is queued one message. -/
theorem replaceElement_swaps_in_place_witness :
    ∃ parent pre post,
      scenarioServer.tree.getElementByPath [1] = some parent ∧
      parent.children = some (pre ++ parameterChild :: post) ∧
      ((scenarioServer.replaceElement replacement).1.tree.getElementByPath [1]).bind
          (fun p => p.children) = some (pre ++ replacement :: post) ∧
      (scenarioServer.replaceElement replacement).1.queued.filter
          (fun x => decide (x.1 = someClient)) =
        scenarioServer.queued.filter (fun x => decide (x.1 = someClient)) ++
          [(someClient, getResponse replacement)] := by
  obtain ⟨h, _⟩ := replaceElement_swaps_in_place scenarioServer replacement
    exampleRoot_pathsDerived
  obtain ⟨parent, pre, post, h1, h2, _, _, _, h6, _, h8, _⟩ :=
    h parameterChild rfl (by decide)
  exact ⟨parent, pre, post, h1, h2, h6,
    h8 [someClient] someClient rfl (by decide) (by decide) (by decide)⟩

/-- C25. On a oneToOne matrix, let the unlocked target `t` carry exactly the
source `s`, and let `disconnectSources` remove a source that is asked for. A
connect or absolute request of a client for `t` with the sources `[s]` is
turned into a disconnect: the sources of `t` become what `disconnectSources`
leaves, `s` is no longer among them, the response gives `t` the disposition
`modified`, and the one event emitted is `matrix-disconnect` for `t`. -/
theorem oneToOne_rerequest_toggles (lib : EmberLib) (tree : Element) (client : Client)
    (m : Matrix) (t s : Int) (cur : MatrixConnection) (op : MatrixOperation)
    (htype : m.type = some MatrixType.oneToOne)
    (hcur : m.getConnection t = some cur)
    (hunlocked : cur.isLocked = false)
    (hsrc : cur.sources = some [s])
    (hop : op = MatrixOperation.connect ∨ op = MatrixOperation.absolute)
    (hrem : s ∉ (lib.disconnectSources (some [s]) (some [s])).getD []) :
    (handleMatrixConnections lib tree (some client) m
      [{ target := t, sources := some [s], operation := some op }] true).matrix =
      m.updateSources t (fun old => lib.disconnectSources old (some [s])) ∧
    s ∉ (handleMatrixConnections lib tree (some client) m
      [{ target := t, sources := some [s], operation := some op }] true).matrix.sourcesOf t ∧
    responseDisposition (handleMatrixConnections lib tree (some client) m
      [{ target := t, sources := some [s], operation := some op }]
      true).response.connections t = some MatrixDisposition.modified ∧
    (handleMatrixConnections lib tree (some client) m
      [{ target := t, sources := some [s], operation := some op }] true).emitted =
      [{ type := some EmitType.matrixDisconnect, target := t, sources := some [s],
         client := some client.remoteAddress }] ∧
    (handleMatrixConnections lib tree (some client) m
      [{ target := t, sources := some [s], operation := some op }] true).thrown = false := by
  have hrel : ∀ st : Step, st.matrix = m → st.connection.target = t →
      releaseSource (some client) true s st = st := by
    intro st hm ht
    exact releaseSource_of_holder (some client) true s st cur (by rw [hm, ht]; exact hcur) hsrc
  have hst : (m.updateSources t (fun old => lib.disconnectSources old (some [s]))).sourcesOf t =
      (lib.disconnectSources (some [s]) (some [s])).getD [] := by
    rw [sourcesOf_updateSources, if_pos rfl]
    simp only [hcur, hsrc]
  have hopne : some op ≠ some MatrixOperation.disconnect := by
    rcases hop with h | h <;> simp [h]
  have hhas : cur.hasSources = true := by
    unfold MatrixConnection.hasSources
    rw [hsrc]
  have hrd : ∀ (x : Option (List Int)),
      responseDisposition (setResult (setResult [] { target := t })
        { target := t, sources := x, disposition := some MatrixDisposition.modified }) t =
      some MatrixDisposition.modified := by
    intro x
    unfold responseDisposition
    have := getResult_setResult (setResult [] { target := t })
      { target := t, sources := x, disposition := some MatrixDisposition.modified }
    simp only at this
    rw [this]
    rfl
  simp [handleMatrixConnections, processConnections, processConnection, secondChain, conclude,
    hcur, prepare, hunlocked, htype, prepareSingle, hrel, hsrc, substituteDefault, releaseTarget,
    hopne, applyConnection, acceptsConnect, hhas, disconnectOther, Step.setDisposition, finish,
    Step.emit, clientAddress]
  exact ⟨by rw [hst]; exact hrem, hrd _⟩

/-- C25 on `oneToOneMatrix`, whose target 0 carries the source 5. -/
theorem oneToOne_rerequest_toggles_witness :
    (handleMatrixConnections specLib emptyTree (some someClient) oneToOneMatrix
      [{ target := 0, sources := some [5], operation := some MatrixOperation.connect }]
      true).matrix.sourcesOf 0 = [] ∧
    (handleMatrixConnections specLib emptyTree (some someClient) oneToOneMatrix
      [{ target := 0, sources := some [5], operation := some MatrixOperation.connect }]
      true).emitted =
      [{ type := some EmitType.matrixDisconnect, target := 0, sources := some [5],
         client := some someClient.remoteAddress }] := by
  obtain ⟨_, _, _, h4, _⟩ := oneToOne_rerequest_toggles specLib emptyTree someClient
    oneToOneMatrix 0 5 { target := 0, sources := some [5] } MatrixOperation.connect rfl rfl rfl
    rfl (Or.inl rfl) (by decide)
  exact ⟨by decide, h4⟩

/-- C26. For a qualified value-set request of the client `A` on a Parameter that
has no contents or whose access does not permit write,
`handleQualifiedParameter` leaves the element, and so its value, and the tree
as they were and emits nothing, yet sends `A` one response, the qualified
response of the element, and queues that response to the live subscribers of
the path other than `A`, once to each. -/
theorem refused_value_set_is_answered (srv : TreeServer) (A : Client) (element : EmberElement)
    (parameter : RequestNode) (pc : ElementContents) (v : Int)
    (hparam : element.isParameter = true)
    (hrefused : ∀ c, element.contents = some c → c.writable = false)
    (hpc : parameter.contents = some pc) (hv : pc.value = some v) :
    ∃ response, getQualifiedResponse element = some response ∧
      (srv.handleQualifiedParameter A element parameter).2 = element ∧
      (srv.handleQualifiedParameter A element parameter).1.tree = srv.tree ∧
      (srv.handleQualifiedParameter A element parameter).1.emitted = srv.emitted ∧
      (srv.handleQualifiedParameter A element parameter).1.sent = srv.sent ++ [(A, response)] ∧
      (srv.handleQualifiedParameter A element parameter).1.queued =
        srv.queued ++
          (((srv.subscribers element.path).getD []).filter
            (fun s => !decide (some s = some A) && decide (s ∈ srv.clients))).map
            (fun s => (s, response)) ∧
      (∀ set C, srv.subscribers element.path = some set → set.Nodup → C ∈ set →
        C ∈ srv.clients → C ≠ A →
        (srv.handleQualifiedParameter A element parameter).1.queued.filter
            (fun x => decide (x.1 = C)) =
          srv.queued.filter (fun x => decide (x.1 = C)) ++ [(C, response)]) := by
  have hq : ∃ res, getQualifiedResponse element = some res := by
    unfold getQualifiedResponse
    simp only [parameter_not_root element hparam, if_true]
    cases element.children with
    | none => exact ⟨_, rfl⟩
    | some children => exact ⟨_, rfl⟩
  obtain ⟨res, hres⟩ := hq
  have heq : srv.handleQualifiedParameter A element parameter =
      ((srv.send A res).updateSubscribers element.path res (some A), element) := by
    unfold TreeServer.handleQualifiedParameter
    rw [hpc]
    simp only [hv]
    rw [setValue_refused srv element v (some A) Option.none hparam hrefused]
    simp only [hres]
  have hqueue : ((srv.send A res).updateSubscribers element.path res (some A)).queued =
      srv.queued ++
        (((srv.subscribers element.path).getD []).filter
          (fun s => !decide (some s = some A) && decide (s ∈ srv.clients))).map
          (fun s => (s, res)) := by
    cases hs : srv.subscribers element.path with
    | none =>
      rw [updateSubscribers_none (srv.send A res) _ _ _ hs]
      simp [TreeServer.send]
    | some set =>
      rw [(updateSubscribers_some (srv.send A res) _ _ _ set hs).1]
      rfl
  refine ⟨res, hres, ?_, ?_, ?_, ?_, ?_, ?_⟩
  · rw [heq]
  · rw [heq]
    exact (updateSubscribers_frame (srv.send A res) _ _ _).2.1
  · rw [heq]
    exact (updateSubscribers_frame (srv.send A res) _ _ _).2.2.1
  · rw [heq]
    exact (updateSubscribers_frame (srv.send A res) _ _ _).2.2.2.1
  · rw [heq]
    exact hqueue
  · intro set C hset hnd hC hlive hne
    rw [heq]
    show ((srv.send A res).updateSubscribers element.path res (some A)).queued.filter _ = _
    rw [(updateSubscribers_some (srv.send A res) _ _ _ set hset).1, List.filter_append]
    have hp : pushed (some A) (srv.send A res).clients C = true := by
      simp [pushed, hne, hlive, TreeServer.send]
    rw [queued_filter_pushed (some A) (srv.send A res).clients res hnd hC hp]
    rfl

/-- C26 on `readOnlyServer`: `otherClient` asks for the value 42 on the read-only
parameter 1.2, to which `someClient` is subscribed. -/
theorem refused_value_set_is_answered_witness :
    ∃ response, getQualifiedResponse replacement = some response ∧
      (readOnlyServer.handleQualifiedParameter otherClient replacement setRequest).2 =
        replacement ∧
      (readOnlyServer.handleQualifiedParameter otherClient replacement setRequest).1.sent =
        readOnlyServer.sent ++ [(otherClient, response)] ∧
      (readOnlyServer.handleQualifiedParameter otherClient replacement setRequest).1.queued.filter
          (fun x => decide (x.1 = someClient)) =
        readOnlyServer.queued.filter (fun x => decide (x.1 = someClient)) ++
          [(someClient, response)] := by
  obtain ⟨response, h1, h2, _, _, h5, _, h7⟩ :=
    refused_value_set_is_answered readOnlyServer otherClient replacement setRequest
      { value := some 42 } 42 rfl
      (by
        intro c hc
        cases hc
        rfl)
      rfl rfl
  exact ⟨response, h1, h2, h5,
    h7 [someClient] someClient rfl (by decide) (by decide) (by decide) (by decide)⟩

end EmberServer
